import Mathlib

/-!
# A shallow embedding of the Draco compression pipeline of gltf-pipeline

This file models, in Lean 4, the mesh- and animation-compression passes of the
repository (src/lib/compressDracoMeshes.js, src/lib/compressDracoAnimations.js
and the decompression source), and proves properties of the model
corresponding to the repository's specification.

Modelling conventions:
* glTF arrays (accessors, buffers, bufferViews, meshes) are Lean lists;
  identifiers are positions in those lists, as in the JSON model.
* JavaScript in-place mutation is modelled by explicit state passing.
* Thrown runtime errors (both explicit `RuntimeError`s and implicit
  `TypeError`s from reading fields of `undefined`) are modelled with
  `Except String`.
* Numeric component data is modelled at the bit-pattern level: an element of a
  typed store is a `Nat` holding the element's bit pattern at the store's
  element width.  Integer components carry their two's-complement pattern;
  32-bit float components are represented by their 32-bit patterns.  The
  pipeline only ever copies attribute components between typed arrays of
  matching width (it performs no arithmetic on them), so this representation
  is exact, including the "bit-for-bit for 32-bit floats" reading.
* The Draco codec itself is an external collaborator ("treated as a black box
  with a boolean/status result and byte-array output", spec §1).  It is
  modelled from the spec: the encoded payload retains the faces and typed
  attribute data handed to the mesh builder together with the encoder's
  recorded quantization settings; decoding returns the data exactly when no
  quantization was set (spec §8, round trip with no quantization) and an
  explicitly lossy placeholder otherwise.
-/

instance {ε α : Type} [DecidableEq ε] [DecidableEq α] : DecidableEq (Except ε α) := fun x y =>
  match x, y with
  | Except.error a, Except.error b =>
    if h : a = b then Decidable.isTrue (by rw [h])
    else Decidable.isFalse (fun hc => h (Except.error.inj hc))
  | Except.ok a, Except.ok b =>
    if h : a = b then Decidable.isTrue (by rw [h])
    else Decidable.isFalse (fun hc => h (Except.ok.inj hc))
  | Except.error _, Except.ok _ => Decidable.isFalse (fun hc => Except.noConfusion hc)
  | Except.ok _, Except.error _ => Decidable.isFalse (fun hc => Except.noConfusion hc)

/-! ## WebGL / glTF constants (Cesium.WebGLConstants) -/

def WebGL_BYTE : Nat := 5120
def WebGL_UNSIGNED_BYTE : Nat := 5121
def WebGL_SHORT : Nat := 5122
def WebGL_UNSIGNED_SHORT : Nat := 5123
def WebGL_INT : Nat := 5124
def WebGL_UNSIGNED_INT : Nat := 5125
def WebGL_FLOAT : Nat := 5126
def WebGL_TRIANGLES : Nat := 4

/-! ## Bit-pattern arithmetic for typed stores -/

/-- Element width in bits of a glTF component type. -/
def ctWidth (componentType : Nat) : Nat :=
  if componentType = WebGL_BYTE ∨ componentType = WebGL_UNSIGNED_BYTE then 8
  else if componentType = WebGL_SHORT ∨ componentType = WebGL_UNSIGNED_SHORT then 16
  else 32

/-- Whether a glTF component type is read back as a signed integer.
32-bit floats are handled as raw 32-bit patterns (see the module comment), so
they count as unsigned here. -/
def ctSigned (componentType : Nat) : Bool :=
  componentType = WebGL_BYTE ∨ componentType = WebGL_SHORT ∨ componentType = WebGL_INT

/-- The bit pattern stored when the value `v` is written into a typed array
element of width `w` (JavaScript typed-array coercion: reduction mod `2^w`). -/
def toBits (w : Nat) (v : Int) : Nat := (v.emod (2 ^ w)).toNat

/-- The value read back from the bit pattern `b` of an element of width `w`,
signed or unsigned. -/
def fromBits (signed : Bool) (w : Nat) (b : Nat) : Int :=
  if signed ∧ 2 ^ (w - 1) ≤ b then (b : Int) - 2 ^ w else (b : Int)

/-- The values representable by a component type (two's complement range for
signed integer types, `[0, 2^w)` otherwise). -/
def inRangeCT (componentType : Nat) (v : Int) : Prop :=
  if ctSigned componentType then
    -(2 ^ (ctWidth componentType - 1)) ≤ v ∧ v < 2 ^ (ctWidth componentType - 1)
  else 0 ≤ v ∧ v < 2 ^ (ctWidth componentType)

instance (ct : Nat) (v : Int) : Decidable (inRangeCT ct v) := by
  unfold inRangeCT; infer_instance

theorem toBits_lt (w : Nat) (v : Int) : toBits w v < 2 ^ w := by
  unfold toBits
  have h2 : (0 : Int) < 2 ^ w := by positivity
  have hnn : 0 ≤ v.emod (2 ^ w) := Int.emod_nonneg v (ne_of_gt h2)
  have hlt : v.emod (2 ^ w) < 2 ^ w := Int.emod_lt_of_pos v h2
  have hcast : ((2 ^ w : Nat) : Int) = (2 : Int) ^ w := by push_cast; ring
  omega

/-- Round trip of a single element through a typed store: writing a value in
the component type's range and reading it back at the same width and
signedness is the identity. -/
theorem fromBits_toBits (signed : Bool) (w : Nat) (v : Int) (hw : 0 < w)
    (hv : if signed then -(2 ^ (w - 1)) ≤ v ∧ v < 2 ^ (w - 1) else 0 ≤ v ∧ v < 2 ^ w) :
    fromBits signed w (toBits w v) = v := by
  have h2 : (0 : Int) < 2 ^ w := by positivity
  have hpos1 : (0 : Int) < 2 ^ (w - 1) := by positivity
  have hsplit : (2 : Int) ^ (w - 1) + 2 ^ (w - 1) = 2 ^ w := by
    have hw' : w - 1 + 1 = w := by omega
    calc (2 : Int) ^ (w - 1) + 2 ^ (w - 1) = 2 ^ (w - 1) * 2 := by ring
      _ = 2 ^ (w - 1 + 1) := (pow_succ 2 (w - 1)).symm
      _ = 2 ^ w := by rw [hw']
  have hc1 : ((2 ^ (w - 1) : Nat) : Int) = (2 : Int) ^ (w - 1) := by push_cast; ring
  cases signed with
  | false =>
    have hv' : 0 ≤ v ∧ v < 2 ^ w := by simpa using hv
    have hmod : v.emod (2 ^ w) = v := Int.emod_eq_of_lt hv'.1 hv'.2
    unfold fromBits toBits
    rw [if_neg (fun hcnd => absurd hcnd.1 (by decide)), hmod, Int.toNat_of_nonneg hv'.1]
  | true =>
    have hv' : -(2 ^ (w - 1)) ≤ v ∧ v < 2 ^ (w - 1) := by simpa using hv
    unfold fromBits toBits
    by_cases hnn : 0 ≤ v
    · have hmod : v.emod (2 ^ w) = v := Int.emod_eq_of_lt hnn (by omega)
      have hn : ((v.emod (2 ^ w)).toNat : Int) = v := by
        rw [hmod, Int.toNat_of_nonneg hnn]
      have hle : ¬ (2 ^ (w - 1) ≤ (v.emod (2 ^ w)).toNat) := by
        intro hc
        have hc' : ((2 ^ (w - 1) : Nat) : Int) ≤ ((v.emod (2 ^ w)).toNat : Int) :=
          Int.ofNat_le.mpr hc
        omega
      rw [if_neg (fun hcnd => absurd hcnd.2 hle)]
      exact hn
    · have hshift : (v + 2 ^ w) % (2 ^ w) = v % 2 ^ w := by
        have h : (v + 2 ^ w * 1) % (2 ^ w) = v % 2 ^ w := Int.add_mul_emod_self_left v (2 ^ w) 1
        rw [mul_one] at h
        exact h
      have hmod : v.emod (2 ^ w) = v + 2 ^ w := by
        have h1 : (v + 2 ^ w).emod (2 ^ w) = v + 2 ^ w :=
          Int.emod_eq_of_lt (by omega) (by omega)
        calc v.emod (2 ^ w) = (v + 2 ^ w) % (2 ^ w) := hshift.symm
          _ = v + 2 ^ w := h1
      have hn : ((v.emod (2 ^ w)).toNat : Int) = v + 2 ^ w := by
        rw [hmod, Int.toNat_of_nonneg (by omega)]
      have hle : 2 ^ (w - 1) ≤ (v.emod (2 ^ w)).toNat := by
        have hc' : ((2 ^ (w - 1) : Nat) : Int) ≤ ((v.emod (2 ^ w)).toNat : Int) := by omega
        exact_mod_cast hc'
      rw [if_pos ⟨rfl, hle⟩]
      omega

theorem fromBits_toBits_ct (ct : Nat) (v : Int) (hv : inRangeCT ct v) :
    fromBits (ctSigned ct) (ctWidth ct) (toBits (ctWidth ct) v) = v := by
  apply fromBits_toBits
  · unfold ctWidth
    split
    · decide
    · split <;> decide
  · unfold inRangeCT at hv
    cases h : ctSigned ct with
    | true => rw [h] at hv; simpa using hv
    | false => rw [h] at hv; simpa using hv

/-! ## The data model (spec §3) -/

/-- glTF accessor.  Only the fields the pipeline reads or writes are
modelled; `min`/`max` are optional lists of (rational-modelled) numbers. -/
structure Accessor where
  bufferView : Option Nat := none
  byteOffset : Option Nat := none
  componentType : Nat
  count : Nat
  type : String
  min : Option (List ℚ) := none
  max : Option (List ℚ) := none
deriving DecidableEq, Repr

/-- Draco codec attribute classes (encoderModule.POSITION etc.), modelled as
distinct codes. -/
def dracoPOSITION : Nat := 0
def dracoNORMAL : Nat := 1
def dracoCOLOR : Nat := 2
def dracoTEX_COORD : Nat := 3
def dracoGENERIC : Nat := 4

/-- One attribute held by the codec: its attribute class, its draco data-type
code (as used by the decompression source: 1 = int8, 2 = uint8, 3 = int16,
4 = uint16, 5 = int32, 6 = uint32, 9 = float32), its point/component counts
and its typed values. -/
structure DracoAttr where
  attrType : Nat
  dataType : Nat
  numPoints : Nat
  numComponents : Nat
  values : List Int
deriving DecidableEq, Repr

/-- The geometry handed to the codec: faces (a flat index triple list,
as 32-bit unsigned patterns) and attributes in builder insertion order.
Modelled from the spec: the codec is a black box; its encoded byte buffer is
represented by the data it must reproduce. -/
structure DracoMesh where
  numFaces : Nat := 0
  faces : List Nat := []
  attrs : List DracoAttr := []
deriving DecidableEq, Repr

/-- Decoded point count of a draco geometry (`dracoGeometry.num_points()`).
Modelled from the spec: every attribute of one geometry carries the same
point count, so the first attribute's count is used (0 for an empty
geometry). -/
def DracoMesh.pointCount (m : DracoMesh) : Nat :=
  (m.attrs.head?.map (fun a => a.numPoints)).getD 0

/-- Encoder settings recorded at encode time (`encoder.Set...` calls).  They
travel with the payload so that decoding can honour them; only whether a
quantization bit depth is zero is observable through the modelled decoder. -/
structure EncoderState where
  speed : Int := 0
  posQuantBits : Nat := 0
  posQuantUnified : Option (List (Option ℚ) × Option ℚ) := none
  normQuantBits : Nat := 0
  texQuantBits : Nat := 0
  colorQuantBits : Nat := 0
  genericQuantBits : Nat := 0
  seqEncoding : Bool := false
  trackEncodedProperties : Bool := false
deriving DecidableEq, Repr

/-- Byte store of a glTF buffer.  `words w data` is a tightly packed typed
store of `w`-bit elements given by their bit patterns; `draco m enc` is a
compressed mesh payload; `anim ts ks` is a compressed animation payload. -/
inductive Source where
  | words (width : Nat) (data : List Nat)
  | draco (mesh : DracoMesh) (enc : EncoderState)
  | anim (timestamps : List Int) (keyframes : List (List Int))
deriving DecidableEq, Repr

structure GltfBuffer where
  byteLength : Nat
  source : Source
deriving DecidableEq, Repr

structure BufferView where
  buffer : Nat
  byteOffset : Nat := 0
  byteLength : Nat
deriving DecidableEq, Repr

/-- The `KHR_draco_mesh_compression` extension record of a primitive. -/
structure DracoExtension where
  bufferView : Nat
  attributes : List (String × Nat)
deriving DecidableEq, Repr

/-- Mesh primitive.  `attributes` is the semantic → accessor-id mapping in
insertion order; `extensions` holds the draco extension record when present
(the only extension the pipeline reads or writes). -/
structure Primitive where
  attributes : List (String × Nat) := []
  indices : Option Nat := none
  mode : Option Nat := none
  targets : Option Nat := none
  extensions : Option DracoExtension := none
deriving DecidableEq, Repr

structure GltfMesh where
  primitives : List Primitive := []
deriving DecidableEq, Repr

structure AnimationSampler where
  input : Option Nat := none
  output : Option Nat := none
  interpolation : Option String := none
deriving DecidableEq, Repr

structure Animation where
  samplers : List AnimationSampler := []
deriving DecidableEq, Repr

/-- One entry of the asset-level `Draco_animation_compression` extension. -/
structure CompressedAnimation where
  input : Nat
  outputs : List Nat
  attributesId : List Nat := []
  bufferView : Option Nat := none
deriving DecidableEq, Repr

/-- The asset. -/
structure Gltf where
  accessors : List Accessor := []
  buffers : List GltfBuffer := []
  bufferViews : List BufferView := []
  meshes : List GltfMesh := []
  animations : List Animation := []
  extensionsUsed : List String := []
  extensionsRequired : List String := []
  extDracoAnimation : List CompressedAnimation := []
deriving DecidableEq, Repr

/-! ## Spec-modelled helper modules (not under src/) -/

/-- Modelled from the spec: lib/addToArray appends an element to a glTF
top-level array and returns its index. -/
def addToArray {α : Type} (l : List α) (x : α) : List α × Nat :=
  (l ++ [x], l.length)

/-- Modelled from the spec: lib/numberOfComponentsForType maps a glTF
accessor type to its component count. -/
def numberOfComponentsForType (t : String) : Nat :=
  if t = "SCALAR" then 1
  else if t = "VEC2" then 2
  else if t = "VEC3" then 3
  else if t = "VEC4" then 4
  else if t = "MAT2" then 4
  else if t = "MAT3" then 9
  else if t = "MAT4" then 16
  else 0

/-- Modelled from the spec: lib/readAccessorPacked ("AccessorDataExtractor —
reads a typed, tightly-packed numeric sequence out of a buffer-backed
accessor").  An accessor without a bufferView reads as the empty sequence.
A read whose element width does not match the store's element width is
outside every claim's wellformedness assumptions and reads as empty. -/
def readAccessorPacked (gltf : Gltf) (a : Accessor) : List Int :=
  match a.bufferView with
  | none => []
  | some bvId =>
    match gltf.bufferViews[bvId]? with
    | none => []
    | some bv =>
      match gltf.buffers[bv.buffer]? with
      | none => []
      | some buf =>
        match buf.source with
        | Source.words w data =>
          if w = ctWidth a.componentType then
            let off := (bv.byteOffset + a.byteOffset.getD 0) / (w / 8)
            ((data.drop off).take (a.count * numberOfComponentsForType a.type)).map
              (fromBits (ctSigned a.componentType) w)
          else []
        | _ => []

/-! ## Observables -/

def primitiveAt (gltf : Gltf) (meshIndex primitiveIndex : Nat) : Option Primitive :=
  (gltf.meshes[meshIndex]?).bind (fun mesh => mesh.primitives[primitiveIndex]?)

def accessorDataAt (gltf : Gltf) (accessorId : Nat) : List Int :=
  match gltf.accessors[accessorId]? with
  | some a => readAccessorPacked gltf a
  | none => []

/-- The index sequence of a primitive, read through its `indices` accessor. -/
def primitiveIndexData (gltf : Gltf) (p : Primitive) : List Int :=
  match p.indices with
  | some i => accessorDataAt gltf i
  | none => []

/-- The numeric values of one attribute of a primitive. -/
def primitiveAttributeData (gltf : Gltf) (p : Primitive) (semantic : String) : List Int :=
  match p.attributes.lookup semantic with
  | some aid => accessorDataAt gltf aid
  | none => []

/-! ## Compression pass (src/lib/compressDracoMeshes.js) -/

/-- Semantic base name: the part of the semantic before the first underscore,
when that underscore is at a positive position (`semantic.indexOf('_') > 0`,
lines 166-169 of the source). -/
def attributeNameOf (semantic : String) : String :=
  match semantic.toList.findIdx? (fun c => c = '_') with
  | some i => if 0 < i then String.mk (semantic.toList.take i) else semantic
  | none => semantic

/-- Codec attribute class chosen for a semantic base name (lines 171-178). -/
def attributeEnumOf (attributeName : String) : Nat :=
  if attributeName = "POSITION" then dracoPOSITION
  else if attributeName = "NORMAL" then dracoNORMAL
  else if attributeName = "COLOR" then dracoCOLOR
  else if attributeName = "TEXCOORD" then dracoTEX_COORD
  else dracoGENERIC

/-- `getAddAttributeFunctionName` (lines 486-503).  The source `switch` has
no default case, so an unsupported component type yields `undefined`,
modelled as `none`. -/
def getAddAttributeFunctionName (componentType : Nat) : Option String :=
  if componentType = WebGL_UNSIGNED_BYTE then some "AddUInt8Attribute"
  else if componentType = WebGL_BYTE then some "AddInt8Attribute"
  else if componentType = WebGL_UNSIGNED_SHORT then some "AddUInt16Attribute"
  else if componentType = WebGL_SHORT then some "AddInt16Attribute"
  else if componentType = WebGL_UNSIGNED_INT then some "AddUInt32Attribute"
  else if componentType = WebGL_INT then some "AddInt32Attribute"
  else if componentType = WebGL_FLOAT then some "AddFloatAttribute"
  else none

/-- Draco data-type code produced by each typed builder operation (codec
side; the codes match the ones the decompression source dispatches on). -/
def addAttributeDataType (addAttributeFunctionName : String) : Nat :=
  if addAttributeFunctionName = "AddUInt8Attribute" then 2
  else if addAttributeFunctionName = "AddInt8Attribute" then 1
  else if addAttributeFunctionName = "AddUInt16Attribute" then 4
  else if addAttributeFunctionName = "AddInt16Attribute" then 3
  else if addAttributeFunctionName = "AddUInt32Attribute" then 6
  else if addAttributeFunctionName = "AddInt32Attribute" then 5
  else if addAttributeFunctionName = "AddFloatAttribute" then 9
  else 0

/-- `ComponentDatatype.createTypedArray(componentType, packed)`: JavaScript
typed-array construction coerces every element to the component type. -/
def createTypedArray (componentType : Nat) (packed : List Int) : List Int :=
  packed.map (fun v =>
    fromBits (ctSigned componentType) (ctWidth componentType) (toBits (ctWidth componentType) v))

/-- `meshBuilder.AddFacesToMesh(mesh, numberOfFaces, indices)`: the codec
keeps the first `3 * numberOfFaces` indices as the face list. -/
def addFacesToMesh (m : DracoMesh) (numberOfFaces : Nat) (indices : List Nat) : DracoMesh :=
  { m with numFaces := numberOfFaces, faces := indices.take (3 * numberOfFaces) }

/-- `meshBuilder[addAttributeFunctionName](mesh, attributeEnum, numberOfPoints,
numberOfComponents, data)`: appends a typed attribute and returns its id
(sequentially assigned; the codec reports -1 only on failure, which the
modelled in-memory builder has no failure mode for). -/
def meshAddAttribute (m : DracoMesh) (addAttributeFunctionName : String)
    (attributeEnum numberOfPoints numberOfComponents : Nat) (data : List Int) :
    DracoMesh × Int :=
  let newAttr : DracoAttr := {
    attrType := attributeEnum
    dataType := addAttributeDataType addAttributeFunctionName
    numPoints := numberOfPoints
    numComponents := numberOfComponents
    values := data }
  ({ m with attrs := m.attrs ++ [newAttr] }, (m.attrs.length : Int))

/-- Quantization bit depth recorded for an attribute class. -/
def EncoderState.quantBitsFor (enc : EncoderState) (attrType : Nat) : Nat :=
  if attrType = dracoPOSITION then enc.posQuantBits
  else if attrType = dracoNORMAL then enc.normQuantBits
  else if attrType = dracoTEX_COORD then enc.texQuantBits
  else if attrType = dracoCOLOR then enc.colorQuantBits
  else enc.genericQuantBits

/-- Decoded values of a codec attribute.  Modelled from the spec: the codec
is lossless when no quantization was set for the attribute's class (§8,
round trip with no quantization); the behaviour under quantization is an
explicitly lossy placeholder that no claim relies on. -/
def decodedAttrValues (enc : EncoderState) (a : DracoAttr) : List Int :=
  if enc.quantBitsFor a.attrType = 0 then a.values else a.values.map (fun _ => 0)

/-- Byte length reported by `encoder.EncodeMeshToDracoBuffer`.  Modelled from
the spec: the encoded size is abstract; any positive, payload-determined
value serves the model. -/
def dracoByteLength (m : DracoMesh) : Nat :=
  1 + m.faces.length + (m.attrs.map (fun a => a.values.length)).sum

/-- `checkRange` (lines 505-508): Cesium's `Check.typeOf.number` throws a
`DeveloperError` when the value is below the minimum or above the maximum. -/
def checkRange (name : String) (value minimum maximum : Int) : Except String Unit :=
  if value < minimum then
    Except.error ("Expected " ++ name ++ " to be greater than or equal to " ++ toString minimum)
  else if maximum < value then
    Except.error ("Expected " ++ name ++ " to be less than or equal to " ++ toString maximum)
  else Except.ok ()

/-- Modelled from the spec: `ForEach.accessorWithSemantic` (not under src/)
visits the accessors referenced by primitive attributes with the given
semantic.  The original visits each accessor id at most once; the min/max
accumulation folded over this list is insensitive to repetition, so the
dedup step is not modelled. -/
def accessorIdsWithSemantic (gltf : Gltf) (semantic : String) : List Nat :=
  gltf.meshes.flatMap (fun mesh => mesh.primitives.flatMap (fun p =>
    (p.attributes.filter (fun sv => sv.1 = semantic)).map (fun sv => sv.2)))

/-- `Math.min` against a running minimum initialised to positive infinity
(`none`). -/
def jsMinQ (acc : Option ℚ) (x : ℚ) : Option ℚ :=
  match acc with
  | none => some x
  | some m => some (min m x)

/-- `Math.max` against a running maximum initialised to negative infinity
(`none`). -/
def jsMaxQ (acc : Option ℚ) (x : ℚ) : Option ℚ :=
  match acc with
  | none => some x
  | some m => some (max m x)

/-- One step of the unified-quantization bounding-box accumulation
(lines 77-88).  A non-VEC3 position accessor raises a `RuntimeError`.
Missing `min`/`max` would be a JavaScript `TypeError`; `min`/`max` shorter
than three components would silently produce NaN in JavaScript, which the
rational model cannot represent, so it is modelled as an error (every
claim's wellformedness assumptions exclude both situations). -/
def unifiedAccumulate (st : List (Option ℚ) × List (Option ℚ)) (a : Accessor) :
    Except String (List (Option ℚ) × List (Option ℚ)) :=
  if a.type ≠ "VEC3" then
    Except.error "Could not perform unified quantization. Input contains position accessor with an unsupported number of components."
  else
    match a.min, a.max with
    | some accessorMin, some accessorMax =>
      if 3 ≤ accessorMin.length ∧ 3 ≤ accessorMax.length then
        Except.ok ((List.range 3).map (fun j => jsMinQ (st.1.getD j none) (accessorMin.getD j 0)),
                   (List.range 3).map (fun j => jsMaxQ (st.2.getD j none) (accessorMax.getD j 0)))
      else Except.error "NaN: position accessor min/max shorter than 3 components"
    | _, _ => Except.error "TypeError: Cannot read properties of undefined (accessor min/max)"

def unifiedFold (gltf : Gltf) : List Nat → (List (Option ℚ) × List (Option ℚ)) →
    Except String (List (Option ℚ) × List (Option ℚ))
  | [], st => Except.ok st
  | accessorId :: rest, st =>
    match gltf.accessors[accessorId]? with
    | none => Except.error "TypeError: Cannot read properties of undefined (accessor)"
    | some a =>
      match unifiedAccumulate st a with
      | Except.error e => Except.error e
      | Except.ok st1 => unifiedFold gltf rest st1

def optionSub (a b : Option ℚ) : Option ℚ :=
  match a, b with
  | some x, some y => some (x - y)
  | _, _ => none

def optionMax (a b : Option ℚ) : Option ℚ :=
  match a, b with
  | some x, some y => some (max x y)
  | _, _ => none

/-- The unified-quantization plan (lines 72-91): the position origin is the
accumulated component-wise minimum, the position range is
`Math.max(max[0]-min[0], Math.max(max[1]-min[1], max[2]-min[2]))`.
`none` components stand for the infinities of the empty accumulation. -/
def unifiedQuantizationPlan (gltf : Gltf) :
    Except String (List (Option ℚ) × Option ℚ) :=
  match unifiedFold gltf (accessorIdsWithSemantic gltf "POSITION")
      ([none, none, none], [none, none, none]) with
  | Except.error e => Except.error e
  | Except.ok (mn, mx) =>
    let span := fun j => optionSub (mx.getD j none) (mn.getD j none)
    Except.ok (mn, optionMax (span 0) (optionMax (span 1) (span 2)))

/-- Resolved compression configuration (lines 48-66 resolve the options
against `compressDracoMeshes.defaults`). -/
structure CompressConfig where
  compressionLevel : Int
  quantizePositionBits : Int
  quantizeNormalBits : Int
  quantizeTexcoordBits : Int
  quantizeColorBits : Int
  quantizeGenericBits : Int
  unifiedQuantization : Bool
  positionOrigin : List (Option ℚ) := []
  positionRange : Option ℚ := none
deriving DecidableEq, Repr

/-- The encoder configuration calls (lines 259-286): speed options, the
per-class quantization guarded by `bits > 0`, explicit unified position
quantization, sequential encoding when morph targets are present. -/
def encoderSettings (cfg : CompressConfig) (primitive : Primitive) : EncoderState :=
  { speed := 10 - cfg.compressionLevel
    posQuantBits := if 0 < cfg.quantizePositionBits then cfg.quantizePositionBits.toNat else 0
    posQuantUnified :=
      if 0 < cfg.quantizePositionBits ∧ cfg.unifiedQuantization then
        some (cfg.positionOrigin, cfg.positionRange)
      else none
    normQuantBits := if 0 < cfg.quantizeNormalBits then cfg.quantizeNormalBits.toNat else 0
    texQuantBits := if 0 < cfg.quantizeTexcoordBits then cfg.quantizeTexcoordBits.toNat else 0
    colorQuantBits := if 0 < cfg.quantizeColorBits then cfg.quantizeColorBits.toNat else 0
    genericQuantBits := if 0 < cfg.quantizeGenericBits then cfg.quantizeGenericBits.toNat else 0
    seqEncoding := primitive.targets.isSome
    trackEncodedProperties := true }

/-- Primitive fingerprint: the `(attributes, indices, mode)` triple hashed at
lines 120-125.  Modelled from the spec (§9): the structural hash is replaced
by the canonical triple itself; collisions are assumed impossible. -/
abbrev Fingerprint := List (String × Nat) × Option Nat × Option Nat

def primitiveFingerprint (primitive : Primitive) : Fingerprint :=
  (primitive.attributes, primitive.indices, primitive.mode)

def findFingerprint : List (Fingerprint × Primitive) → Fingerprint → Option Primitive
  | [], _ => none
  | (k, p) :: rest, fp => if k = fp then some p else findFingerprint rest fp

def stripBufferView (a : Accessor) : Accessor :=
  { a with bufferView := none, byteOffset := none }

/-- Modelled from the spec: lib/replaceWithDecompressedPrimitive is not under
src/; §4.6 specifies nothing for attachCompressed beyond what
`addCompressionExtensionToPrimitive` itself performs (clone accessors, append
buffer/bufferView, write the extension record), so it is the identity on the
asset. -/
def replaceWithDecompressedPrimitive (gltf : Gltf) (_primitive : Primitive)
    (_encodedPointsCount _encodedFacesCount : Nat) : Gltf := gltf

/-- The attribute-accessor clone loop of `addCompressionExtensionToPrimitive`
(lines 440-445): for each semantic in insertion order, clone the accessor
with bufferView/byteOffset removed, append it to the accessor array and
remap the primitive's attribute to the clone. -/
def cloneAttributeAccessors : List Accessor → List (String × Nat) →
    Except String (List Accessor × List (String × Nat))
  | accessors, [] => Except.ok (accessors, [])
  | accessors, (semantic, accessorId) :: rest =>
    match accessors[accessorId]? with
    | none => Except.error "TypeError: clone of undefined accessor"
    | some attributeAccessor =>
      let (accessors1, newId) := addToArray accessors (stripBufferView attributeAccessor)
      match cloneAttributeAccessors accessors1 rest with
      | Except.error e => Except.error e
      | Except.ok (accessors2, restPairs) =>
        Except.ok (accessors2, (semantic, newId) :: restPairs)

/-- `addCompressionExtensionToPrimitive` (lines 431-470). -/
def addCompressionExtensionToPrimitive (gltf : Gltf) (primitive : Primitive)
    (attributeToId : List (String × Nat)) (encodedLength : Nat)
    (mesh : DracoMesh) (enc : EncoderState)
    (encodedPointsCount encodedFacesCount : Nat) : Except String (Gltf × Primitive) :=
  match primitive.indices with
  | none => Except.error "TypeError: clone of undefined accessor (indices)"
  | some indicesId =>
    match gltf.accessors[indicesId]? with
    | none => Except.error "TypeError: clone of undefined accessor (indices)"
    | some indicesAccessor =>
      let (accessors1, newIndicesId) := addToArray gltf.accessors (stripBufferView indicesAccessor)
      match cloneAttributeAccessors accessors1 primitive.attributes with
      | Except.error e => Except.error e
      | Except.ok (accessors2, newAttributes) =>
        let buffer : GltfBuffer := { byteLength := encodedLength, source := Source.draco mesh enc }
        let (buffers1, bufferId) := addToArray gltf.buffers buffer
        let bufferView : BufferView := { buffer := bufferId, byteOffset := 0, byteLength := encodedLength }
        let (bufferViews1, bufferViewId) := addToArray gltf.bufferViews bufferView
        let primitive' := { primitive with
          indices := some newIndicesId,
          attributes := newAttributes,
          extensions := some { bufferView := bufferViewId, attributes := attributeToId } }
        let gltf' := { gltf with accessors := accessors2, buffers := buffers1, bufferViews := bufferViews1 }
        Except.ok (replaceWithDecompressedPrimitive gltf' primitive' encodedPointsCount encodedFacesCount, primitive')

/-- JavaScript object property assignment on the attributes mapping:
overwrite in place when the key exists, append otherwise. -/
def assocSet : List (String × Nat) → String → Nat → List (String × Nat)
  | [], semantic, accessorId => [(semantic, accessorId)]
  | (k, v) :: rest, semantic, accessorId =>
    if k = semantic then (k, accessorId) :: rest
    else (k, v) :: assocSet rest semantic accessorId

/-- `copyCompressedExtensionToPrimitive` (lines 472-484). -/
def copyCompressedExtensionToPrimitive (primitive compressedPrimitive : Primitive) :
    Except String Primitive :=
  let attributes := compressedPrimitive.attributes.foldl
    (fun acc sv => assocSet acc sv.1 sv.2) primitive.attributes
  match compressedPrimitive.extensions with
  | none => Except.error "TypeError: Cannot read properties of undefined (KHR_draco_mesh_compression)"
  | some dracoExtension =>
    Except.ok { primitive with
      attributes := attributes,
      indices := compressedPrimitive.indices,
      extensions := some { bufferView := dracoExtension.bufferView,
                           attributes := dracoExtension.attributes } }

/-- The per-attribute codec feeding loop (lines 154-205): for each semantic
in insertion order, read the accessor's packed data, dispatch on the
component type and add the typed attribute to the codec mesh, recording the
semantic → codec-attribute-id mapping.  The OBJ debug-export writes in this
loop are out of scope (spec §1) and do not touch the asset. -/
def addPrimitiveAttributes (gltf : Gltf) : List (String × Nat) → DracoMesh →
    List (String × Nat) → Nat → Except String (DracoMesh × List (String × Nat) × Nat)
  | [], m, attributeToId, lastNumberOfPoints => Except.ok (m, attributeToId, lastNumberOfPoints)
  | (semantic, accessorId) :: rest, m, attributeToId, _ =>
    match gltf.accessors[accessorId]? with
    | none => Except.error "TypeError: Cannot read properties of undefined (accessor)"
    | some accessor =>
      let componentType := accessor.componentType
      let numberOfPoints := accessor.count
      let numberOfComponents := numberOfComponentsForType accessor.type
      let packed := readAccessorPacked gltf accessor
      match getAddAttributeFunctionName componentType with
      | none => Except.error "TypeError: meshBuilder[addAttributeFunctionName] is not a function"
      | some addAttributeFunctionName =>
        let data := createTypedArray componentType packed
        let attributeName := attributeNameOf semantic
        let attributeEnum := attributeEnumOf attributeName
        let (m1, attributeId) :=
          meshAddAttribute m addAttributeFunctionName attributeEnum numberOfPoints numberOfComponents data
        if attributeId = -1 then Except.error ("Error: Failed adding attribute " ++ semantic)
        else addPrimitiveAttributes gltf rest m1 (attributeToId ++ [(semantic, attributeId.toNat)]) numberOfPoints

/-- Skip condition of the compression pass (lines 111-116, first branch):
`defined(primitive.mode) && primitive.mode !== WebGLConstants.TRIANGLES`. -/
def modeSkipsCompression (primitive : Primitive) : Bool :=
  match primitive.mode with
  | some m => decide (m ≠ WebGL_TRIANGLES)
  | none => false

/-- Mutable pass state: the asset arrays, the fingerprint cache, the log of
fingerprints for which the codec encode operation was invoked, and the
`addedExtension` flag. -/
structure CState where
  gltf : Gltf
  hashPrimitives : List (Fingerprint × Primitive) := []
  encodedFingerprints : List Fingerprint := []
  addedExtension : Bool := false

/-- Processing of one primitive by the compression pass (lines 107-305):
skip unsupported modes and missing indices, dedupe through the fingerprint
cache, otherwise feed the codec and attach the compression extension.  The
source inserts the primitive object into the cache before encoding and then
mutates it in place; with value semantics the fully processed primitive is
inserted, which is observationally the same. -/
def compressOnePrimitive (cfg : CompressConfig) (st : CState) (primitive : Primitive) :
    Except String (CState × Primitive) :=
  if modeSkipsCompression primitive then Except.ok (st, primitive)
  else if primitive.indices.isNone then Except.ok (st, primitive)
  else
    let st1 := { st with addedExtension := true }
    let hashValue := primitiveFingerprint primitive
    match findFingerprint st1.hashPrimitives hashValue with
    | some cached =>
      match copyCompressedExtensionToPrimitive primitive cached with
      | Except.error e => Except.error e
      | Except.ok p1 => Except.ok (st1, p1)
    | none =>
      let gltf := st1.gltf
      match primitive.indices with
      | none => Except.error "unreachable: indices undefined"
      | some indicesId =>
        match gltf.accessors[indicesId]? with
        | none => Except.error "TypeError: Cannot read properties of undefined (indices accessor)"
        | some indicesAccessor =>
          let indicesData := readAccessorPacked gltf indicesAccessor
          let indices := indicesData.map (fun v => toBits 32 v)
          let numberOfFaces := indices.length / 3
          let mesh1 := addFacesToMesh {} numberOfFaces indices
          match addPrimitiveAttributes gltf primitive.attributes mesh1 [] 0 with
          | Except.error e => Except.error e
          | Except.ok (mesh2, attributeToId, _) =>
            let enc := encoderSettings cfg primitive
            let encodedLength := dracoByteLength mesh2
            if encodedLength ≤ 0 then Except.error "Error: Draco encoding failed."
            else
              let encodedPointsCount := mesh2.pointCount
              let encodedFacesCount := mesh2.numFaces
              match addCompressionExtensionToPrimitive gltf primitive attributeToId
                  encodedLength mesh2 enc encodedPointsCount encodedFacesCount with
              | Except.error e => Except.error e
              | Except.ok (gltf1, primitive1) =>
                Except.ok ({ st1 with
                             gltf := gltf1,
                             hashPrimitives := st1.hashPrimitives ++ [(hashValue, primitive1)],
                             encodedFingerprints := st1.encodedFingerprints ++ [hashValue] },
                           primitive1)

def compressPrims (cfg : CompressConfig) : CState → List Primitive →
    Except String (CState × List Primitive)
  | st, [] => Except.ok (st, [])
  | st, primitive :: rest =>
    match compressOnePrimitive cfg st primitive with
    | Except.error e => Except.error e
    | Except.ok (st1, p1) =>
      match compressPrims cfg st1 rest with
      | Except.error e => Except.error e
      | Except.ok (st2, rest1) => Except.ok (st2, p1 :: rest1)

def compressMeshes (cfg : CompressConfig) : CState → List GltfMesh →
    Except String (CState × List GltfMesh)
  | st, [] => Except.ok (st, [])
  | st, mesh :: rest =>
    match compressPrims cfg st mesh.primitives with
    | Except.error e => Except.error e
    | Except.ok (st1, prims1) =>
      match compressMeshes cfg st1 rest with
      | Except.error e => Except.error e
      | Except.ok (st2, rest1) => Except.ok (st2, { primitives := prims1 } :: rest1)

/-- Modelled from the spec: lib/splitPrimitives is not under src/ and the
spec's compression-pass design (§4.1) lists no splitting step, so it is the
identity on the asset. -/
def splitPrimitives (gltf : Gltf) : Gltf := gltf

/-- Modelled from the spec: lib/addExtensionsRequired (not under src/) adds
the extension to both the used and the required extension lists ("presence
requires the asset to declare this extension in both its used and required
extension lists", spec §6). -/
def addExtensionsRequired (gltf : Gltf) (extension : String) : Gltf :=
  let used := if gltf.extensionsUsed.contains extension then gltf.extensionsUsed
              else gltf.extensionsUsed ++ [extension]
  let required := if gltf.extensionsRequired.contains extension then gltf.extensionsRequired
                  else gltf.extensionsRequired ++ [extension]
  { gltf with extensionsUsed := used, extensionsRequired := required }

/-- Modelled from the spec: lib/removeUnusedElements (not under src/)
"performs a reachability sweep from all primitives/animations/materials/etc.
down to accessors → bufferViews → buffers and removes anything unreachable"
(§4.6).  Every property the claims observe (primitive records, and element
data reached through primitive references) is invariant under removing
unreachable elements, so the sweep is modelled as the identity. -/
def removeUnusedElements (gltf : Gltf) : Gltf := gltf

/-- Draco compression options (`options.dracoOptions`). -/
structure DracoOptions where
  compressionLevel : Option Int := none
  quantizePositionBits : Option Int := none
  quantizeNormalBits : Option Int := none
  quantizeTexcoordBits : Option Int := none
  quantizeColorBits : Option Int := none
  quantizeGenericBits : Option Int := none
  unifiedQuantization : Option Bool := none
deriving DecidableEq, Repr

structure PipelineOptions where
  dracoOptions : Option DracoOptions := none
  quantizeTimestamps : Option Int := none
  quantizeKeyframes : Option Int := none
deriving DecidableEq, Repr

/-- `compressDracoMeshes.defaults` (lines 510-519). -/
structure DracoDefaults where
  compressionLevel : Int := 7
  quantizePositionBits : Int := 14
  quantizeNormalBits : Int := 10
  quantizeTexcoordBits : Int := 12
  quantizeColorBits : Int := 8
  quantizeSkinBits : Int := 12
  quantizeGenericBits : Int := 12
  unifiedQuantization : Bool := false
deriving DecidableEq, Repr

def compressDracoMeshesDefaults : DracoDefaults := {}

/-- The option-resolution chains of lines 49-58 (`defaultValue` against
`compressDracoMeshes.defaults`), named so that theorems can speak about the
resolved configuration. -/
def resolvedDracoOptions (options : Option PipelineOptions) : DracoOptions :=
  ((options.getD {}).dracoOptions).getD {}

def resolvedCompressionLevel (options : Option PipelineOptions) : Int :=
  (resolvedDracoOptions options).compressionLevel.getD compressDracoMeshesDefaults.compressionLevel

def resolvedQuantizePositionBits (options : Option PipelineOptions) : Int :=
  (resolvedDracoOptions options).quantizePositionBits.getD compressDracoMeshesDefaults.quantizePositionBits

def resolvedQuantizeNormalBits (options : Option PipelineOptions) : Int :=
  (resolvedDracoOptions options).quantizeNormalBits.getD compressDracoMeshesDefaults.quantizeNormalBits

def resolvedQuantizeTexcoordBits (options : Option PipelineOptions) : Int :=
  (resolvedDracoOptions options).quantizeTexcoordBits.getD compressDracoMeshesDefaults.quantizeTexcoordBits

def resolvedQuantizeColorBits (options : Option PipelineOptions) : Int :=
  (resolvedDracoOptions options).quantizeColorBits.getD compressDracoMeshesDefaults.quantizeColorBits

def resolvedQuantizeGenericBits (options : Option PipelineOptions) : Int :=
  (resolvedDracoOptions options).quantizeGenericBits.getD compressDracoMeshesDefaults.quantizeGenericBits

def resolvedUnifiedQuantization (options : Option PipelineOptions) : Bool :=
  (resolvedDracoOptions options).unifiedQuantization.getD compressDracoMeshesDefaults.unifiedQuantization

/-- The compression pass (lines 48-320), additionally returning the log of
fingerprints for which the codec encode operation was invoked.  The OBJ
debug export (file writes and `console.log`s) is out of scope (spec §1) and
does not touch the asset. -/
def compressDracoMeshesRun (gltf : Gltf) (options : Option PipelineOptions) :
    Except String (Gltf × List Fingerprint) :=
  let compressionLevel := resolvedCompressionLevel options
  let quantizePositionBits := resolvedQuantizePositionBits options
  let quantizeNormalBits := resolvedQuantizeNormalBits options
  let quantizeTexcoordBits := resolvedQuantizeTexcoordBits options
  let quantizeColorBits := resolvedQuantizeColorBits options
  let quantizeGenericBits := resolvedQuantizeGenericBits options
  let unifiedQuantization := resolvedUnifiedQuantization options
  match checkRange "compressionLevel" compressionLevel 0 10 with
  | Except.error e => Except.error e
  | Except.ok _ =>
  match checkRange "quantizePositionBits" quantizePositionBits 0 30 with
  | Except.error e => Except.error e
  | Except.ok _ =>
  match checkRange "quantizeNormalBits" quantizeNormalBits 0 30 with
  | Except.error e => Except.error e
  | Except.ok _ =>
  match checkRange "quantizeTexcoordBits" quantizeTexcoordBits 0 30 with
  | Except.error e => Except.error e
  | Except.ok _ =>
  match checkRange "quantizeColorBits" quantizeColorBits 0 30 with
  | Except.error e => Except.error e
  | Except.ok _ =>
  match checkRange "quantizeGenericBits" quantizeGenericBits 0 30 with
  | Except.error e => Except.error e
  | Except.ok _ =>
  let gltf := splitPrimitives gltf
  match (if unifiedQuantization then unifiedQuantizationPlan gltf
         else Except.ok ([], none)) with
  | Except.error e => Except.error e
  | Except.ok (positionOrigin, positionRange) =>
    let cfg : CompressConfig := {
      compressionLevel := compressionLevel
      quantizePositionBits := quantizePositionBits
      quantizeNormalBits := quantizeNormalBits
      quantizeTexcoordBits := quantizeTexcoordBits
      quantizeColorBits := quantizeColorBits
      quantizeGenericBits := quantizeGenericBits
      unifiedQuantization := unifiedQuantization
      positionOrigin := positionOrigin
      positionRange := positionRange }
    match compressMeshes cfg { gltf := gltf } gltf.meshes with
    | Except.error e => Except.error e
    | Except.ok (st1, meshes1) =>
      let gltf1 := { st1.gltf with meshes := meshes1 }
      let gltf2 :=
        if st1.addedExtension then
          removeUnusedElements (addExtensionsRequired gltf1 "KHR_draco_mesh_compression")
        else gltf1
      Except.ok (gltf2, st1.encodedFingerprints)

/-- `compressDracoMeshes(gltf, options)` as the source returns it: the
processed asset. -/
def compressDracoMeshes (gltf : Gltf) (options : Option PipelineOptions) :
    Except String Gltf :=
  match compressDracoMeshesRun gltf options with
  | Except.error e => Except.error e
  | Except.ok (g, _) => Except.ok g

/-! ## Decompression pass (decompressDracoMeshes source) -/

/-- `removePrimitiveExtension` (decompression source lines 119-131): deletes
the extension record; the model carries only the draco extension, so
deleting it empties `primitive.extensions`, and the source deletes the
now-empty parent `extensions` object. -/
def removePrimitiveExtension (primitive : Primitive) (_extension : String) : Primitive :=
  { primitive with extensions := none }

/-- Modelled from the spec: lib/removeExtensionsUsed (not under src/) removes
the extension name from the asset's used and required extension lists
("remove the now-unneeded extension required marker", spec §4.1). -/
def removeExtensionsUsed (gltf : Gltf) (extension : String) : Gltf :=
  { gltf with
    extensionsUsed := gltf.extensionsUsed.filter (fun e => e ≠ extension),
    extensionsRequired := gltf.extensionsRequired.filter (fun e => e ≠ extension) }

/-- Byte length of a store (`buffer.length` of the materialised bytes). -/
def sourceByteLength : Source → Nat
  | Source.words w data => data.length * (w / 8)
  | Source.draco m _ => dracoByteLength m
  | Source.anim ts ks => 1 + ts.length + (ks.map (fun k => k.length)).sum

/-- `addBufferToGltf` (decompression source lines 91-109): appends a buffer
holding the given bytes and a bufferView covering it entirely (byteOffset 0,
byteLength equal to the byte length), returning the bufferView id. -/
def addBufferToGltf (gltf : Gltf) (buffer : Source) : Gltf × Nat :=
  let encodedLength := sourceByteLength buffer
  let (buffers1, bufferId) := addToArray gltf.buffers { byteLength := encodedLength, source := buffer }
  let bufferView : BufferView := { buffer := bufferId, byteOffset := 0, byteLength := encodedLength }
  let (bufferViews1, bufferViewId) := addToArray gltf.bufferViews bufferView
  ({ gltf with buffers := buffers1, bufferViews := bufferViews1 }, bufferViewId)

/-- Output-array element width chosen by `getIndicesBuffer` (decompression
source lines 133-147) from the original accessor's component type. -/
def indexArrayWidth (componentType : Nat) : Nat :=
  if componentType = 5120 then 8
  else if componentType = 5121 then 8
  else if componentType = 5122 then 16
  else if componentType = 5123 then 16
  else 32

/-- `DracoInt32Array.GetValue`: the stored 32-bit pattern read as a signed
32-bit integer. -/
def int32View (b : Nat) : Int := fromBits true 32 b

/-- `getIndicesBuffer` (decompression source lines 133-163): allocate an
output array of `numFaces * 3` elements at the original accessor's component
width and copy each decoded face's three vertex indices in face order.
A face index beyond the decoded face list reads as 0 (the modelled stand-in
for the out-of-range codec read). -/
def getIndicesBuffer (accessor : Accessor) (mesh : DracoMesh) (numFaces : Nat) : Source :=
  let numIndices := numFaces * 3
  let w := indexArrayWidth accessor.componentType
  Source.words w ((List.range numIndices).map (fun i => toBits w (int32View (mesh.faces.getD i 0))))

/-- Output-array element width chosen by `getAttributeBuffer` (decompression
source lines 165-225) from the draco data type: int8/uint8 → 8, int16/uint16
→ 16, uint32 → 32, int32 → 32 (stored through a Uint32Array), anything else →
32 (stored through a Float32Array). -/
def attributeArrayWidth (dataType : Nat) : Nat :=
  if dataType = 1 then 8
  else if dataType = 2 then 8
  else if dataType = 3 then 16
  else if dataType = 4 then 16
  else if dataType = 6 then 32
  else if dataType = 5 then 32
  else 32

/-- Whether `getAttributeBuffer` reaches its final `else` branch (the
`DracoFloat32Array` fallback) for a data type. -/
def attributeBufferFloatFallback (dataType : Nat) : Bool :=
  decide (dataType ≠ 1 ∧ dataType ≠ 2 ∧ dataType ≠ 3 ∧ dataType ≠ 4 ∧ dataType ≠ 6 ∧ dataType ≠ 5)

/-- `getAttributeBuffer` (decompression source lines 165-225): fetch all
decoded values of the codec attribute into a typed draco array, allocate an
output array of `attributeData.size()` elements in the branch's element
type, and copy `numPoints * numComponents` values into it; positions past
that count keep their zero initialisation, writes past the array length are
dropped. -/
def getAttributeBuffer (enc : EncoderState) (mesh : DracoMesh) (dracoAttribute : DracoAttr) : Source :=
  let numComponents := dracoAttribute.numComponents
  let numPoints := mesh.pointCount
  let numValues := numPoints * numComponents
  let attributeData := decodedAttrValues enc dracoAttribute
  let size := attributeData.length
  let w := attributeArrayWidth dracoAttribute.dataType
  Source.words w ((List.range size).map (fun i =>
    if i < numValues then toBits w (attributeData.getD i 0) else 0))

/-- The per-semantic attribute loop of `decmopressDracoMesh` (decompression
source lines 288-307): for each semantic of the extension's attribute
mapping, look up the codec attribute by its stored local id, materialise its
decoded values as a new buffer/bufferView pair, and point the primitive's
accessor for that semantic at it with `count` set to the decoded point count
and byteOffset 0. -/
def decompressAttributesLoop (enc : EncoderState) (mesh : DracoMesh) (primitive : Primitive) :
    Gltf → List (String × Nat) → Except String Gltf
  | gltf, [] => Except.ok gltf
  | gltf, (semantic, localId) :: rest =>
    match mesh.attrs[localId]? with
    | none => Except.error "TypeError: invalid attribute unique id"
    | some dracoAttribute =>
      let attributeBuffer := getAttributeBuffer enc mesh dracoAttribute
      let (gltf1, bufferViewId) := addBufferToGltf gltf attributeBuffer
      match primitive.attributes.lookup semantic with
      | none => Except.error "TypeError: Cannot set properties of undefined (accessor)"
      | some gltfAttributeId =>
        match gltf1.accessors[gltfAttributeId]? with
        | none => Except.error "TypeError: Cannot set properties of undefined (accessor)"
        | some attributeAccessor =>
          let accessors1 := gltf1.accessors.set gltfAttributeId
            { attributeAccessor with
              count := mesh.pointCount,
              bufferView := some bufferViewId,
              byteOffset := some 0 }
          decompressAttributesLoop enc mesh primitive { gltf1 with accessors := accessors1 } rest

/-- `decmopressDracoMesh` (decompression source lines 227-308; the source
spells the name this way): decode the payload (always a triangular mesh for
a payload produced by the compression pass; the modelled decode cannot fail),
require a POSITION attribute, rebuild the index buffer at the original
accessor's component width and attach it, then run the attribute loop. -/
def decmopressDracoMesh (gltf : Gltf) (primitive : Primitive) (mesh : DracoMesh)
    (enc : EncoderState) (dracoExtension : DracoExtension) : Except String Gltf :=
  let numFaces := mesh.numFaces
  if (mesh.attrs.findIdx? (fun a => a.attrType = dracoPOSITION)).isNone then
    Except.error "THREE.DRACOLoader: No position attribute found."
  else
    match primitive.indices with
    | none => Except.error "TypeError: Cannot read properties of undefined (indices accessor)"
    | some indicesId =>
      match gltf.accessors[indicesId]? with
      | none => Except.error "TypeError: Cannot read properties of undefined (indices accessor)"
      | some indicesAccessor =>
        let indicesBuffer := getIndicesBuffer indicesAccessor mesh numFaces
        let (gltf1, bufferViewId) := addBufferToGltf gltf indicesBuffer
        match gltf1.accessors[indicesId]? with
        | none => Except.error "TypeError: Cannot read properties of undefined (indices accessor)"
        | some indicesAccessor1 =>
          let accessors1 := gltf1.accessors.set indicesId
            { indicesAccessor1 with bufferView := some bufferViewId, byteOffset := some 0 }
          decompressAttributesLoop enc mesh primitive { gltf1 with accessors := accessors1 }
            dracoExtension.attributes

/-- Skip condition of the decompression pass (decompression source lines
47-50): `defined(primitive.mode) && primitive.mode !== 4`. -/
def modeSkipsDecompression (primitive : Primitive) : Bool :=
  match primitive.mode with
  | some m => decide (m ≠ 4)
  | none => false

/-- Processing of one primitive by the decompression pass (decompression
source lines 45-82).  The returned Bool records whether a codec decode was
performed for this primitive. -/
def decompressPrimitive (gltf : Gltf) (primitive : Primitive) :
    Except String (Gltf × Primitive × Bool) :=
  if modeSkipsDecompression primitive then Except.ok (gltf, primitive, false)
  else
    match primitive.extensions with
    | none => Except.ok (gltf, primitive, false)
    | some dracoExtension =>
      match gltf.bufferViews[dracoExtension.bufferView]? with
      | none => Except.error "TypeError: Cannot read properties of undefined (bufferView)"
      | some bufferView =>
        match gltf.buffers[bufferView.buffer]? with
        | none => Except.error "TypeError: Cannot read properties of undefined (buffer)"
        | some buffer =>
          match buffer.source with
          | Source.draco mesh enc =>
            match decmopressDracoMesh gltf primitive mesh enc dracoExtension with
            | Except.error e => Except.error e
            | Except.ok gltf1 =>
              let primitive1 := removePrimitiveExtension primitive "KHR_draco_mesh_compression"
              let gltf2 := removeExtensionsUsed gltf1 "KHR_draco_mesh_compression"
              Except.ok (gltf2, primitive1, true)
          | _ => Except.error "THREE.DRACOLoader: Decoding failed: payload is not a draco mesh"

def decompressPrims : Gltf → List Primitive →
    Except String (Gltf × List Primitive × List Bool)
  | gltf, [] => Except.ok (gltf, [], [])
  | gltf, primitive :: rest =>
    match decompressPrimitive gltf primitive with
    | Except.error e => Except.error e
    | Except.ok (gltf1, p1, flag) =>
      match decompressPrims gltf1 rest with
      | Except.error e => Except.error e
      | Except.ok (gltf2, rest1, flags) => Except.ok (gltf2, p1 :: rest1, flag :: flags)

def decompressMeshes : Gltf → List GltfMesh →
    Except String (Gltf × List GltfMesh × List Bool)
  | gltf, [] => Except.ok (gltf, [], [])
  | gltf, mesh :: rest =>
    match decompressPrims gltf mesh.primitives with
    | Except.error e => Except.error e
    | Except.ok (gltf1, prims1, flags1) =>
      match decompressMeshes gltf1 rest with
      | Except.error e => Except.error e
      | Except.ok (gltf2, rest1, flags2) =>
        Except.ok (gltf2, { primitives := prims1 } :: rest1, flags1 ++ flags2)

/-- `decompressDracoMeshes` (decompression source lines 42-88), additionally
returning one flag per primitive (in mesh and primitive order) recording
whether a codec decode was performed for it. -/
def decompressDracoMeshesRun (gltf : Gltf) : Except String (Gltf × List Bool) :=
  match decompressMeshes gltf gltf.meshes with
  | Except.error e => Except.error e
  | Except.ok (gltf1, meshes1, flags) =>
    Except.ok (removeUnusedElements { gltf1 with meshes := meshes1 }, flags)

def decompressDracoMeshes (gltf : Gltf) (_options : Option PipelineOptions) :
    Except String Gltf :=
  match decompressDracoMeshesRun gltf with
  | Except.error e => Except.error e
  | Except.ok (g, _) => Except.ok g

/-! ## Animation compression pass (src/lib/compressDracoAnimations.js) -/

/-- `removeDataAndReplaceAccessor` (animation source lines 24-46): duplicate
the accessor without its bufferView, append the duplicate and rewire every
sampler input/output that referenced the old accessor id. -/
def removeDataAndReplaceAccessor (gltf : Gltf) (oldAccessorId : Nat) :
    Except String (Gltf × Nat) :=
  match gltf.accessors[oldAccessorId]? with
  | none => Except.error "TypeError: Cannot read properties of undefined (accessor)"
  | some oldAccessor =>
    let newAccessor : Accessor := {
      componentType := oldAccessor.componentType
      count := oldAccessor.count
      max := oldAccessor.max
      min := oldAccessor.min
      type := oldAccessor.type }
    let (accessors1, newAccessorId) := addToArray gltf.accessors newAccessor
    let animations1 := gltf.animations.map (fun animation =>
      { animation with samplers := animation.samplers.map (fun sampler =>
          let s1 := if sampler.input = some oldAccessorId then
                      { sampler with input := some newAccessorId } else sampler
          if s1.output = some oldAccessorId then
            { s1 with output := some newAccessorId } else s1) })
    Except.ok ({ gltf with accessors := accessors1, animations := animations1 }, newAccessorId)

/-- The inner output loop of `removeAllSamplerAccessorData` (animation source
lines 62-72).  `replacedAccessors` is the set of original accessor ids
already replaced (the source keys an array by original id; only definedness
of an entry is ever read). -/
def removeOutputsData : Gltf → List Nat → List Nat →
    Except String (Gltf × List Nat × List Nat)
  | gltf, replacedAccessors, [] => Except.ok (gltf, replacedAccessors, [])
  | gltf, replacedAccessors, output :: rest =>
    if output ∈ replacedAccessors then
      Except.error "Error: Duplicated output in animation extension."
    else
      match removeDataAndReplaceAccessor gltf output with
      | Except.error e => Except.error e
      | Except.ok (gltf1, newAccessorId) =>
        match removeOutputsData gltf1 (replacedAccessors ++ [output]) rest with
        | Except.error e => Except.error e
        | Except.ok (gltf2, replaced2, rest1) =>
          Except.ok (gltf2, replaced2, newAccessorId :: rest1)

/-- `removeAllSamplerAccessorData` (animation source lines 50-74): walk the
extracted animations; fail when an input id was already replaced (as an
earlier input or output), replace it; then fail for each output id already
replaced, replacing each.  The JavaScript `for...in` iterates the integer
input keys in ascending numeric order; the model iterates the extraction
list in insertion order — whether an error is raised is the same for every
iteration order (it holds exactly when the ids are not pairwise distinct),
which is the only property proved about this function. -/
def removeAllSamplerAccessorData : Gltf → List CompressedAnimation → List Nat →
    Except String (Gltf × List CompressedAnimation)
  | gltf, [], _ => Except.ok (gltf, [])
  | gltf, entry :: rest, replacedAccessors =>
    if entry.input ∈ replacedAccessors then
      Except.error "Error: Duplicated input in animation extension."
    else
      match removeDataAndReplaceAccessor gltf entry.input with
      | Except.error e => Except.error e
      | Except.ok (gltf1, newInputId) =>
        match removeOutputsData gltf1 (replacedAccessors ++ [entry.input]) entry.outputs with
        | Except.error e => Except.error e
        | Except.ok (gltf2, replaced2, newOutputs) =>
          match removeAllSamplerAccessorData gltf2 rest replaced2 with
          | Except.error e => Except.error e
          | Except.ok (gltf3, rest1) =>
            Except.ok (gltf3, { entry with input := newInputId, outputs := newOutputs } :: rest1)

/-- `addCompressedAnimation` (animation source lines 78-97). -/
def addCompressedAnimation (gltf : Gltf) (compressedAnimation : CompressedAnimation)
    (encodedLen : Nat) (encodedData : Source) : Gltf × CompressedAnimation :=
  let (buffers1, bufferId) := addToArray gltf.buffers { byteLength := encodedLen, source := encodedData }
  let bufferView : BufferView := { buffer := bufferId, byteOffset := 0, byteLength := encodedLen }
  let (bufferViews1, bufferViewId) := addToArray gltf.bufferViews bufferView
  ({ gltf with buffers := buffers1, bufferViews := bufferViews1 },
   { compressedAnimation with bufferView := some bufferViewId })

/-- Append an output accessor id to the extraction entry with the given
input id. -/
def pushOutput (entries : List CompressedAnimation) (input output : Nat) :
    List CompressedAnimation :=
  entries.map (fun e => if e.input = input then { e with outputs := e.outputs ++ [output] } else e)

def findAnimationEntry (entries : List CompressedAnimation) (input : Nat) :
    Option CompressedAnimation :=
  entries.find? (fun e => e.input = input)

/-- The extraction walk of `compressDracoAnimations` (animation source lines
113-133): group sampler outputs by their input timeline accessor, rejecting
samplers missing input/output or interpolation. -/
def extractAnimationSamplers : List AnimationSampler → List CompressedAnimation → Nat →
    Except String (List CompressedAnimation × Nat)
  | [], entries, count => Except.ok (entries, count)
  | sampler :: rest, entries, count =>
    match sampler.input, sampler.output with
    | some input, some output =>
      if sampler.interpolation.isNone then
        Except.error "Error: Animation missing interpolation method."
      else
        match findAnimationEntry entries input with
        | none =>
          extractAnimationSamplers rest
            (entries ++ [{ input := input, outputs := [output] }]) (count + 1)
        | some _ =>
          extractAnimationSamplers rest (pushOutput entries input output) (count + 1)
    | _, _ => Except.error "Error: Animation missing input/output."

/-- The outer `ForEach.animation` walk of the extraction (animation source
lines 107-127), threading the extraction state through every animation. -/
def extractAnimationList : List Animation → List CompressedAnimation → Nat →
    Except String (List CompressedAnimation × Nat)
  | [], entries, count => Except.ok (entries, count)
  | animation :: rest, entries, count =>
    match extractAnimationSamplers animation.samplers entries count with
    | Except.error e => Except.error e
    | Except.ok (entries1, count1) => extractAnimationList rest entries1 count1

def extractAllAnimations (gltf : Gltf) : Except String (List CompressedAnimation × Nat) :=
  extractAnimationList gltf.animations [] 0

/-- The keyframe-adding loop of one animation encode (animation source lines
158-171).  `animationBuilder.AddKeyframes` assigns sequential positive
attribute ids (the timestamps occupy id 0), so the `attributeId <= 0` error
branch is dead in the model. -/
def addAnimationKeyframes (gltf : Gltf) : List Nat → List Nat → List (List Int) →
    Except String (List Nat × List (List Int))
  | [], attributesId, dataAcc => Except.ok (attributesId, dataAcc)
  | output :: rest, attributesId, dataAcc =>
    match gltf.accessors[output]? with
    | none => Except.error "TypeError: Cannot read properties of undefined (accessor)"
    | some outputAccessor =>
      let packed := readAccessorPacked gltf outputAccessor
      let attributeId : Int := (dataAcc.length : Int) + 1
      if attributeId ≤ 0 then Except.error "Error: Failed adding new keyframes data."
      else addAnimationKeyframes gltf rest (attributesId ++ [attributeId.toNat]) (dataAcc ++ [packed])

/-- One iteration of the animation encode loop (animation source lines
142-194): read the timestamps, add each output's keyframes, encode (the
modelled encoded length is positive by construction) and attach the payload
buffer/bufferView. -/
def encodeAnimationEntry (gltf : Gltf) (entry : CompressedAnimation) :
    Except String (Gltf × CompressedAnimation) :=
  match gltf.accessors[entry.input]? with
  | none => Except.error "TypeError: Cannot read properties of undefined (accessor)"
  | some inputAccessor =>
    let timestampsData := readAccessorPacked gltf inputAccessor
    match addAnimationKeyframes gltf entry.outputs [] [] with
    | Except.error e => Except.error e
    | Except.ok (attributesId, keyframesData) =>
      let encodedData := Source.anim timestampsData keyframesData
      let encodedLen := sourceByteLength encodedData
      if encodedLen ≤ 0 then Except.error "Error: Encoding failed."
      else
        let entry1 := { entry with attributesId := attributesId }
        Except.ok (addCompressedAnimation gltf entry1 encodedLen encodedData)

def encodeAnimationEntries : Gltf → List CompressedAnimation →
    Except String (Gltf × List CompressedAnimation)
  | gltf, [] => Except.ok (gltf, [])
  | gltf, entry :: rest =>
    match encodeAnimationEntry gltf entry with
    | Except.error e => Except.error e
    | Except.ok (gltf1, entry1) =>
      match encodeAnimationEntries gltf1 rest with
      | Except.error e => Except.error e
      | Except.ok (gltf2, rest1) => Except.ok (gltf2, entry1 :: rest1)

/-- `compressDracoAnimations` (animation source lines 99-212). -/
def compressDracoAnimations (gltf : Gltf) (options : Option PipelineOptions) :
    Except String Gltf :=
  let options := options.getD {}
  let _timestampsQuantization := options.quantizeTimestamps.getD 16
  let _keyframesQuantization := options.quantizeKeyframes.getD 16
  match extractAllAnimations gltf with
  | Except.error e => Except.error e
  | Except.ok (extractedAnimations, extractedAnimationCount) =>
    if extractedAnimationCount = 0 then Except.ok gltf
    else
      let gltf1 := addExtensionsRequired gltf "Draco_animation_compression"
      match encodeAnimationEntries gltf1 extractedAnimations with
      | Except.error e => Except.error e
      | Except.ok (gltf2, entries1) =>
        match removeAllSamplerAccessorData gltf2 entries1 [] with
        | Except.error e => Except.error e
        | Except.ok (gltf3, entries2) =>
          Except.ok { gltf3 with extDracoAnimation := gltf3.extDracoAnimation ++ entries2 }

/-! ## General helper lemmas -/

theorem checkRange_ok (name : String) (value lo hi : Int) (h1 : lo ≤ value) (h2 : value ≤ hi) :
    checkRange name value lo hi = Except.ok () := by
  unfold checkRange
  rw [if_neg (by omega), if_neg (by omega)]

theorem checkRange_error (name : String) (value lo hi : Int) (h : value < lo ∨ hi < value) :
    ∃ e, checkRange name value lo hi = Except.error e := by
  unfold checkRange
  by_cases h1 : value < lo
  · exact ⟨_, by rw [if_pos h1]⟩
  · have h2 : hi < value := by omega
    exact ⟨_, by rw [if_neg h1, if_pos h2]⟩

/-! ## C6: unsupported component types in the type dispatch -/

/-- The supported component types of the attribute type dispatch. -/
def supportedComponentTypes : List Nat := [5120, 5121, 5122, 5123, 5124, 5125, 5126]

/-- The draco data-type codes given their own typed branch by
`getAttributeBuffer`. -/
def supportedAttributeDataTypes : List Nat := [1, 2, 3, 4, 5, 6]

/-- A single-accessor asset whose only accessor has the unsupported component
type 5130 (DOUBLE). -/
def gltfC6 : Gltf := { accessors := [{ componentType := 5130, count := 1, type := "VEC3" }] }

/-- C6, the claim as stated is false: for an attribute with unsupported
component type 5130, the compress-side dispatch returns `undefined`
(no operation name) and the attribute-add step fails with an implicit
TypeError, not with an explicit "unsupported attribute type" error; and the
decode-side dispatch for the out-of-table draco data type 7 (int64) silently
falls through to the 32-bit float branch instead of failing. -/
theorem C6_counterexample :
    getAddAttributeFunctionName 5130 = none ∧
    addPrimitiveAttributes gltfC6 [("POSITION", 0)] {} [] 0 =
      Except.error "TypeError: meshBuilder[addAttributeFunctionName] is not a function" ∧
    attributeBufferFloatFallback 7 = true := by
  refine ⟨by decide, ?_, by decide⟩
  rfl

/-- C6 (amended): for every unsupported component type the compress-side
dispatch returns no operation name at all (so the subsequent codec call
crashes with a TypeError rather than raising an explicit "unsupported
attribute type" error), and for every draco data type outside the dispatch
table the decode side silently falls back to the 32-bit float operation. -/
theorem C6_amended_silent_dispatch (componentType dataType : Nat)
    (hct : componentType ∉ supportedComponentTypes)
    (hdt : dataType ∉ supportedAttributeDataTypes) :
    getAddAttributeFunctionName componentType = none ∧
    attributeBufferFloatFallback dataType = true := by
  simp only [supportedComponentTypes, List.mem_cons, List.not_mem_nil] at hct
  simp only [supportedAttributeDataTypes, List.mem_cons, List.not_mem_nil] at hdt
  push_neg at hct hdt
  constructor
  · unfold getAddAttributeFunctionName
    unfold WebGL_BYTE WebGL_UNSIGNED_BYTE WebGL_SHORT WebGL_UNSIGNED_SHORT
      WebGL_INT WebGL_UNSIGNED_INT WebGL_FLOAT
    obtain ⟨h1, h2, h3, h4, h5, h6, h7, _⟩ := hct
    rw [if_neg (by omega), if_neg (by omega), if_neg (by omega), if_neg (by omega),
       if_neg (by omega), if_neg (by omega), if_neg (by omega)]
  · unfold attributeBufferFloatFallback
    obtain ⟨h1, h2, h3, h4, h5, h6, _⟩ := hdt
    simp only [decide_eq_true_eq]
    exact ⟨h1, h2, h3, h4, h6, h5⟩

/-- Witness for the amended C6 theorem at component type 5130 and draco data
type 7. -/
theorem C6_amended_witness :
    (5130 ∉ supportedComponentTypes) ∧ (7 ∉ supportedAttributeDataTypes) ∧
    (getAddAttributeFunctionName 5130 = none ∧ attributeBufferFloatFallback 7 = true) :=
  ⟨by decide, by decide, C6_amended_silent_dispatch 5130 7 (by decide) (by decide)⟩

/-! ## C7: configuration errors reported before any processing -/


/-- C7: whenever the resolved compressionLevel lies outside [0,10] or any
resolved quantization bit depth lies outside [0,30], the compression pass
raises an error during the validation prefix — before `splitPrimitives`, the
quantization planning and the mesh walk — so the asset is not processed at
all. -/
theorem C7_configuration_error (gltf : Gltf) (options : Option PipelineOptions)
    (h : ¬ (0 ≤ resolvedCompressionLevel options ∧ resolvedCompressionLevel options ≤ 10 ∧
            0 ≤ resolvedQuantizePositionBits options ∧ resolvedQuantizePositionBits options ≤ 30 ∧
            0 ≤ resolvedQuantizeNormalBits options ∧ resolvedQuantizeNormalBits options ≤ 30 ∧
            0 ≤ resolvedQuantizeTexcoordBits options ∧ resolvedQuantizeTexcoordBits options ≤ 30 ∧
            0 ≤ resolvedQuantizeColorBits options ∧ resolvedQuantizeColorBits options ≤ 30 ∧
            0 ≤ resolvedQuantizeGenericBits options ∧ resolvedQuantizeGenericBits options ≤ 30)) :
    ∃ e, compressDracoMeshes gltf options = Except.error e := by
  simp only [compressDracoMeshes, compressDracoMeshesRun]
  by_cases c1 : 0 ≤ resolvedCompressionLevel options ∧ resolvedCompressionLevel options ≤ 10
  · rw [checkRange_ok "compressionLevel" (resolvedCompressionLevel options) 0 10 c1.1 c1.2]
    by_cases c2 : 0 ≤ resolvedQuantizePositionBits options ∧ resolvedQuantizePositionBits options ≤ 30
    · rw [checkRange_ok "quantizePositionBits" (resolvedQuantizePositionBits options) 0 30 c2.1 c2.2]
      by_cases c3 : 0 ≤ resolvedQuantizeNormalBits options ∧ resolvedQuantizeNormalBits options ≤ 30
      · rw [checkRange_ok "quantizeNormalBits" (resolvedQuantizeNormalBits options) 0 30 c3.1 c3.2]
        by_cases c4 : 0 ≤ resolvedQuantizeTexcoordBits options ∧ resolvedQuantizeTexcoordBits options ≤ 30
        · rw [checkRange_ok "quantizeTexcoordBits" (resolvedQuantizeTexcoordBits options) 0 30 c4.1 c4.2]
          by_cases c5 : 0 ≤ resolvedQuantizeColorBits options ∧ resolvedQuantizeColorBits options ≤ 30
          · rw [checkRange_ok "quantizeColorBits" (resolvedQuantizeColorBits options) 0 30 c5.1 c5.2]
            by_cases c6 : 0 ≤ resolvedQuantizeGenericBits options ∧ resolvedQuantizeGenericBits options ≤ 30
            · exact absurd ⟨c1.1, c1.2, c2.1, c2.2, c3.1, c3.2, c4.1, c4.2,
                c5.1, c5.2, c6.1, c6.2⟩ h
            · obtain ⟨e, he⟩ := checkRange_error "quantizeGenericBits"
                (resolvedQuantizeGenericBits options) 0 30 (by omega)
              rw [he]; exact ⟨e, rfl⟩
          · obtain ⟨e, he⟩ := checkRange_error "quantizeColorBits"
              (resolvedQuantizeColorBits options) 0 30 (by omega)
            rw [he]; exact ⟨e, rfl⟩
        · obtain ⟨e, he⟩ := checkRange_error "quantizeTexcoordBits"
            (resolvedQuantizeTexcoordBits options) 0 30 (by omega)
          rw [he]; exact ⟨e, rfl⟩
      · obtain ⟨e, he⟩ := checkRange_error "quantizeNormalBits"
          (resolvedQuantizeNormalBits options) 0 30 (by omega)
        rw [he]; exact ⟨e, rfl⟩
    · obtain ⟨e, he⟩ := checkRange_error "quantizePositionBits"
        (resolvedQuantizePositionBits options) 0 30 (by omega)
      rw [he]; exact ⟨e, rfl⟩
  · obtain ⟨e, he⟩ := checkRange_error "compressionLevel"
      (resolvedCompressionLevel options) 0 10 (by omega)
    rw [he]; exact ⟨e, rfl⟩

/-- Options carrying an out-of-range compression level. -/
def optionsC7 : Option PipelineOptions :=
  some { dracoOptions := some { compressionLevel := some 11 } }

/-- Witness for C7 at a compression level of 11 on the empty asset. -/
theorem C7_witness : ∃ e, compressDracoMeshes {} optionsC7 = Except.error e :=
  C7_configuration_error {} optionsC7 (by decide)

/-! ## C4: non-triangle or index-less primitives pass through unchanged -/

theorem compressOnePrimitive_skip (cfg : CompressConfig) (st : CState) (p : Primitive)
    (h : modeSkipsCompression p = true ∨ p.indices = none) :
    compressOnePrimitive cfg st p = Except.ok (st, p) := by
  unfold compressOnePrimitive
  rcases h with h | h
  · rw [if_pos h]
  · by_cases hm : modeSkipsCompression p = true
    · rw [if_pos hm]
    · rw [if_neg hm, if_pos (by simp [h])]

theorem compressPrims_skip_preserved (cfg : CompressConfig) :
    ∀ (ps : List Primitive) (st st' : CState) (out : List Primitive),
    compressPrims cfg st ps = Except.ok (st', out) →
    ∀ (k : Nat) (p : Primitive), ps[k]? = some p →
    (modeSkipsCompression p = true ∨ p.indices = none) →
    out[k]? = some p := by
  intro ps
  induction ps with
  | nil => intro st st' out hrun k p hp _; simp at hp
  | cons q rest ih =>
    intro st st' out hrun k p hp hskip
    unfold compressPrims at hrun
    split at hrun
    case h_1 => exact absurd hrun (by simp)
    case h_2 st1 p1 hstep =>
      split at hrun
      case h_1 => exact absurd hrun (by simp)
      case h_2 st2 rest1 hrest =>
        simp only [Except.ok.injEq, Prod.mk.injEq] at hrun
        obtain ⟨hst, hout⟩ := hrun
        cases k with
        | zero =>
          simp only [List.getElem?_cons_zero, Option.some.injEq] at hp
          subst hp
          have hskipeq := compressOnePrimitive_skip cfg st q hskip
          rw [hskipeq] at hstep
          simp only [Except.ok.injEq, Prod.mk.injEq] at hstep
          subst hout
          simp [hstep.2]
        | succ k1 =>
          simp only [List.getElem?_cons_succ] at hp
          subst hout
          simpa using ih st1 st2 rest1 hrest k1 p hp hskip

theorem compressMeshes_skip_preserved (cfg : CompressConfig) :
    ∀ (ms : List GltfMesh) (st st' : CState) (out : List GltfMesh),
    compressMeshes cfg st ms = Except.ok (st', out) →
    ∀ (mi pi : Nat) (p : Primitive),
    (ms[mi]?).bind (fun m => m.primitives[pi]?) = some p →
    (modeSkipsCompression p = true ∨ p.indices = none) →
    (out[mi]?).bind (fun m => m.primitives[pi]?) = some p := by
  intro ms
  induction ms with
  | nil => intro st st' out hrun mi pi p hp _; simp at hp
  | cons m rest ih =>
    intro st st' out hrun mi pi p hp hskip
    unfold compressMeshes at hrun
    split at hrun
    case h_1 => exact absurd hrun (by simp)
    case h_2 st1 prims1 hstep =>
      split at hrun
      case h_1 => exact absurd hrun (by simp)
      case h_2 st2 rest1 hrest =>
        simp only [Except.ok.injEq, Prod.mk.injEq] at hrun
        obtain ⟨hst, hout⟩ := hrun
        cases mi with
        | zero =>
          simp only [List.getElem?_cons_zero, Option.some_bind] at hp
          subst hout
          simp only [List.getElem?_cons_zero, Option.some_bind]
          exact compressPrims_skip_preserved cfg m.primitives st st1 prims1 hstep pi p hp hskip
        | succ mi1 =>
          simp only [List.getElem?_cons_succ] at hp
          subst hout
          simpa using ih st1 st2 rest1 hrest mi1 pi p hp hskip

/-- Inversion of a successful compression pass: the asset's meshes are the
output of the mesh walk and the element arrays are the final state's. -/
theorem compressDracoMeshesRun_ok (gltf : Gltf) (options : Option PipelineOptions)
    (g2 : Gltf) (log : List Fingerprint)
    (hrun : compressDracoMeshesRun gltf options = Except.ok (g2, log)) :
    ∃ cfg st1 meshes1,
      compressMeshes cfg { gltf := gltf } gltf.meshes = Except.ok (st1, meshes1) ∧
      g2.meshes = meshes1 ∧
      g2.accessors = st1.gltf.accessors ∧
      g2.buffers = st1.gltf.buffers ∧
      g2.bufferViews = st1.gltf.bufferViews ∧
      log = st1.encodedFingerprints := by
  unfold compressDracoMeshesRun at hrun
  simp only [splitPrimitives] at hrun
  split at hrun
  case h_1 => exact absurd hrun (by simp)
  split at hrun
  case h_1 => exact absurd hrun (by simp)
  split at hrun
  case h_1 => exact absurd hrun (by simp)
  split at hrun
  case h_1 => exact absurd hrun (by simp)
  split at hrun
  case h_1 => exact absurd hrun (by simp)
  split at hrun
  case h_1 => exact absurd hrun (by simp)
  split at hrun
  case h_1 => exact absurd hrun (by simp)
  rename_i positionOrigin positionRange hplan
  split at hrun
  case h_1 => exact absurd hrun (by simp)
  rename_i st1 meshes1 hmeshes
  refine ⟨_, st1, meshes1, hmeshes, ?_⟩
  split at hrun <;>
  · simp only [Except.ok.injEq, Prod.mk.injEq] at hrun
    obtain ⟨hg, hlog⟩ := hrun
    subst hg
    simp [addExtensionsRequired, removeUnusedElements, hlog]

/-- C4: a primitive whose mode is defined and not TRIANGLES, or whose
indices are undefined, is left unchanged by a compression pass: its record
(attributes, indices, mode, targets, extensions) is untouched, so no
extension is added to it and none of its accessor references are
rewritten. -/
theorem C4_skipped_primitive_unchanged (gltf : Gltf) (options : Option PipelineOptions)
    (g2 : Gltf) (mi pi : Nat) (p : Primitive)
    (hp : primitiveAt gltf mi pi = some p)
    (hskip : (∃ m, p.mode = some m ∧ m ≠ WebGL_TRIANGLES) ∨ p.indices = none)
    (hrun : compressDracoMeshes gltf options = Except.ok g2) :
    primitiveAt g2 mi pi = some p := by
  have hskip2 : modeSkipsCompression p = true ∨ p.indices = none := by
    rcases hskip with ⟨m, hm, hne⟩ | h
    · left; simp [modeSkipsCompression, hm, hne]
    · right; exact h
  unfold compressDracoMeshes at hrun
  cases hr : compressDracoMeshesRun gltf options with
  | error e => rw [hr] at hrun; exact absurd hrun (by simp)
  | ok v =>
    obtain ⟨g, log⟩ := v
    rw [hr] at hrun
    simp only [Except.ok.injEq] at hrun
    subst hrun
    obtain ⟨cfg, st1, meshes1, hmeshes, hm2, _, _, _, _⟩ :=
      compressDracoMeshesRun_ok gltf options g log hr
    unfold primitiveAt at hp ⊢
    rw [hm2]
    exact compressMeshes_skip_preserved cfg gltf.meshes { gltf := gltf } st1 meshes1
      hmeshes mi pi p hp hskip2

/-- A one-mesh asset whose only primitive uses draw mode 1 (LINES). -/
def primC4 : Primitive :=
  { attributes := [("POSITION", 0)], indices := some 1, mode := some 1 }

def gltfC4 : Gltf := { meshes := [{ primitives := [primC4] }] }

/-- Witness for C4: the LINES primitive survives a compression pass
byte-for-byte. -/
theorem C4_witness : primitiveAt gltfC4 0 0 = some primC4 :=
  C4_skipped_primitive_unchanged gltfC4 none gltfC4 0 0 primC4 (by rfl)
    (Or.inl ⟨1, rfl, by decide⟩) (by rfl)

/-! ## C10: decompression skips non-triangle primitives entirely -/

theorem decompressPrimitive_skip (gltf : Gltf) (p : Primitive)
    (h : modeSkipsDecompression p = true) :
    decompressPrimitive gltf p = Except.ok (gltf, p, false) := by
  unfold decompressPrimitive
  rw [if_pos h]

theorem decompressPrims_lengths :
    ∀ (ps : List Primitive) (g g' : Gltf) (out : List Primitive) (flags : List Bool),
    decompressPrims g ps = Except.ok (g', out, flags) →
    out.length = ps.length ∧ flags.length = ps.length := by
  intro ps
  induction ps with
  | nil =>
    intro g g' out flags hrun
    unfold decompressPrims at hrun
    simp only [Except.ok.injEq, Prod.mk.injEq] at hrun
    obtain ⟨_, h1, h2⟩ := hrun
    subst h1; subst h2; simp
  | cons q rest ih =>
    intro g g' out flags hrun
    unfold decompressPrims at hrun
    split at hrun
    case h_1 => exact absurd hrun (by simp)
    case h_2 g1 p1 flag hstep =>
      split at hrun
      case h_1 => exact absurd hrun (by simp)
      case h_2 g2 rest1 flags1 hrest =>
        simp only [Except.ok.injEq, Prod.mk.injEq] at hrun
        obtain ⟨_, h1, h2⟩ := hrun
        subst h1; subst h2
        have := ih g1 g2 rest1 flags1 hrest
        simp [this.1, this.2]

theorem decompressPrims_skip_preserved :
    ∀ (ps : List Primitive) (g g' : Gltf) (out : List Primitive) (flags : List Bool),
    decompressPrims g ps = Except.ok (g', out, flags) →
    ∀ (k : Nat) (p : Primitive), ps[k]? = some p →
    modeSkipsDecompression p = true →
    out[k]? = some p ∧ flags[k]? = some false := by
  intro ps
  induction ps with
  | nil => intro g g' out flags hrun k p hp _; simp at hp
  | cons q rest ih =>
    intro g g' out flags hrun k p hp hskip
    unfold decompressPrims at hrun
    split at hrun
    case h_1 => exact absurd hrun (by simp)
    case h_2 g1 p1 flag hstep =>
      split at hrun
      case h_1 => exact absurd hrun (by simp)
      case h_2 g2 rest1 flags1 hrest =>
        simp only [Except.ok.injEq, Prod.mk.injEq] at hrun
        obtain ⟨_, h1, h2⟩ := hrun
        subst h1; subst h2
        cases k with
        | zero =>
          simp only [List.getElem?_cons_zero, Option.some.injEq] at hp
          subst hp
          have hskipeq := decompressPrimitive_skip g q hskip
          rw [hskipeq] at hstep
          simp only [Except.ok.injEq, Prod.mk.injEq] at hstep
          obtain ⟨_, hq, hflag⟩ := hstep
          simp [hq, hflag]
        | succ k1 =>
          simp only [List.getElem?_cons_succ] at hp
          have := ih g1 g2 rest1 flags1 hrest k1 p hp hskip
          simpa using this

/-- Flat position of primitive `pi` of mesh `mi` in the pass's primitive
processing order. -/
def flatPrimitiveIndex (meshes : List GltfMesh) (mi pi : Nat) : Nat :=
  ((meshes.take mi).map (fun m => m.primitives.length)).sum + pi

theorem decompressMeshes_skip_preserved :
    ∀ (ms : List GltfMesh) (g g' : Gltf) (out : List GltfMesh) (flags : List Bool),
    decompressMeshes g ms = Except.ok (g', out, flags) →
    ∀ (mi pi : Nat) (p : Primitive),
    (ms[mi]?).bind (fun m => m.primitives[pi]?) = some p →
    modeSkipsDecompression p = true →
    (out[mi]?).bind (fun m => m.primitives[pi]?) = some p ∧
    flags[flatPrimitiveIndex ms mi pi]? = some false := by
  intro ms
  induction ms with
  | nil => intro g g' out flags hrun mi pi p hp _; simp at hp
  | cons m rest ih =>
    intro g g' out flags hrun mi pi p hp hskip
    unfold decompressMeshes at hrun
    split at hrun
    case h_1 => exact absurd hrun (by simp)
    case h_2 g1 prims1 flags1 hstep =>
      split at hrun
      case h_1 => exact absurd hrun (by simp)
      case h_2 g2 rest1 flags2 hrest =>
        simp only [Except.ok.injEq, Prod.mk.injEq] at hrun
        obtain ⟨_, h1, h2⟩ := hrun
        subst h1; subst h2
        cases mi with
        | zero =>
          simp only [List.getElem?_cons_zero, Option.some_bind] at hp
          have hpk := decompressPrims_skip_preserved m.primitives g g1 prims1 flags1 hstep pi p hp hskip
          have hlen := (decompressPrims_lengths m.primitives g g1 prims1 flags1 hstep).2
          have hpi : pi < flags1.length := by
            rw [hlen]
            by_contra hcon
            rw [List.getElem?_eq_none (by omega)] at hp
            exact absurd hp (by simp)
          constructor
          · simp only [List.getElem?_cons_zero, Option.some_bind]
            exact hpk.1
          · unfold flatPrimitiveIndex
            simp only [List.take_zero, List.map_nil, List.sum_nil, Nat.zero_add]
            rw [List.getElem?_append, if_pos hpi]
            exact hpk.2
        | succ mi1 =>
          simp only [List.getElem?_cons_succ] at hp
          have hrec := ih g1 g2 rest1 flags2 hrest mi1 pi p hp hskip
          have hlen := (decompressPrims_lengths m.primitives g g1 prims1 flags1 hstep).2
          constructor
          · simpa using hrec.1
          · unfold flatPrimitiveIndex at hrec ⊢
            simp only [List.take_succ_cons, List.map_cons, List.sum_cons]
            rw [Nat.add_assoc]
            rw [show m.primitives.length = flags1.length from hlen.symm]
            rw [List.getElem?_append, if_neg (by omega)]
            have hsub : flags1.length + (((rest.take mi1).map (fun m => m.primitives.length)).sum + pi)
                - flags1.length = ((rest.take mi1).map (fun m => m.primitives.length)).sum + pi := by
              omega
            rw [hsub]
            exact hrec.2

/-- Inversion of a successful decompression pass. -/
theorem decompressDracoMeshesRun_ok (gltf g2 : Gltf) (flags : List Bool)
    (hrun : decompressDracoMeshesRun gltf = Except.ok (g2, flags)) :
    ∃ g1 meshes1,
      decompressMeshes gltf gltf.meshes = Except.ok (g1, meshes1, flags) ∧
      g2 = { g1 with meshes := meshes1 } := by
  unfold decompressDracoMeshesRun at hrun
  split at hrun
  case h_1 => exact absurd hrun (by simp)
  case h_2 g1 meshes1 flags1 hmeshes =>
    simp only [removeUnusedElements, Except.ok.injEq, Prod.mk.injEq] at hrun
    obtain ⟨hg, hf⟩ := hrun
    subst hf
    exact ⟨g1, meshes1, hmeshes, hg.symm⟩

/-- C10: the decompression pass leaves a primitive whose mode is defined and
different from 4 (TRIANGLES) entirely unchanged — its record is untouched
(so its extension, if any, is not removed) and no codec decode is performed
for it. -/
theorem C10_mode_skips_decompression (gltf g2 : Gltf) (flags : List Bool)
    (mi pi : Nat) (p : Primitive) (m : Nat)
    (hp : primitiveAt gltf mi pi = some p)
    (hm : p.mode = some m) (hne : m ≠ 4)
    (hrun : decompressDracoMeshesRun gltf = Except.ok (g2, flags)) :
    primitiveAt g2 mi pi = some p ∧
    flags[flatPrimitiveIndex gltf.meshes mi pi]? = some false := by
  have hskip : modeSkipsDecompression p = true := by
    simp [modeSkipsDecompression, hm, hne]
  obtain ⟨g1, meshes1, hmeshes, hg2⟩ := decompressDracoMeshesRun_ok gltf g2 flags hrun
  have := decompressMeshes_skip_preserved gltf.meshes gltf g1 meshes1 flags hmeshes mi pi p hp hskip
  subst hg2
  exact ⟨this.1, this.2⟩

/-- A compressed-looking LINES primitive: it carries the draco extension but
must still be skipped by the decompression pass. -/
def primC10 : Primitive :=
  { attributes := [("POSITION", 0)], indices := some 1, mode := some 1,
    extensions := some { bufferView := 0, attributes := [("POSITION", 0)] } }

def gltfC10 : Gltf := { meshes := [{ primitives := [primC10] }] }

/-- Witness for C10: the extension-carrying LINES primitive is untouched and
not decoded. -/
theorem C10_witness :
    primitiveAt gltfC10 0 0 = some primC10 ∧
    [false][flatPrimitiveIndex gltfC10.meshes 0 0]? = some false :=
  C10_mode_skips_decompression gltfC10 gltfC10 [false] 0 0 primC10 1
    (by rfl) (by rfl) (by decide) (by rfl)

/-! ## C2: the unified quantization bounding box -/

/-- The j-th component of a position accessor's `min` vector. -/
def accessorMinComponent (gltf : Gltf) (accessorId j : Nat) : ℚ :=
  match gltf.accessors[accessorId]? with
  | some a => (a.min.getD []).getD j 0
  | none => 0

/-- The j-th component of a position accessor's `max` vector. -/
def accessorMaxComponent (gltf : Gltf) (accessorId j : Nat) : ℚ :=
  match gltf.accessors[accessorId]? with
  | some a => (a.max.getD []).getD j 0
  | none => 0

/-- The j-th components of all POSITION accessors' `min` vectors. -/
def positionMinsAt (gltf : Gltf) (j : Nat) : List ℚ :=
  (accessorIdsWithSemantic gltf "POSITION").map (fun aid => accessorMinComponent gltf aid j)

def positionMaxsAt (gltf : Gltf) (j : Nat) : List ℚ :=
  (accessorIdsWithSemantic gltf "POSITION").map (fun aid => accessorMaxComponent gltf aid j)

def isListMin (l : List ℚ) (q : ℚ) : Prop := q ∈ l ∧ ∀ x ∈ l, q ≤ x

def isListMax (l : List ℚ) (q : ℚ) : Prop := q ∈ l ∧ ∀ x ∈ l, x ≤ q

/-- A position accessor acceptable to the unified-quantization scan: present,
VEC3, with min/max vectors of at least three components. -/
def goodPositionAccessor (gltf : Gltf) (accessorId : Nat) : Bool :=
  match gltf.accessors[accessorId]? with
  | some a =>
    (a.type == "VEC3") &&
    (match a.min with | some mins => decide (3 ≤ mins.length) | none => false) &&
    (match a.max with | some maxs => decide (3 ≤ maxs.length) | none => false)
  | none => false

theorem foldl_jsMinQ_some (xs : List ℚ) (x : ℚ) :
    ∃ q, xs.foldl jsMinQ (some x) = some q ∧ q ≤ x ∧ (q = x ∨ q ∈ xs) ∧ ∀ y ∈ xs, q ≤ y := by
  induction xs generalizing x with
  | nil => exact ⟨x, rfl, le_refl x, Or.inl rfl, by simp⟩
  | cons z rest ih =>
    obtain ⟨q, hq, hle, hmem, hub⟩ := ih (min x z)
    refine ⟨q, by simpa [jsMinQ] using hq, le_trans hle (min_le_left x z), ?_, ?_⟩
    · rcases hmem with h | h
      · rcases min_choice x z with hc | hc
        · left; rw [h, hc]
        · right; rw [h, hc]; exact List.mem_cons_self z rest
      · right; exact List.mem_cons_of_mem z h
    · intro y hy
      rcases List.mem_cons.mp hy with h | h
      · subst h; exact le_trans hle (min_le_right x y)
      · exact hub y h

theorem foldl_jsMaxQ_some (xs : List ℚ) (x : ℚ) :
    ∃ q, xs.foldl jsMaxQ (some x) = some q ∧ x ≤ q ∧ (q = x ∨ q ∈ xs) ∧ ∀ y ∈ xs, y ≤ q := by
  induction xs generalizing x with
  | nil => exact ⟨x, rfl, le_refl x, Or.inl rfl, by simp⟩
  | cons z rest ih =>
    obtain ⟨q, hq, hle, hmem, hub⟩ := ih (max x z)
    refine ⟨q, by simpa [jsMaxQ] using hq, le_trans (le_max_left x z) hle, ?_, ?_⟩
    · rcases hmem with h | h
      · rcases max_choice x z with hc | hc
        · left; rw [h, hc]
        · right; rw [h, hc]; exact List.mem_cons_self z rest
      · right; exact List.mem_cons_of_mem z h
    · intro y hy
      rcases List.mem_cons.mp hy with h | h
      · subst h; exact le_trans (le_max_right x y) hle
      · exact hub y h

theorem foldl_jsMinQ_from_none (xs : List ℚ) (hne : xs ≠ []) :
    ∃ q, xs.foldl jsMinQ none = some q ∧ isListMin xs q := by
  cases xs with
  | nil => exact absurd rfl hne
  | cons z rest =>
    obtain ⟨q, hq, hle, hmem, hub⟩ := foldl_jsMinQ_some rest z
    refine ⟨q, by simpa [jsMinQ] using hq, ?_, ?_⟩
    · rcases hmem with h | h
      · rw [h]; exact List.mem_cons_self z rest
      · exact List.mem_cons_of_mem z h
    · intro y hy
      rcases List.mem_cons.mp hy with h | h
      · subst h; exact hle
      · exact hub y h

theorem foldl_jsMaxQ_from_none (xs : List ℚ) (hne : xs ≠ []) :
    ∃ q, xs.foldl jsMaxQ none = some q ∧ isListMax xs q := by
  cases xs with
  | nil => exact absurd rfl hne
  | cons z rest =>
    obtain ⟨q, hq, hle, hmem, hub⟩ := foldl_jsMaxQ_some rest z
    refine ⟨q, by simpa [jsMaxQ] using hq, ?_, ?_⟩
    · rcases hmem with h | h
      · rw [h]; exact List.mem_cons_self z rest
      · exact List.mem_cons_of_mem z h
    · intro y hy
      rcases List.mem_cons.mp hy with h | h
      · subst h; exact hle
      · exact hub y h

theorem unifiedFold_spec (gltf : Gltf) :
    ∀ (ids : List Nat) (s0 s1 s2 t0 t1 t2 : Option ℚ),
    (∀ aid ∈ ids, goodPositionAccessor gltf aid = true) →
    ∃ q0 q1 q2 r0 r1 r2,
      unifiedFold gltf ids ([s0, s1, s2], [t0, t1, t2]) =
        Except.ok ([q0, q1, q2], [r0, r1, r2]) ∧
      q0 = (ids.map (fun aid => accessorMinComponent gltf aid 0)).foldl jsMinQ s0 ∧
      q1 = (ids.map (fun aid => accessorMinComponent gltf aid 1)).foldl jsMinQ s1 ∧
      q2 = (ids.map (fun aid => accessorMinComponent gltf aid 2)).foldl jsMinQ s2 ∧
      r0 = (ids.map (fun aid => accessorMaxComponent gltf aid 0)).foldl jsMaxQ t0 ∧
      r1 = (ids.map (fun aid => accessorMaxComponent gltf aid 1)).foldl jsMaxQ t1 ∧
      r2 = (ids.map (fun aid => accessorMaxComponent gltf aid 2)).foldl jsMaxQ t2 := by
  intro ids
  induction ids with
  | nil =>
    intro s0 s1 s2 t0 t1 t2 _
    exact ⟨s0, s1, s2, t0, t1, t2, rfl, rfl, rfl, rfl, rfl, rfl, rfl⟩
  | cons aid rest ih =>
    intro s0 s1 s2 t0 t1 t2 hgood
    have hgood0 := hgood aid (List.mem_cons_self aid rest)
    unfold goodPositionAccessor at hgood0
    cases han : gltf.accessors[aid]? with
    | none => rw [han] at hgood0; exact absurd hgood0 (by simp)
    | some a =>
      rw [han] at hgood0
      dsimp only at hgood0
      cases hmin : a.min with
      | none => rw [hmin] at hgood0; simp at hgood0
      | some mins =>
        cases hmax : a.max with
        | none => rw [hmax] at hgood0; simp at hgood0
        | some maxs =>
          rw [hmin, hmax] at hgood0
          simp only [Bool.and_eq_true, beq_iff_eq, decide_eq_true_eq] at hgood0
          obtain ⟨⟨htype, hminlen⟩, hmaxlen⟩ := hgood0
          unfold unifiedFold
          rw [han]
          dsimp only
          unfold unifiedAccumulate
          rw [if_neg (by simp [htype])]
          rw [hmin, hmax]
          dsimp only
          rw [if_pos ⟨hminlen, hmaxlen⟩]
          have hrange : List.range 3 = [0, 1, 2] := rfl
          rw [hrange]
          simp only [List.map_cons, List.map_nil, List.getD_cons_zero, List.getD_cons_succ]
          obtain ⟨q0, q1, q2, r0, r1, r2, heq, h0, h1, h2, h3, h4, h5⟩ :=
            ih (jsMinQ s0 (mins.getD 0 0)) (jsMinQ s1 (mins.getD 1 0)) (jsMinQ s2 (mins.getD 2 0))
               (jsMaxQ t0 (maxs.getD 0 0)) (jsMaxQ t1 (maxs.getD 1 0)) (jsMaxQ t2 (maxs.getD 2 0))
               (fun x hx => hgood x (List.mem_cons_of_mem aid hx))
          refine ⟨q0, q1, q2, r0, r1, r2, heq, ?_, ?_, ?_, ?_, ?_, ?_⟩
          · rw [h0]; simp [accessorMinComponent, han, hmin]
          · rw [h1]; simp [accessorMinComponent, han, hmin]
          · rw [h2]; simp [accessorMinComponent, han, hmin]
          · rw [h3]; simp [accessorMaxComponent, han, hmax]
          · rw [h4]; simp [accessorMaxComponent, han, hmax]
          · rw [h5]; simp [accessorMaxComponent, han, hmax]

/-- C2: with unified quantization on, before any encoding the pass computes
the quantization origin as the component-wise minimum of all POSITION
accessors' `min` vectors and the quantization range as the maximum of the three
axis spans `max[j] - min[j]` of the accumulated bounding box. -/
theorem C2_unified_quantization_plan (gltf : Gltf)
    (hgood : ∀ aid ∈ accessorIdsWithSemantic gltf "POSITION",
      goodPositionAccessor gltf aid = true)
    (hne : accessorIdsWithSemantic gltf "POSITION" ≠ []) :
    ∃ mn0 mn1 mn2 mx0 mx1 mx2,
      unifiedQuantizationPlan gltf =
        Except.ok ([some mn0, some mn1, some mn2],
          some (max (mx0 - mn0) (max (mx1 - mn1) (mx2 - mn2)))) ∧
      isListMin (positionMinsAt gltf 0) mn0 ∧
      isListMin (positionMinsAt gltf 1) mn1 ∧
      isListMin (positionMinsAt gltf 2) mn2 ∧
      isListMax (positionMaxsAt gltf 0) mx0 ∧
      isListMax (positionMaxsAt gltf 1) mx1 ∧
      isListMax (positionMaxsAt gltf 2) mx2 := by
  obtain ⟨q0, q1, q2, r0, r1, r2, heq, h0, h1, h2, h3, h4, h5⟩ :=
    unifiedFold_spec gltf (accessorIdsWithSemantic gltf "POSITION")
      none none none none none none hgood
  have hmapne : ∀ j, (accessorIdsWithSemantic gltf "POSITION").map
      (fun aid => accessorMinComponent gltf aid j) ≠ [] := by
    intro j hc
    exact hne (List.map_eq_nil_iff.mp hc)
  have hmapne2 : ∀ j, (accessorIdsWithSemantic gltf "POSITION").map
      (fun aid => accessorMaxComponent gltf aid j) ≠ [] := by
    intro j hc
    exact hne (List.map_eq_nil_iff.mp hc)
  obtain ⟨mn0, hmn0, hmin0⟩ := foldl_jsMinQ_from_none _ (hmapne 0)
  obtain ⟨mn1, hmn1, hmin1⟩ := foldl_jsMinQ_from_none _ (hmapne 1)
  obtain ⟨mn2, hmn2, hmin2⟩ := foldl_jsMinQ_from_none _ (hmapne 2)
  obtain ⟨mx0, hmx0, hmax0⟩ := foldl_jsMaxQ_from_none _ (hmapne2 0)
  obtain ⟨mx1, hmx1, hmax1⟩ := foldl_jsMaxQ_from_none _ (hmapne2 1)
  obtain ⟨mx2, hmx2, hmax2⟩ := foldl_jsMaxQ_from_none _ (hmapne2 2)
  refine ⟨mn0, mn1, mn2, mx0, mx1, mx2, ?_, hmin0, hmin1, hmin2, hmax0, hmax1, hmax2⟩
  unfold unifiedQuantizationPlan
  rw [heq]
  rw [h0, hmn0] at heq ⊢
  simp only [h0, h1, h2, h3, h4, h5, hmn0, hmn1, hmn2, hmx0, hmx1, hmx2]
  simp [optionSub, optionMax]

/-- The three-primitive asset of the claim's concrete instance: POSITION
min/max boxes [0,0,0]-[1,1,1], [-1,0,0]-[0,1,1] and [0,-2,0]-[1,0,1]. -/
def gltfC2 : Gltf := {
  accessors := [
    { componentType := 5126, count := 3, type := "VEC3", min := some [0, 0, 0], max := some [1, 1, 1] },
    { componentType := 5126, count := 3, type := "VEC3", min := some [-1, 0, 0], max := some [0, 1, 1] },
    { componentType := 5126, count := 3, type := "VEC3", min := some [0, -2, 0], max := some [1, 0, 1] }],
  meshes := [{ primitives := [
    { attributes := [("POSITION", 0)], indices := some 0 },
    { attributes := [("POSITION", 1)], indices := some 0 },
    { attributes := [("POSITION", 2)], indices := some 0 }] }] }

/-- Witness for C2: on the claim's three-primitive instance the unified
origin is [-1,-2,0] and the unified range is 3. -/
theorem C2_witness :
    (∃ mn0 mn1 mn2 mx0 mx1 mx2,
      unifiedQuantizationPlan gltfC2 =
        Except.ok ([some mn0, some mn1, some mn2],
          some (max (mx0 - mn0) (max (mx1 - mn1) (mx2 - mn2)))) ∧
      isListMin (positionMinsAt gltfC2 0) mn0 ∧
      isListMin (positionMinsAt gltfC2 1) mn1 ∧
      isListMin (positionMinsAt gltfC2 2) mn2 ∧
      isListMax (positionMaxsAt gltfC2 0) mx0 ∧
      isListMax (positionMaxsAt gltfC2 1) mx1 ∧
      isListMax (positionMaxsAt gltfC2 2) mx2) ∧
    unifiedQuantizationPlan gltfC2 =
      Except.ok ([some (-1), some (-2), some 0], some 3) :=
  ⟨C2_unified_quantization_plan gltfC2 (by decide) (by decide), by
    norm_num [unifiedQuantizationPlan, unifiedFold, unifiedAccumulate, accessorIdsWithSemantic,
      gltfC2, jsMinQ, jsMaxQ, optionSub, optionMax, min_def, max_def,
      show List.range 3 = [0, 1, 2] from rfl, List.getD]⟩

/-! ## C5: accessor stripping and the compressed payload's bufferView -/

theorem getElem?_append_add {α : Type} (l l' : List α) (k : Nat) :
    (l ++ l')[l.length + k]? = l'[k]? := by
  rw [List.getElem?_append, if_neg (by omega)]
  congr 1
  omega

theorem getElem?_append_left {α : Type} (l l' : List α) (i : Nat) (h : i < l.length) :
    (l ++ l')[i]? = l[i]? := by
  rw [List.getElem?_append, if_pos h]

theorem cloneAttributeAccessors_spec :
    ∀ (pairs : List (String × Nat)) (accessors : List Accessor),
    (∀ sv ∈ pairs, sv.2 < accessors.length) →
    ∃ accessors2 newPairs,
      cloneAttributeAccessors accessors pairs = Except.ok (accessors2, newPairs) ∧
      newPairs.length = pairs.length ∧
      accessors2.length = accessors.length + pairs.length ∧
      (∀ i, i < accessors.length → accessors2[i]? = accessors[i]?) ∧
      (∀ k sem aid, pairs[k]? = some (sem, aid) →
        newPairs[k]? = some (sem, accessors.length + k) ∧
        ∃ a, accessors[aid]? = some a ∧
          accessors2[accessors.length + k]? = some (stripBufferView a)) := by
  intro pairs
  induction pairs with
  | nil =>
    intro accessors _
    refine ⟨accessors, [], rfl, rfl, by simp, fun i _ => rfl, fun k sem aid hk => by simp at hk⟩
  | cons sv rest ih =>
    intro accessors hvalid
    obtain ⟨semantic, accessorId⟩ := sv
    have hid : accessorId < accessors.length :=
      hvalid (semantic, accessorId) (List.mem_cons_self _ _)
    cases ha : accessors[accessorId]? with
    | none =>
      rw [List.getElem?_eq_getElem hid] at ha
      exact absurd ha (by simp)
    | some a =>
      have hvalid1 : ∀ sv ∈ rest, sv.2 < (accessors ++ [stripBufferView a]).length := by
        intro sv hsv
        have := hvalid sv (List.mem_cons_of_mem _ hsv)
        simp only [List.length_append, List.length_cons, List.length_nil]
        omega
      obtain ⟨accessors2, restPairs, heq, hlen, hlen2, hpre, hper⟩ :=
        ih (accessors ++ [stripBufferView a]) hvalid1
      refine ⟨accessors2, (semantic, accessors.length) :: restPairs, ?_, ?_, ?_, ?_, ?_⟩
      · unfold cloneAttributeAccessors
        rw [ha]
        dsimp only [addToArray]
        rw [heq]
      · simp [hlen]
      · simp only [List.length_append, List.length_cons, List.length_nil] at hlen2
        simp only [List.length_cons]
        omega
      · intro i hi
        rw [hpre i (by simp; omega)]
        exact getElem?_append_left accessors [stripBufferView a] i hi
      · intro k sem aid hk
        cases k with
        | zero =>
          simp only [List.getElem?_cons_zero, Option.some.injEq, Prod.mk.injEq] at hk
          obtain ⟨hsem, haid⟩ := hk
          subst hsem; subst haid
          refine ⟨by simp, a, ha, ?_⟩
          rw [Nat.add_zero]
          rw [hpre accessors.length (by simp)]
          rw [List.getElem?_append, if_neg (by omega)]
          simp
        | succ k1 =>
          simp only [List.getElem?_cons_succ] at hk
          obtain ⟨hnew, a1, ha1, hacc⟩ := hper k1 sem aid hk
          have hmem : (sem, aid) ∈ rest := List.mem_iff_getElem?.mpr ⟨k1, hk⟩
          have haid2 : aid < accessors.length :=
            hvalid (sem, aid) (List.mem_cons_of_mem _ hmem)
          constructor
          · simp only [List.getElem?_cons_succ]
            have hlen3 : (accessors ++ [stripBufferView a]).length + k1 = accessors.length + (k1 + 1) := by
              simp only [List.length_append, List.length_cons, List.length_nil]
              omega
            rw [hlen3] at hnew
            exact hnew
          · refine ⟨a1, ?_, ?_⟩
            · rw [← getElem?_append_left accessors [stripBufferView a] aid haid2]
              exact ha1
            · have hlen3 : (accessors ++ [stripBufferView a]).length + k1 = accessors.length + (k1 + 1) := by
                simp only [List.length_append, List.length_cons, List.length_nil]
                omega
              rw [hlen3] at hacc
              exact hacc

theorem addCompressionExtensionToPrimitive_spec (gltf : Gltf) (primitive : Primitive)
    (attributeToId : List (String × Nat)) (encodedLength : Nat)
    (mesh : DracoMesh) (enc : EncoderState) (pc fc : Nat)
    (ixId : Nat) (a0 : Accessor)
    (hix : primitive.indices = some ixId)
    (hixa : gltf.accessors[ixId]? = some a0)
    (hattrs : ∀ sv ∈ primitive.attributes, sv.2 < gltf.accessors.length) :
    ∃ g2 p2,
      addCompressionExtensionToPrimitive gltf primitive attributeToId encodedLength mesh enc pc fc =
        Except.ok (g2, p2) ∧
      p2.indices = some gltf.accessors.length ∧
      p2.mode = primitive.mode ∧
      p2.targets = primitive.targets ∧
      p2.extensions = some { bufferView := gltf.bufferViews.length, attributes := attributeToId } ∧
      p2.attributes.length = primitive.attributes.length ∧
      g2.accessors.length = gltf.accessors.length + 1 + primitive.attributes.length ∧
      (∀ i, i < gltf.accessors.length → g2.accessors[i]? = gltf.accessors[i]?) ∧
      g2.accessors[gltf.accessors.length]? = some (stripBufferView a0) ∧
      (∀ k sem aid, primitive.attributes[k]? = some (sem, aid) →
        p2.attributes[k]? = some (sem, gltf.accessors.length + 1 + k) ∧
        ∃ a, gltf.accessors[aid]? = some a ∧
          g2.accessors[gltf.accessors.length + 1 + k]? = some (stripBufferView a)) ∧
      g2.buffers = gltf.buffers ++ [{ byteLength := encodedLength, source := Source.draco mesh enc }] ∧
      g2.bufferViews = gltf.bufferViews ++
        [{ buffer := gltf.buffers.length, byteOffset := 0, byteLength := encodedLength }] ∧
      g2.meshes = gltf.meshes ∧ g2.animations = gltf.animations ∧
      g2.extDracoAnimation = gltf.extDracoAnimation ∧
      g2.extensionsUsed = gltf.extensionsUsed ∧
      g2.extensionsRequired = gltf.extensionsRequired := by
  have hvalid1 : ∀ sv ∈ primitive.attributes,
      sv.2 < (gltf.accessors ++ [stripBufferView a0]).length := by
    intro sv hsv
    have := hattrs sv hsv
    simp only [List.length_append, List.length_cons, List.length_nil]
    omega
  obtain ⟨accessors2, newPairs, heq, hlen, hlen2, hpre, hper⟩ :=
    cloneAttributeAccessors_spec primitive.attributes (gltf.accessors ++ [stripBufferView a0]) hvalid1
  refine ⟨{ gltf with
      accessors := accessors2,
      buffers := gltf.buffers ++ [{ byteLength := encodedLength, source := Source.draco mesh enc }],
      bufferViews := gltf.bufferViews ++
        [{ buffer := gltf.buffers.length, byteOffset := 0, byteLength := encodedLength }] },
    { primitive with
      indices := some gltf.accessors.length,
      attributes := newPairs,
      extensions := some { bufferView := gltf.bufferViews.length, attributes := attributeToId } },
    ?_, rfl, rfl, rfl, rfl, ?_, ?_, ?_, ?_, ?_, rfl, rfl, rfl, rfl, rfl, rfl, rfl⟩
  · unfold addCompressionExtensionToPrimitive
    rw [hix]
    dsimp only
    rw [hixa]
    dsimp only [addToArray]
    rw [heq]
    rfl
  · exact hlen
  · show accessors2.length = gltf.accessors.length + 1 + primitive.attributes.length
    simp only [List.length_append, List.length_cons, List.length_nil] at hlen2
    omega
  · intro i hi
    rw [hpre i (by simp only [List.length_append, List.length_cons, List.length_nil]; omega)]
    exact getElem?_append_left gltf.accessors [stripBufferView a0] i hi
  · rw [hpre gltf.accessors.length (by simp)]
    rw [List.getElem?_append, if_neg (by omega)]
    simp
  · intro k sem aid hk
    obtain ⟨hnew, a, ha, hacc⟩ := hper k sem aid hk
    have hmem : (sem, aid) ∈ primitive.attributes := List.mem_iff_getElem?.mpr ⟨k, hk⟩
    have haid2 : aid < gltf.accessors.length := hattrs (sem, aid) hmem
    have hlen3 : (gltf.accessors ++ [stripBufferView a0]).length + k
        = gltf.accessors.length + 1 + k := by
      have hl : (gltf.accessors ++ [stripBufferView a0]).length = gltf.accessors.length + 1 := by
        simp
      omega
    constructor
    · rw [hnew, hlen3]
    · refine ⟨a, ?_, ?_⟩
      · rw [← getElem?_append_left gltf.accessors [stripBufferView a0] aid haid2]
        exact ha
      · rw [← hlen3]
        exact hacc

/-- C5: after `addCompressionExtensionToPrimitive`, the accessor referenced
as the primitive's indices and every accessor referenced as an attribute
have no bufferView and no byteOffset while componentType, count, min, max
and type equal the original accessor's, and the freshly created BufferView
for the compressed payload has byteOffset 0 and byteLength equal to the
payload's byte length. -/
theorem C5_stripped_accessors_and_payload_view (gltf : Gltf) (primitive : Primitive)
    (attributeToId : List (String × Nat)) (encodedLength : Nat)
    (mesh : DracoMesh) (enc : EncoderState) (pc fc : Nat)
    (ixId : Nat) (a0 : Accessor)
    (hix : primitive.indices = some ixId)
    (hixa : gltf.accessors[ixId]? = some a0)
    (hattrs : ∀ sv ∈ primitive.attributes, sv.2 < gltf.accessors.length)
    (hlen : encodedLength = dracoByteLength mesh) :
    ∃ g2 p2 newIx,
      addCompressionExtensionToPrimitive gltf primitive attributeToId encodedLength mesh enc pc fc =
        Except.ok (g2, p2) ∧
      p2.indices = some newIx ∧
      (∃ a1 : Accessor, g2.accessors[newIx]? = some a1 ∧
        a1.bufferView = none ∧ a1.byteOffset = none ∧
        a1.componentType = a0.componentType ∧ a1.count = a0.count ∧
        a1.min = a0.min ∧ a1.max = a0.max ∧ a1.type = a0.type) ∧
      (∀ (k : Nat) (sem : String) (aid : Nat), primitive.attributes[k]? = some (sem, aid) →
        ∃ (nid : Nat) (a a1 : Accessor), p2.attributes[k]? = some (sem, nid) ∧
          gltf.accessors[aid]? = some a ∧
          g2.accessors[nid]? = some a1 ∧
          a1.bufferView = none ∧ a1.byteOffset = none ∧
          a1.componentType = a.componentType ∧ a1.count = a.count ∧
          a1.min = a.min ∧ a1.max = a.max ∧ a1.type = a.type) ∧
      (∃ (e : DracoExtension) (bv : BufferView) (buf : GltfBuffer),
        p2.extensions = some e ∧ e.attributes = attributeToId ∧
        g2.bufferViews[e.bufferView]? = some bv ∧
        bv.byteOffset = 0 ∧ bv.byteLength = dracoByteLength mesh ∧
        g2.buffers[bv.buffer]? = some buf ∧
        buf.byteLength = dracoByteLength mesh ∧
        buf.source = Source.draco mesh enc) := by
  obtain ⟨g2, p2, hcall, hpix, _, _, hpext, _, _, _, hixacc, hper, hbufs, hviews, _⟩ :=
    addCompressionExtensionToPrimitive_spec gltf primitive attributeToId encodedLength
      mesh enc pc fc ixId a0 hix hixa hattrs
  refine ⟨g2, p2, gltf.accessors.length, hcall, hpix, ?_, ?_, ?_⟩
  · exact ⟨stripBufferView a0, hixacc, rfl, rfl, rfl, rfl, rfl, rfl, rfl⟩
  · intro k sem aid hk
    obtain ⟨hnew, a, ha, hacc⟩ := hper k sem aid hk
    exact ⟨gltf.accessors.length + 1 + k, a, stripBufferView a, hnew, ha, hacc,
      rfl, rfl, rfl, rfl, rfl, rfl, rfl⟩
  · refine ⟨{ bufferView := gltf.bufferViews.length, attributes := attributeToId },
      { buffer := gltf.buffers.length, byteOffset := 0, byteLength := encodedLength },
      { byteLength := encodedLength, source := Source.draco mesh enc },
      hpext, rfl, ?_, rfl, hlen, ?_, hlen, rfl⟩
    · dsimp only
      rw [hviews]
      rw [List.getElem?_append, if_neg (by omega)]
      simp
    · dsimp only
      rw [hbufs]
      rw [List.getElem?_append, if_neg (by omega)]
      simp

def accessorC5ix : Accessor :=
  { bufferView := some 0, byteOffset := some 0, componentType := 5123, count := 3, type := "SCALAR" }

def accessorC5pos : Accessor :=
  { bufferView := some 1, byteOffset := some 0, componentType := 5126, count := 3, type := "VEC3",
    min := some [0, 0, 0], max := some [1, 1, 1] }

def gltfC5 : Gltf := { accessors := [accessorC5ix, accessorC5pos] }

def primC5 : Primitive := { attributes := [("POSITION", 1)], indices := some 0, mode := some 4 }

def meshC5 : DracoMesh :=
  { numFaces := 1, faces := [0, 1, 2],
    attrs := [{ attrType := 0, dataType := 9, numPoints := 3, numComponents := 3, values := [] }] }

/-- Witness for C5 on a one-triangle primitive. -/
theorem C5_witness :
    ∃ g2 p2 newIx,
      addCompressionExtensionToPrimitive gltfC5 primC5 [("POSITION", 0)]
        (dracoByteLength meshC5) meshC5 {} 3 1 = Except.ok (g2, p2) ∧
      p2.indices = some newIx ∧
      (∃ a1 : Accessor, g2.accessors[newIx]? = some a1 ∧
        a1.bufferView = none ∧ a1.byteOffset = none ∧
        a1.componentType = accessorC5ix.componentType ∧ a1.count = accessorC5ix.count ∧
        a1.min = accessorC5ix.min ∧ a1.max = accessorC5ix.max ∧ a1.type = accessorC5ix.type) ∧
      (∀ (k : Nat) (sem : String) (aid : Nat), primC5.attributes[k]? = some (sem, aid) →
        ∃ (nid : Nat) (a a1 : Accessor), p2.attributes[k]? = some (sem, nid) ∧
          gltfC5.accessors[aid]? = some a ∧
          g2.accessors[nid]? = some a1 ∧
          a1.bufferView = none ∧ a1.byteOffset = none ∧
          a1.componentType = a.componentType ∧ a1.count = a.count ∧
          a1.min = a.min ∧ a1.max = a.max ∧ a1.type = a.type) ∧
      (∃ (e : DracoExtension) (bv : BufferView) (buf : GltfBuffer),
        p2.extensions = some e ∧ e.attributes = [("POSITION", 0)] ∧
        g2.bufferViews[e.bufferView]? = some bv ∧
        bv.byteOffset = 0 ∧ bv.byteLength = dracoByteLength meshC5 ∧
        g2.buffers[bv.buffer]? = some buf ∧
        buf.byteLength = dracoByteLength meshC5 ∧
        buf.source = Source.draco meshC5 {}) :=
  C5_stripped_accessors_and_payload_view gltfC5 primC5 [("POSITION", 0)]
    (dracoByteLength meshC5) meshC5 {} 3 1 0 accessorC5ix rfl rfl (by decide) rfl

/-! ## C9: decompression rebuilds every mapped attribute accessor -/

theorem decodedAttrValues_length (enc : EncoderState) (a : DracoAttr) :
    (decodedAttrValues enc a).length = a.values.length := by
  unfold decodedAttrValues
  by_cases h : enc.quantBitsFor a.attrType = 0
  · rw [if_pos h]
  · rw [if_neg h, List.length_map]

theorem range_map_getD {α β : Type} (l : List α) (d : α) (z : β) (f : α → β) :
    (List.range l.length).map (fun i => if i < l.length then f (l.getD i d) else z) =
      l.map f := by
  apply List.ext_getElem
  · simp
  · intro i h1 h2
    simp only [List.getElem_map, List.getElem_range]
    have hi : i < l.length := by simpa using h2
    rw [if_pos hi]
    congr 1
    rw [List.getD_eq_getElem?_getD, List.getElem?_eq_getElem hi]
    rfl

theorem getAttributeBuffer_words (enc : EncoderState) (mesh : DracoMesh)
    (dracoAttribute : DracoAttr)
    (h : (decodedAttrValues enc dracoAttribute).length =
      mesh.pointCount * dracoAttribute.numComponents) :
    getAttributeBuffer enc mesh dracoAttribute =
      Source.words (attributeArrayWidth dracoAttribute.dataType)
        ((decodedAttrValues enc dracoAttribute).map
          (toBits (attributeArrayWidth dracoAttribute.dataType))) := by
  unfold getAttributeBuffer
  dsimp only
  rw [← h]
  exact congrArg _ (range_map_getD (decodedAttrValues enc dracoAttribute) 0 0
    (toBits (attributeArrayWidth dracoAttribute.dataType)))

theorem addBufferToGltf_eq (gltf : Gltf) (src : Source) :
    addBufferToGltf gltf src =
      ({ gltf with
          buffers := gltf.buffers ++
            [{ byteLength := sourceByteLength src, source := src }],
          bufferViews := gltf.bufferViews ++
            [{ buffer := gltf.buffers.length, byteOffset := 0,
               byteLength := sourceByteLength src }] },
        gltf.bufferViews.length) := rfl

theorem decompressAttributesLoop_cons (enc : EncoderState) (mesh : DracoMesh)
    (primitive : Primitive) (gltf : Gltf) (semantic : String) (localId : Nat)
    (rest : List (String × Nat)) (dracoAttribute : DracoAttr) (aid : Nat) (a : Accessor)
    (h1 : mesh.attrs[localId]? = some dracoAttribute)
    (h2 : primitive.attributes.lookup semantic = some aid)
    (h3 : gltf.accessors[aid]? = some a) :
    decompressAttributesLoop enc mesh primitive gltf ((semantic, localId) :: rest) =
      decompressAttributesLoop enc mesh primitive
        { gltf with
          accessors := gltf.accessors.set aid
            { a with
              count := mesh.pointCount,
              bufferView := some gltf.bufferViews.length,
              byteOffset := some 0 },
          buffers := gltf.buffers ++
            [{ byteLength := sourceByteLength (getAttributeBuffer enc mesh dracoAttribute),
               source := getAttributeBuffer enc mesh dracoAttribute }],
          bufferViews := gltf.bufferViews ++
            [{ buffer := gltf.buffers.length, byteOffset := 0,
               byteLength := sourceByteLength (getAttributeBuffer enc mesh dracoAttribute) }] }
        rest := by
  conv_lhs => unfold decompressAttributesLoop
  rw [h1]
  dsimp only [addBufferToGltf, addToArray]
  rw [h2]
  dsimp only
  rw [h3]

theorem decompressAttributesLoop_spec (enc : EncoderState) (mesh : DracoMesh)
    (primitive : Primitive) :
    ∀ (pairs : List (String × Nat)) (gltf : Gltf),
    (∀ sv ∈ pairs, (mesh.attrs[sv.2]?).isSome ∧
      ∃ (aid : Nat), primitive.attributes.lookup sv.1 = some aid ∧
        aid < gltf.accessors.length) →
    (pairs.map (fun sv => primitive.attributes.lookup sv.1)).Nodup →
    ∃ gltf2,
      decompressAttributesLoop enc mesh primitive gltf pairs = Except.ok gltf2 ∧
      gltf2.accessors.length = gltf.accessors.length ∧
      (∀ i, i < gltf.bufferViews.length → gltf2.bufferViews[i]? = gltf.bufferViews[i]?) ∧
      (∀ i, i < gltf.buffers.length → gltf2.buffers[i]? = gltf.buffers[i]?) ∧
      (∀ i, (∀ sv ∈ pairs, primitive.attributes.lookup sv.1 ≠ some i) →
        gltf2.accessors[i]? = gltf.accessors[i]?) ∧
      (∀ sv ∈ pairs, ∃ (dracoAttribute : DracoAttr) (aid : Nat) (a : Accessor)
          (bvId bufId : Nat),
        mesh.attrs[sv.2]? = some dracoAttribute ∧
        primitive.attributes.lookup sv.1 = some aid ∧
        gltf.accessors[aid]? = some a ∧
        gltf2.accessors[aid]? = some { a with
          count := mesh.pointCount, bufferView := some bvId, byteOffset := some 0 } ∧
        gltf.bufferViews.length ≤ bvId ∧
        gltf2.bufferViews[bvId]? = some
          { buffer := bufId, byteOffset := 0,
            byteLength := sourceByteLength (getAttributeBuffer enc mesh dracoAttribute) } ∧
        gltf2.buffers[bufId]? = some
          { byteLength := sourceByteLength (getAttributeBuffer enc mesh dracoAttribute),
            source := getAttributeBuffer enc mesh dracoAttribute }) ∧
      gltf2.meshes = gltf.meshes ∧ gltf2.animations = gltf.animations ∧
      gltf2.extensionsUsed = gltf.extensionsUsed ∧
      gltf2.extensionsRequired = gltf.extensionsRequired ∧
      gltf2.extDracoAnimation = gltf.extDracoAnimation := by
  intro pairs
  induction pairs with
  | nil =>
    intro gltf _ _
    exact ⟨gltf, rfl, rfl, fun i _ => rfl, fun i _ => rfl, fun i _ => rfl,
      fun sv hsv => absurd hsv (List.not_mem_nil sv), rfl, rfl, rfl, rfl, rfl⟩
  | cons sv0 rest ih =>
    intro gltf hvalid hnodup
    obtain ⟨semantic, localId⟩ := sv0
    obtain ⟨hattrS, aid, hlook, haid⟩ := hvalid (semantic, localId) (List.mem_cons_self _ _)
    obtain ⟨dracoAttribute, hattr⟩ := Option.isSome_iff_exists.mp hattrS
    obtain ⟨a, ha⟩ : ∃ a, gltf.accessors[aid]? = some a := ⟨_, List.getElem?_eq_getElem haid⟩
    simp only [List.map_cons, List.nodup_cons] at hnodup
    obtain ⟨hnotin, hnodup1⟩ := hnodup
    rw [hlook] at hnotin
    rw [decompressAttributesLoop_cons enc mesh primitive gltf semantic localId rest
      dracoAttribute aid a hattr hlook ha]
    have hvS : ∀ sv ∈ rest, (mesh.attrs[sv.2]?).isSome ∧
        ∃ (aid1 : Nat), primitive.attributes.lookup sv.1 = some aid1 ∧
          aid1 < (gltf.accessors.set aid
            { a with
              count := mesh.pointCount,
              bufferView := some gltf.bufferViews.length,
              byteOffset := some 0 }).length := by
      intro sv hsv
      obtain ⟨h1, aid1, h2, h3⟩ := hvalid sv (List.mem_cons_of_mem _ hsv)
      exact ⟨h1, aid1, h2, by rw [List.length_set]; exact h3⟩
    obtain ⟨gltf2, hrun, hlen, hviews, hbufs, hunt, hper, hmeshes, hanims, hused, hreq, hext⟩ :=
      ih { gltf with
            accessors := gltf.accessors.set aid
              { a with
                count := mesh.pointCount,
                bufferView := some gltf.bufferViews.length, byteOffset := some 0 },
            buffers := gltf.buffers ++
              [{ byteLength := sourceByteLength (getAttributeBuffer enc mesh dracoAttribute),
                 source := getAttributeBuffer enc mesh dracoAttribute }],
            bufferViews := gltf.bufferViews ++
              [{ buffer := gltf.buffers.length, byteOffset := 0,
                 byteLength := sourceByteLength (getAttributeBuffer enc mesh dracoAttribute) }] }
        hvS hnodup1
    refine ⟨gltf2, hrun, ?_, ?_, ?_, ?_, ?_, ?_, ?_, ?_, ?_, ?_⟩
    · rw [hlen]
      simp [List.length_set]
    · intro i hi
      rw [hviews i (by simp only [List.length_append, List.length_cons, List.length_nil]; omega)]
      exact getElem?_append_left _ _ i hi
    · intro i hi
      rw [hbufs i (by simp only [List.length_append, List.length_cons, List.length_nil]; omega)]
      exact getElem?_append_left _ _ i hi
    · intro i hni
      have hni0 : primitive.attributes.lookup semantic ≠ some i :=
        hni (semantic, localId) (List.mem_cons_self _ _)
      have haidne : aid ≠ i := fun h => hni0 (by rw [hlook, h])
      rw [hunt i (fun sv hsv => hni sv (List.mem_cons_of_mem _ hsv))]
      exact List.getElem?_set_ne haidne
    · intro sv hsv
      rcases List.mem_cons.mp hsv with hhd | htl
      · subst hhd
        refine ⟨dracoAttribute, aid, a, gltf.bufferViews.length, gltf.buffers.length,
          hattr, hlook, ha, ?_, le_refl _, ?_, ?_⟩
        · have hrest : ∀ sv1 ∈ rest, primitive.attributes.lookup sv1.1 ≠ some aid := by
            intro sv1 hsv1 heq
            exact hnotin (List.mem_map.mpr ⟨sv1, hsv1, heq⟩)
          rw [hunt aid hrest]
          exact List.getElem?_set_self haid
        · rw [hviews gltf.bufferViews.length
            (by simp only [List.length_append, List.length_cons, List.length_nil]; omega)]
          exact List.getElem?_concat_length _ _
        · rw [hbufs gltf.buffers.length
            (by simp only [List.length_append, List.length_cons, List.length_nil]; omega)]
          exact List.getElem?_concat_length _ _
      · obtain ⟨dA, aid1, a1, bvId, bufId, k1, k2, k3, k4, k5, k6, k7⟩ := hper sv htl
        have haidne : aid ≠ aid1 := by
          intro h
          subst h
          exact hnotin (List.mem_map.mpr ⟨sv, htl, k2⟩)
        refine ⟨dA, aid1, a1, bvId, bufId, k1, k2, ?_, k4, ?_, k6, k7⟩
        · exact (List.getElem?_set_ne haidne).symm.trans k3
        · simp only [List.length_append, List.length_cons, List.length_nil] at k5
          omega
    · exact hmeshes
    · exact hanims
    · exact hused
    · exact hreq
    · exact hext

/-- C9: for every semantic present in a compressed primitive's extension
attribute mapping, `decmopressDracoMesh` sets the primitive's accessor for
that semantic to the decoded point count, points it at a freshly created
bufferView with byteOffset 0, and the backing buffer holds all
numPoints * numComponents decoded values as a typed store at the width of
the attribute's declared draco data type. -/
theorem C9_decompress_attribute_accessors (gltf : Gltf) (primitive : Primitive)
    (mesh : DracoMesh) (enc : EncoderState) (dracoExtension : DracoExtension)
    (indicesId : Nat)
    (hpos : (mesh.attrs.findIdx? (fun a => a.attrType = dracoPOSITION)).isSome)
    (hix : primitive.indices = some indicesId)
    (hixa : indicesId < gltf.accessors.length)
    (hvalid : ∀ sv ∈ dracoExtension.attributes, (mesh.attrs[sv.2]?).isSome ∧
      ∃ (aid : Nat), primitive.attributes.lookup sv.1 = some aid ∧
        aid < gltf.accessors.length)
    (hinj : (dracoExtension.attributes.map
      (fun sv => primitive.attributes.lookup sv.1)).Nodup)
    (hlens : ∀ sv ∈ dracoExtension.attributes, ∀ dA : DracoAttr,
      mesh.attrs[sv.2]? = some dA →
      dA.values.length = mesh.pointCount * dA.numComponents) :
    ∃ gltf2,
      decmopressDracoMesh gltf primitive mesh enc dracoExtension = Except.ok gltf2 ∧
      ∀ sv ∈ dracoExtension.attributes,
        ∃ (dA : DracoAttr) (aid : Nat) (a1 : Accessor) (bvId : Nat)
          (bv : BufferView) (buf : GltfBuffer),
        mesh.attrs[sv.2]? = some dA ∧
        primitive.attributes.lookup sv.1 = some aid ∧
        gltf2.accessors[aid]? = some a1 ∧
        a1.count = mesh.pointCount ∧
        a1.bufferView = some bvId ∧
        a1.byteOffset = some 0 ∧
        gltf.bufferViews.length ≤ bvId ∧
        gltf2.bufferViews[bvId]? = some bv ∧
        bv.byteOffset = 0 ∧
        gltf2.buffers[bv.buffer]? = some buf ∧
        buf.source = Source.words (attributeArrayWidth dA.dataType)
          ((decodedAttrValues enc dA).map (toBits (attributeArrayWidth dA.dataType))) ∧
        (decodedAttrValues enc dA).length = mesh.pointCount * dA.numComponents := by
  obtain ⟨posIdx, hposIdx⟩ := Option.isSome_iff_exists.mp hpos
  obtain ⟨a0, ha0⟩ : ∃ a0, gltf.accessors[indicesId]? = some a0 :=
    ⟨_, List.getElem?_eq_getElem hixa⟩
  unfold decmopressDracoMesh
  rw [hposIdx]
  rw [if_neg (by simp)]
  rw [hix]
  dsimp only
  rw [ha0]
  dsimp only [addBufferToGltf, addToArray]
  rw [ha0]
  dsimp only
  have hvS : ∀ sv ∈ dracoExtension.attributes, (mesh.attrs[sv.2]?).isSome ∧
      ∃ (aid : Nat), primitive.attributes.lookup sv.1 = some aid ∧
        aid < (gltf.accessors.set indicesId
          { a0 with
            bufferView := some gltf.bufferViews.length,
            byteOffset := some 0 }).length := by
    intro sv hsv
    obtain ⟨h1, aid, h2, h3⟩ := hvalid sv hsv
    exact ⟨h1, aid, h2, by rw [List.length_set]; exact h3⟩
  obtain ⟨gltf2, hrun, hlen, hviews, hbufs, hunt, hper, hms, hans, hu, hr, he⟩ :=
    decompressAttributesLoop_spec enc mesh primitive dracoExtension.attributes
      { gltf with
        accessors := gltf.accessors.set indicesId
          { a0 with
            bufferView := some gltf.bufferViews.length,
            byteOffset := some 0 },
        buffers := gltf.buffers ++
          [{ byteLength := sourceByteLength (getIndicesBuffer a0 mesh mesh.numFaces),
             source := getIndicesBuffer a0 mesh mesh.numFaces }],
        bufferViews := gltf.bufferViews ++
          [{ buffer := gltf.buffers.length, byteOffset := 0,
             byteLength := sourceByteLength (getIndicesBuffer a0 mesh mesh.numFaces) }] }
      hvS hinj
  refine ⟨gltf2, hrun, ?_⟩
  intro sv hsv
  obtain ⟨dA, aid, a, bvId, bufId, k1, k2, k3, k4, k5, k6, k7⟩ := hper sv hsv
  have hlenA : (decodedAttrValues enc dA).length = mesh.pointCount * dA.numComponents := by
    rw [decodedAttrValues_length]
    exact hlens sv hsv dA k1
  refine ⟨dA, aid, _, bvId, _, _, k1, k2, k4, rfl, rfl, rfl, ?_, k6, rfl, k7,
    getAttributeBuffer_words enc mesh dA hlenA, hlenA⟩
  simp only [List.length_append, List.length_cons, List.length_nil] at k5
  omega

/-- Concrete decode inputs for the C9 witness: one POSITION attribute of
three scalar float points and a 3-index face list. -/
def meshC9 : DracoMesh :=
  { numFaces := 1, faces := [0, 1, 2],
    attrs := [{ attrType := dracoPOSITION, dataType := 9, numPoints := 3,
                numComponents := 1, values := [1, 2, 3] }] }

def gltfC9 : Gltf :=
  { accessors :=
      [{ componentType := 5125, count := 3, type := "SCALAR" },
       { componentType := 5126, count := 3, type := "SCALAR" }] }

def primC9 : Primitive :=
  { attributes := [("POSITION", 1)], indices := some 0, mode := some 4 }

def extC9 : DracoExtension := { bufferView := 0, attributes := [("POSITION", 0)] }

theorem C9_witness :
    ∃ gltf2, decmopressDracoMesh gltfC9 primC9 meshC9 {} extC9 = Except.ok gltf2 := by
  obtain ⟨gltf2, hrun, _⟩ :=
    C9_decompress_attribute_accessors gltfC9 primC9 meshC9 {} extC9 0
      (by decide) rfl (by decide)
      (fun sv hsv => by
        rcases List.mem_singleton.mp hsv with rfl
        exact ⟨by decide, 1, by decide, by decide⟩)
      (by decide)
      (fun sv hsv dA hdA => by
        rcases List.mem_singleton.mp hsv with rfl
        simp only [meshC9, List.getElem?_cons_zero, Option.some.injEq] at hdA
        subst hdA
        decide)
  exact ⟨gltf2, hrun⟩

/-! ## C8: duplicate animation accessor ids are rejected -/

/-- All output accessor ids of an extraction, in entry order. -/
def allOutputs (entries : List CompressedAnimation) : List Nat :=
  entries.flatMap (fun e => e.outputs)

/-- Every accessor id touched by `removeAllSamplerAccessorData`, in the
order it is replaced: each entry's input followed by its outputs. -/
def animationIdList (entries : List CompressedAnimation) : List Nat :=
  entries.flatMap (fun e => e.input :: e.outputs)

/-- Every defined sampler output accessor id of the asset. -/
def allSamplerOutputs (gltf : Gltf) : List Nat :=
  gltf.animations.flatMap (fun a => a.samplers.filterMap (fun s => s.output))

theorem count_le_count_flatMap {α β : Type} [DecidableEq β] (l : List α) (f : α → List β)
    (x : α) (hx : x ∈ l) (b : β) : (f x).count b ≤ (l.flatMap f).count b := by
  induction l with
  | nil => cases hx
  | cons y ys ih =>
    simp only [List.flatMap_cons, List.count_append]
    rcases List.mem_cons.mp hx with rfl | hmem
    · omega
    · have := ih hmem
      omega

theorem count_flatMap_two_pos {α β : Type} [DecidableEq β] :
    ∀ (l : List α) (k1 k2 : Nat) (x1 x2 : α) (f : α → List β) (b : β),
    k1 ≠ k2 → l[k1]? = some x1 → l[k2]? = some x2 →
    (f x1).count b + (f x2).count b ≤ (l.flatMap f).count b := by
  intro l
  induction l with
  | nil =>
    intro k1 k2 x1 x2 f b _ h1 _
    simp at h1
  | cons y ys ih =>
    intro k1 k2 x1 x2 f b hne h1 h2
    simp only [List.flatMap_cons, List.count_append]
    match k1, k2 with
    | 0, 0 => exact absurd rfl hne
    | 0, k2 + 1 =>
      simp only [List.getElem?_cons_zero, Option.some.injEq] at h1
      subst h1
      simp only [List.getElem?_cons_succ] at h2
      have hx2 : x2 ∈ ys := List.mem_iff_getElem?.mpr ⟨k2, h2⟩
      have := count_le_count_flatMap ys f x2 hx2 b
      omega
    | k1 + 1, 0 =>
      simp only [List.getElem?_cons_zero, Option.some.injEq] at h2
      subst h2
      simp only [List.getElem?_cons_succ] at h1
      have hx1 : x1 ∈ ys := List.mem_iff_getElem?.mpr ⟨k1, h1⟩
      have := count_le_count_flatMap ys f x1 hx1 b
      omega
    | k1 + 1, k2 + 1 =>
      simp only [List.getElem?_cons_succ] at h1 h2
      have := ih k1 k2 x1 x2 f b (by omega) h1 h2
      omega

theorem count_filterMap_pos {α β : Type} [DecidableEq β] (l : List α) (x : α)
    (f : α → Option β) (b : β) (hx : x ∈ l) (hf : f x = some b) :
    1 ≤ (l.filterMap f).count b :=
  List.count_pos_iff.mpr (List.mem_filterMap.mpr ⟨x, hx, hf⟩)

theorem count_filterMap_cons_le {α β : Type} [DecidableEq β] (y : α) (ys : List α)
    (f : α → Option β) (b : β) :
    (ys.filterMap f).count b ≤ ((y :: ys).filterMap f).count b := by
  cases hf : f y with
  | none => rw [List.filterMap_cons_none hf]
  | some c =>
    rw [List.filterMap_cons_some hf, List.count_cons]
    omega

theorem count_filterMap_two_pos {α β : Type} [DecidableEq β] :
    ∀ (l : List α) (j1 j2 : Nat) (x1 x2 : α) (f : α → Option β) (b : β),
    j1 ≠ j2 → l[j1]? = some x1 → l[j2]? = some x2 →
    f x1 = some b → f x2 = some b →
    2 ≤ (l.filterMap f).count b := by
  intro l
  induction l with
  | nil =>
    intro j1 j2 x1 x2 f b _ h1 _ _ _
    simp at h1
  | cons y ys ih =>
    intro j1 j2 x1 x2 f b hne h1 h2 hf1 hf2
    match j1, j2 with
    | 0, 0 => exact absurd rfl hne
    | 0, j2 + 1 =>
      simp only [List.getElem?_cons_zero, Option.some.injEq] at h1
      subst h1
      simp only [List.getElem?_cons_succ] at h2
      rw [List.filterMap_cons_some hf1, List.count_cons]
      have hx2 : x2 ∈ ys := List.mem_iff_getElem?.mpr ⟨j2, h2⟩
      have := count_filterMap_pos ys x2 f b hx2 hf2
      simp only [beq_self_eq_true, if_true]
      omega
    | j1 + 1, 0 =>
      simp only [List.getElem?_cons_zero, Option.some.injEq] at h2
      subst h2
      simp only [List.getElem?_cons_succ] at h1
      rw [List.filterMap_cons_some hf2, List.count_cons]
      have hx1 : x1 ∈ ys := List.mem_iff_getElem?.mpr ⟨j1, h1⟩
      have := count_filterMap_pos ys x1 f b hx1 hf1
      simp only [beq_self_eq_true, if_true]
      omega
    | j1 + 1, j2 + 1 =>
      simp only [List.getElem?_cons_succ] at h1 h2
      have := ih j1 j2 x1 x2 f b (by omega) h1 h2 hf1 hf2
      have := count_filterMap_cons_le y ys f b
      omega

theorem pushOutput_map_input (entries : List CompressedAnimation) (input output : Nat) :
    (pushOutput entries input output).map (fun e => e.input) =
      entries.map (fun e => e.input) := by
  unfold pushOutput
  rw [List.map_map]
  apply List.map_congr_left
  intro e _
  by_cases h : e.input = input
  · simp only [Function.comp_apply, if_pos h]
  · simp only [Function.comp_apply, if_neg h]

theorem pushOutput_count_mono (entries : List CompressedAnimation) (input output o : Nat) :
    (allOutputs entries).count o ≤ (allOutputs (pushOutput entries input output)).count o := by
  unfold allOutputs pushOutput
  induction entries with
  | nil => simp
  | cons e rest ih =>
    simp only [List.map_cons, List.flatMap_cons, List.count_append]
    by_cases h : e.input = input
    · rw [if_pos h]
      simp only [List.count_append]
      omega
    · rw [if_neg h]
      omega

theorem pushOutput_count (entries : List CompressedAnimation) (input output o : Nat)
    (h : ∃ e ∈ entries, e.input = input) :
    (allOutputs entries).count o + (if output = o then 1 else 0) ≤
      (allOutputs (pushOutput entries input output)).count o := by
  induction entries with
  | nil =>
    obtain ⟨e, he, _⟩ := h
    cases he
  | cons e rest ih =>
    have hcons : allOutputs (pushOutput (e :: rest) input output) =
        (if e.input = input then e.outputs ++ [output] else e.outputs) ++
          allOutputs (pushOutput rest input output) := by
      unfold allOutputs pushOutput
      simp only [List.map_cons, List.flatMap_cons]
      by_cases hc : e.input = input
      · rw [if_pos hc, if_pos hc]
      · rw [if_neg hc, if_neg hc]
    have hcons0 : allOutputs (e :: rest) = e.outputs ++ allOutputs rest := by
      unfold allOutputs
      rw [List.flatMap_cons]
    rw [hcons, hcons0, List.count_append, List.count_append]
    by_cases hc : e.input = input
    · rw [if_pos hc, List.count_append]
      have hmono := pushOutput_count_mono rest input output o
      have hsing : (List.count o [output]) = if output = o then 1 else 0 := by
        rw [List.count_singleton]
        by_cases ho : output = o
        · rw [if_pos ho, if_pos (by exact beq_iff_eq.mpr ho)]
        · rw [if_neg ho, if_neg (by simp [ho])]
      omega
    · rw [if_neg hc]
      obtain ⟨e1, he1, hinp⟩ := h
      rcases List.mem_cons.mp he1 with rfl | hmem
      · exact absurd hinp hc
      · have := ih ⟨e1, hmem, hinp⟩
        omega

theorem count_allOutputs_le_idList (entries : List CompressedAnimation) (o : Nat) :
    (allOutputs entries).count o ≤ (animationIdList entries).count o := by
  unfold allOutputs animationIdList
  induction entries with
  | nil => simp
  | cons e rest ih =>
    simp only [List.flatMap_cons, List.count_append, List.count_cons]
    have : (if e.input == o then 1 else 0) + (e.outputs).count o ≥ (e.outputs).count o := by
      omega
    omega

theorem count_idList_of_input_mem :
    ∀ (entries : List CompressedAnimation) (i : Nat),
    i ∈ entries.map (fun e => e.input) →
    (allOutputs entries).count i + 1 ≤ (animationIdList entries).count i := by
  intro entries
  induction entries with
  | nil =>
    intro i hi
    cases hi
  | cons e rest ih =>
    intro i hi
    have hflat : (animationIdList (e :: rest)).count i =
        (e.input :: e.outputs).count i + (animationIdList rest).count i := by
      unfold animationIdList
      rw [List.flatMap_cons, List.count_append]
    have hflat0 : (allOutputs (e :: rest)).count i =
        (e.outputs).count i + (allOutputs rest).count i := by
      unfold allOutputs
      rw [List.flatMap_cons, List.count_append]
    rw [hflat, hflat0, List.count_cons]
    simp only [List.map_cons, List.mem_cons] at hi
    rcases hi with rfl | hmem
    · have := count_allOutputs_le_idList rest e.input
      simp only [beq_self_eq_true, if_true]
      omega
    · have := ih i hmem
      omega

theorem count_singleton_ite (o b : Nat) : List.count o [b] = if b = o then 1 else 0 := by
  rw [List.count_singleton]
  by_cases h : b = o
  · rw [if_pos h, if_pos (beq_iff_eq.mpr h)]
  · rw [if_neg h, if_neg (by simp [h])]


theorem extractAnimationSamplers_spec :
    ∀ (samplers : List AnimationSampler) (entries : List CompressedAnimation) (count : Nat)
      (entries2 : List CompressedAnimation) (count2 : Nat),
    extractAnimationSamplers samplers entries count = Except.ok (entries2, count2) →
    count2 = count + samplers.length ∧
    (∀ o, (allOutputs entries).count o +
        (samplers.filterMap (fun s => s.output)).count o ≤ (allOutputs entries2).count o) ∧
    (∀ i, i ∈ entries.map (fun e => e.input) → i ∈ entries2.map (fun e => e.input)) ∧
    (∀ i s, s ∈ samplers → s.input = some i → i ∈ entries2.map (fun e => e.input)) := by
  intro samplers
  induction samplers with
  | nil =>
    intro entries count entries2 count2 h
    simp only [extractAnimationSamplers, Except.ok.injEq, Prod.mk.injEq] at h
    obtain ⟨he, hc⟩ := h
    subst he
    subst hc
    exact ⟨by simp, fun o => by simp, fun i hi => hi, fun i s hs _ => absurd hs (by simp)⟩
  | cons sampler rest ih =>
    intro entries count entries2 count2 h
    unfold extractAnimationSamplers at h
    cases hin : sampler.input with
    | none =>
      rw [hin] at h
      simp at h
    | some input =>
      cases hout : sampler.output with
      | none =>
        rw [hin, hout] at h
        simp at h
      | some output =>
        rw [hin, hout] at h
        dsimp only at h
        by_cases hint : sampler.interpolation.isNone
        · rw [if_pos hint] at h
          simp at h
        · rw [if_neg hint] at h
          have hfm : (sampler :: rest).filterMap (fun s => s.output) =
              output :: rest.filterMap (fun s => s.output) :=
            List.filterMap_cons_some hout
          cases hfind : findAnimationEntry entries input with
          | none =>
            rw [hfind] at h
            obtain ⟨hc, hcounts, hpres, hnew⟩ :=
              ih (entries ++ [{ input := input, outputs := [output] }]) (count + 1)
                entries2 count2 h
            refine ⟨?_, ?_, ?_, ?_⟩
            · rw [hc, List.length_cons]
              omega
            · intro o
              have h1 := hcounts o
              have h2 : (allOutputs (entries ++
                  [({ input := input, outputs := [output] } : CompressedAnimation)])).count o =
                  (allOutputs entries).count o + List.count o [output] := by
                unfold allOutputs
                rw [List.flatMap_append, List.count_append]
                simp
              rw [h2, count_singleton_ite] at h1
              rw [hfm, List.count_cons]
              simp only [beq_iff_eq]
              omega
            · intro i hi
              apply hpres
              rw [List.map_append]
              exact List.mem_append_left _ hi
            · intro i s hs hsin
              rcases List.mem_cons.mp hs with rfl | hmem
              · rw [hin] at hsin
                injection hsin with hii
                subst hii
                apply hpres
                rw [List.map_append]
                apply List.mem_append_right
                simp
              · exact hnew i s hmem hsin
          | some e0 =>
            rw [hfind] at h
            obtain ⟨hc, hcounts, hpres, hnew⟩ :=
              ih (pushOutput entries input output) (count + 1) entries2 count2 h
            have hfind1 : entries.find? (fun e => decide (e.input = input)) = some e0 := hfind
            have he0mem : e0 ∈ entries := List.mem_of_find?_eq_some hfind1
            have he0inp : e0.input = input := by
              have hp := List.find?_some hfind1
              exact of_decide_eq_true hp
            refine ⟨?_, ?_, ?_, ?_⟩
            · rw [hc, List.length_cons]
              omega
            · intro o
              have h1 := hcounts o
              have h2 := pushOutput_count entries input output o ⟨e0, he0mem, he0inp⟩
              rw [hfm, List.count_cons]
              simp only [beq_iff_eq]
              omega
            · intro i hi
              apply hpres
              rw [pushOutput_map_input]
              exact hi
            · intro i s hs hsin
              rcases List.mem_cons.mp hs with rfl | hmem
              · rw [hin] at hsin
                injection hsin with hii
                subst hii
                apply hpres
                rw [pushOutput_map_input]
                exact List.mem_map.mpr ⟨e0, he0mem, he0inp⟩
              · exact hnew i s hmem hsin

theorem extractAnimationList_spec :
    ∀ (animations : List Animation) (entries : List CompressedAnimation) (count : Nat)
      (entries2 : List CompressedAnimation) (count2 : Nat),
    extractAnimationList animations entries count = Except.ok (entries2, count2) →
    count2 = count + (animations.map (fun a => a.samplers.length)).sum ∧
    (∀ o, (allOutputs entries).count o +
      (animations.flatMap (fun a => a.samplers.filterMap (fun s => s.output))).count o ≤
        (allOutputs entries2).count o) ∧
    (∀ i, i ∈ entries.map (fun e => e.input) → i ∈ entries2.map (fun e => e.input)) ∧
    (∀ i a s, a ∈ animations → s ∈ a.samplers → s.input = some i →
      i ∈ entries2.map (fun e => e.input)) := by
  intro animations
  induction animations with
  | nil =>
    intro entries count entries2 count2 h
    simp only [extractAnimationList, Except.ok.injEq, Prod.mk.injEq] at h
    obtain ⟨he, hc⟩ := h
    subst he
    subst hc
    exact ⟨by simp, fun o => by simp, fun i hi => hi,
      fun i a s ha _ _ => absurd ha (by simp)⟩
  | cons animation rest ih =>
    intro entries count entries2 count2 h
    unfold extractAnimationList at h
    cases hhd : extractAnimationSamplers animation.samplers entries count with
    | error e =>
      rw [hhd] at h
      simp at h
    | ok p =>
      obtain ⟨entries1, count1⟩ := p
      rw [hhd] at h
      dsimp only at h
      obtain ⟨hc1, hcounts1, hpres1, hnew1⟩ :=
        extractAnimationSamplers_spec animation.samplers entries count entries1 count1 hhd
      obtain ⟨hc2, hcounts2, hpres2, hnew2⟩ := ih entries1 count1 entries2 count2 h
      refine ⟨?_, ?_, ?_, ?_⟩
      · rw [hc2, hc1, List.map_cons, List.sum_cons]
        omega
      · intro o
        have h1 := hcounts1 o
        have h2 := hcounts2 o
        rw [List.flatMap_cons, List.count_append]
        omega
      · exact fun i hi => hpres2 i (hpres1 i hi)
      · intro i a s ha hs hsin
        rcases List.mem_cons.mp ha with rfl | hmem
        · exact hpres2 i (hnew1 i s hs hsin)
        · exact hnew2 i a s hmem hs hsin

theorem extractAllAnimations_spec (gltf : Gltf) (entries2 : List CompressedAnimation)
    (count2 : Nat) (h : extractAllAnimations gltf = Except.ok (entries2, count2)) :
    count2 = (gltf.animations.map (fun a => a.samplers.length)).sum ∧
    (∀ o, (allSamplerOutputs gltf).count o ≤ (allOutputs entries2).count o) ∧
    (∀ i a s, a ∈ gltf.animations → s ∈ a.samplers → s.input = some i →
      i ∈ entries2.map (fun e => e.input)) := by
  obtain ⟨hc, hcounts, _, hnew⟩ :=
    extractAnimationList_spec gltf.animations [] 0 entries2 count2 h
  refine ⟨by rw [hc]; omega, ?_, hnew⟩
  intro o
  have h0 : (allOutputs ([] : List CompressedAnimation)).count o = 0 := rfl
  have h1 := hcounts o
  unfold allSamplerOutputs
  omega

theorem removeOutputsData_spec :
    ∀ (outputs : List Nat) (gltf : Gltf) (replaced : List Nat)
      (g2 : Gltf) (r2 no : List Nat),
    removeOutputsData gltf replaced outputs = Except.ok (g2, r2, no) →
    r2 = replaced ++ outputs ∧ (replaced.Nodup → (replaced ++ outputs).Nodup) := by
  intro outputs
  induction outputs with
  | nil =>
    intro gltf replaced g2 r2 no h
    simp only [removeOutputsData, Except.ok.injEq, Prod.mk.injEq] at h
    obtain ⟨_, hr, _⟩ := h
    subst hr
    exact ⟨by simp, fun hn => by simpa⟩
  | cons output rest ih =>
    intro gltf replaced g2 r2 no h
    unfold removeOutputsData at h
    by_cases hmem : output ∈ replaced
    · rw [if_pos hmem] at h
      simp at h
    · rw [if_neg hmem] at h
      cases hrd : removeDataAndReplaceAccessor gltf output with
      | error e =>
        rw [hrd] at h
        simp at h
      | ok p =>
        obtain ⟨gltf1, newId⟩ := p
        rw [hrd] at h
        dsimp only at h
        cases hrec : removeOutputsData gltf1 (replaced ++ [output]) rest with
        | error e =>
          rw [hrec] at h
          simp at h
        | ok q =>
          obtain ⟨g2x, r2x, rest1⟩ := q
          rw [hrec] at h
          dsimp only at h
          simp only [Except.ok.injEq, Prod.mk.injEq] at h
          obtain ⟨hg, hr, hno⟩ := h
          subst hg
          subst hr
          obtain ⟨hre, hnd⟩ := ih gltf1 (replaced ++ [output]) g2x r2x rest1 hrec
          constructor
          · rw [hre]
            simp
          · intro hn
            have h1 : (replaced ++ [output]).Nodup := by
              rw [List.nodup_append]
              refine ⟨hn, List.nodup_singleton output, ?_⟩
              intro x hx hxo
              rw [List.mem_singleton] at hxo
              exact hmem (hxo ▸ hx)
            have h2 := hnd h1
            simpa [List.append_assoc] using h2

theorem removeAllSamplerAccessorData_nodup :
    ∀ (entries : List CompressedAnimation) (gltf : Gltf) (replaced : List Nat)
      (g3 : Gltf) (es : List CompressedAnimation),
    removeAllSamplerAccessorData gltf entries replaced = Except.ok (g3, es) →
    replaced.Nodup → (replaced ++ animationIdList entries).Nodup := by
  intro entries
  induction entries with
  | nil =>
    intro gltf replaced g3 es _ hn
    simpa [animationIdList] using hn
  | cons entry rest ih =>
    intro gltf replaced g3 es h hn
    unfold removeAllSamplerAccessorData at h
    by_cases hmem : entry.input ∈ replaced
    · rw [if_pos hmem] at h
      simp at h
    · rw [if_neg hmem] at h
      cases hrd : removeDataAndReplaceAccessor gltf entry.input with
      | error e =>
        rw [hrd] at h
        simp at h
      | ok p =>
        obtain ⟨gltf1, newInputId⟩ := p
        rw [hrd] at h
        dsimp only at h
        cases hro : removeOutputsData gltf1 (replaced ++ [entry.input]) entry.outputs with
        | error e =>
          rw [hro] at h
          simp at h
        | ok q =>
          obtain ⟨gltf2, replaced2, newOutputs⟩ := q
          rw [hro] at h
          dsimp only at h
          cases hra : removeAllSamplerAccessorData gltf2 rest replaced2 with
          | error e =>
            rw [hra] at h
            simp at h
          | ok r =>
            obtain ⟨gltf3, rest1⟩ := r
            obtain ⟨hre, hnd⟩ := removeOutputsData_spec entry.outputs gltf1
              (replaced ++ [entry.input]) gltf2 replaced2 newOutputs hro
            have h1 : (replaced ++ [entry.input]).Nodup := by
              rw [List.nodup_append]
              refine ⟨hn, List.nodup_singleton _, ?_⟩
              intro x hx hxo
              rw [List.mem_singleton] at hxo
              exact hmem (hxo ▸ hx)
            have h2 : replaced2.Nodup := by
              rw [hre]
              exact hnd h1
            have h3 := ih gltf2 replaced2 gltf3 rest1 hra h2
            rw [hre] at h3
            have h4 : animationIdList (entry :: rest) =
                ([entry.input] ++ entry.outputs) ++ animationIdList rest := by
              unfold animationIdList
              rw [List.flatMap_cons]
              simp
            rw [h4]
            simpa [List.append_assoc] using h3

theorem encodeAnimationEntry_ids (gltf : Gltf) (entry : CompressedAnimation)
    (g1 : Gltf) (entry1 : CompressedAnimation)
    (h : encodeAnimationEntry gltf entry = Except.ok (g1, entry1)) :
    entry1.input = entry.input ∧ entry1.outputs = entry.outputs := by
  unfold encodeAnimationEntry at h
  cases hacc : gltf.accessors[entry.input]? with
  | none =>
    rw [hacc] at h
    simp at h
  | some inputAccessor =>
    rw [hacc] at h
    dsimp only at h
    cases hkf : addAnimationKeyframes gltf entry.outputs [] [] with
    | error e =>
      rw [hkf] at h
      simp at h
    | ok q =>
      obtain ⟨attributesId, keyframesData⟩ := q
      rw [hkf] at h
      dsimp only [sourceByteLength] at h
      rw [if_neg (by omega)] at h
      simp only [addCompressedAnimation, addToArray, Except.ok.injEq, Prod.mk.injEq] at h
      obtain ⟨_, he⟩ := h
      subst he
      exact ⟨rfl, rfl⟩

theorem encodeAnimationEntries_ids :
    ∀ (entries : List CompressedAnimation) (gltf : Gltf) (g2 : Gltf)
      (entries1 : List CompressedAnimation),
    encodeAnimationEntries gltf entries = Except.ok (g2, entries1) →
    animationIdList entries1 = animationIdList entries := by
  intro entries
  induction entries with
  | nil =>
    intro gltf g2 entries1 h
    simp only [encodeAnimationEntries, Except.ok.injEq, Prod.mk.injEq] at h
    obtain ⟨_, he⟩ := h
    rw [← he]
  | cons entry rest ih =>
    intro gltf g2 entries1 h
    unfold encodeAnimationEntries at h
    cases he1 : encodeAnimationEntry gltf entry with
    | error e =>
      rw [he1] at h
      simp at h
    | ok p =>
      obtain ⟨gltf1, entry1⟩ := p
      rw [he1] at h
      dsimp only at h
      cases he2 : encodeAnimationEntries gltf1 rest with
      | error e =>
        rw [he2] at h
        simp at h
      | ok q =>
        obtain ⟨gltf2, rest1⟩ := q
        rw [he2] at h
        dsimp only at h
        simp only [Except.ok.injEq, Prod.mk.injEq] at h
        obtain ⟨_, he⟩ := h
        subst he
        obtain ⟨hi, ho⟩ := encodeAnimationEntry_ids gltf entry gltf1 entry1 he1
        have hrec := ih gltf1 gltf2 rest1 he2
        unfold animationIdList at hrec ⊢
        rw [List.flatMap_cons, List.flatMap_cons, hrec, hi, ho]

/-- C8: when two animation samplers with different input timeline accessors
share the same output accessor id — or an accessor id appears both as a
sampler input and as a sampler output — the animation compression pass
terminates with an error instead of silently merging or duplicating the
accessor. -/
theorem C8_duplicate_animation_accessor_error (gltf : Gltf)
    (options : Option PipelineOptions) (o : Nat)
    (k1 j1 k2 j2 : Nat) (an1 an2 : Animation) (s1 s2 : AnimationSampler)
    (ha1 : gltf.animations[k1]? = some an1) (hs1 : an1.samplers[j1]? = some s1)
    (ha2 : gltf.animations[k2]? = some an2) (hs2 : an2.samplers[j2]? = some s2)
    (hcol : (s1.input ≠ s2.input ∧ s1.output = some o ∧ s2.output = some o) ∨
      (s1.input = some o ∧ s2.output = some o)) :
    ∃ e, compressDracoAnimations gltf options = Except.error e := by
  have hmem1 : an1 ∈ gltf.animations := List.mem_iff_getElem?.mpr ⟨k1, ha1⟩
  have hmem2 : an2 ∈ gltf.animations := List.mem_iff_getElem?.mpr ⟨k2, ha2⟩
  have hsmem1 : s1 ∈ an1.samplers := List.mem_iff_getElem?.mpr ⟨j1, hs1⟩
  have hsmem2 : s2 ∈ an2.samplers := List.mem_iff_getElem?.mpr ⟨j2, hs2⟩
  unfold compressDracoAnimations
  cases hex : extractAllAnimations gltf with
  | error e => exact ⟨e, rfl⟩
  | ok p =>
    obtain ⟨entries, cnt⟩ := p
    obtain ⟨hcnt, hcounts, hinputs⟩ := extractAllAnimations_spec gltf entries cnt hex
    dsimp only
    have hj1 : j1 < an1.samplers.length := by
      by_contra hcon
      rw [List.getElem?_eq_none (by omega)] at hs1
      cases hs1
    have hcnt0 : ¬ cnt = 0 := by
      have hle : an1.samplers.length ≤
          (gltf.animations.map (fun a => a.samplers.length)).sum :=
        List.single_le_sum (fun x _ => Nat.zero_le x) _
          (List.mem_map.mpr ⟨an1, hmem1, rfl⟩)
      omega
    rw [if_neg hcnt0]
    cases henc : encodeAnimationEntries
        (addExtensionsRequired gltf "Draco_animation_compression") entries with
    | error e => exact ⟨e, rfl⟩
    | ok q =>
      obtain ⟨g2, entries1⟩ := q
      dsimp only
      cases hrem : removeAllSamplerAccessorData g2 entries1 [] with
      | error e => exact ⟨e, rfl⟩
      | ok r =>
        exfalso
        obtain ⟨g3, es⟩ := r
        have hnd := removeAllSamplerAccessorData_nodup entries1 g2 [] g3 es hrem
          List.nodup_nil
        rw [List.nil_append] at hnd
        rw [encodeAnimationEntries_ids entries _ g2 entries1 henc] at hnd
        have hcount1 := List.nodup_iff_count_le_one.mp hnd o
        rcases hcol with ⟨hne, ho1, ho2⟩ | ⟨hi1, ho2⟩
        · have h2out : 2 ≤ (allSamplerOutputs gltf).count o := by
            by_cases hk : k1 = k2
            · subst hk
              rw [ha1] at ha2
              injection ha2 with han
              subst han
              have hj : j1 ≠ j2 := by
                intro hj
                subst hj
                rw [hs1] at hs2
                injection hs2 with hss
                exact hne (by rw [hss])
              have hin := count_filterMap_two_pos an1.samplers j1 j2 s1 s2
                (fun s => s.output) o hj hs1 hs2 ho1 ho2
              have hle := count_le_count_flatMap gltf.animations
                (fun a => a.samplers.filterMap (fun s => s.output)) an1 hmem1 o
              unfold allSamplerOutputs
              omega
            · have hp := count_flatMap_two_pos gltf.animations k1 k2 an1 an2
                (fun a => a.samplers.filterMap (fun s => s.output)) o hk ha1 ha2
              dsimp only at hp
              have hc1 := count_filterMap_pos an1.samplers s1 (fun s => s.output) o
                hsmem1 ho1
              have hc2 := count_filterMap_pos an2.samplers s2 (fun s => s.output) o
                hsmem2 ho2
              unfold allSamplerOutputs
              omega
          have hq1 := hcounts o
          have hq2 := count_allOutputs_le_idList entries o
          omega
        · have h1out : 1 ≤ (allSamplerOutputs gltf).count o := by
            have hc2 := count_filterMap_pos an2.samplers s2 (fun s => s.output) o
              hsmem2 ho2
            have hle := count_le_count_flatMap gltf.animations
              (fun a => a.samplers.filterMap (fun s => s.output)) an2 hmem2 o
            unfold allSamplerOutputs
            omega
          have hom : o ∈ entries.map (fun e => e.input) :=
            hinputs o an1 s1 hmem1 hsmem1 hi1
          have hq1 := count_idList_of_input_mem entries o hom
          have hq2 := hcounts o
          omega

/-- Concrete failing asset for the C8 witness: two samplers with inputs 0
and 2 both writing output accessor 1. -/
def samplerC8a : AnimationSampler :=
  { input := some 0, output := some 1, interpolation := some "LINEAR" }

def samplerC8b : AnimationSampler :=
  { input := some 2, output := some 1, interpolation := some "LINEAR" }

def animC8 : Animation := { samplers := [samplerC8a, samplerC8b] }

def gltfC8 : Gltf :=
  { accessors :=
      [{ componentType := 5126, count := 2, type := "SCALAR" },
       { componentType := 5126, count := 2, type := "VEC3" },
       { componentType := 5126, count := 2, type := "SCALAR" }],
    animations := [animC8] }

theorem C8_witness : ∃ e, compressDracoAnimations gltfC8 none = Except.error e :=
  C8_duplicate_animation_accessor_error gltfC8 none 1 0 0 0 1
    animC8 animC8 samplerC8a samplerC8b
    (by decide) (by decide) (by decide) (by decide)
    (Or.inl ⟨by decide, by decide, by decide⟩)

/-! ## C3: fingerprint deduplication encodes once and shares the payload -/

/-- Invariant of the compression pass state: the encode log is exactly the
list of cache keys, cache keys are unique (a key is inserted only on a cache
miss), and every cached primitive carries an extension record. -/
def cacheWF (st : CState) : Prop :=
  st.encodedFingerprints = st.hashPrimitives.map Prod.fst ∧
  (st.hashPrimitives.map Prod.fst).Nodup ∧
  ∀ fpp ∈ st.hashPrimitives, (fpp.2.extensions).isSome

theorem findFingerprint_isSome_iff :
    ∀ (l : List (Fingerprint × Primitive)) (fp : Fingerprint),
    (findFingerprint l fp).isSome ↔ fp ∈ l.map Prod.fst := by
  intro l
  induction l with
  | nil =>
    intro fp
    simp [findFingerprint]
  | cons kp rest ih =>
    intro fp
    obtain ⟨k, p⟩ := kp
    unfold findFingerprint
    by_cases hk : k = fp
    · subst hk
      simp
    · rw [if_neg hk, ih fp, List.map_cons]
      simp only [List.mem_cons]
      constructor
      · exact Or.inr
      · rintro (h | h)
        · exact absurd h.symm hk
        · exact h

theorem findFingerprint_append :
    ∀ (l1 l2 : List (Fingerprint × Primitive)) (fp : Fingerprint),
    (findFingerprint l1 fp).isSome →
    findFingerprint (l1 ++ l2) fp = findFingerprint l1 fp := by
  intro l1
  induction l1 with
  | nil =>
    intro l2 fp h
    simp [findFingerprint] at h
  | cons kp rest ih =>
    intro l2 fp h
    obtain ⟨k, p⟩ := kp
    rw [List.cons_append]
    unfold findFingerprint
    by_cases hk : k = fp
    · rw [if_pos hk, if_pos hk]
    · rw [if_neg hk, if_neg hk]
      unfold findFingerprint at h
      rw [if_neg hk] at h
      exact ih l2 fp h

theorem findFingerprint_append_none :
    ∀ (l1 l2 : List (Fingerprint × Primitive)) (fp : Fingerprint),
    findFingerprint l1 fp = none →
    findFingerprint (l1 ++ l2) fp = findFingerprint l2 fp := by
  intro l1
  induction l1 with
  | nil =>
    intro l2 fp _
    rw [List.nil_append]
  | cons kp rest ih =>
    intro l2 fp h
    obtain ⟨k, p⟩ := kp
    rw [List.cons_append]
    have hstep : findFingerprint ((k, p) :: (rest ++ l2)) fp =
        if k = fp then some p else findFingerprint (rest ++ l2) fp := rfl
    have hstep0 : findFingerprint ((k, p) :: rest) fp =
        if k = fp then some p else findFingerprint rest fp := rfl
    rw [hstep0] at h
    rw [hstep]
    by_cases hk : k = fp
    · rw [if_pos hk] at h
      cases h
    · rw [if_neg hk] at h ⊢
      exact ih l2 fp h

theorem findFingerprint_mem :
    ∀ (l : List (Fingerprint × Primitive)) (fp : Fingerprint) (q : Primitive),
    findFingerprint l fp = some q → (fp, q) ∈ l := by
  intro l
  induction l with
  | nil =>
    intro fp q h
    simp [findFingerprint] at h
  | cons kp rest ih =>
    intro fp q h
    obtain ⟨k, p⟩ := kp
    unfold findFingerprint at h
    by_cases hk : k = fp
    · rw [if_pos hk] at h
      injection h with hq
      subst hq
      subst hk
      exact List.mem_cons_self _ _
    · rw [if_neg hk] at h
      exact List.mem_cons_of_mem _ (ih fp q h)

theorem addCompressionExtensionToPrimitive_ext (gltf : Gltf) (primitive : Primitive)
    (attributeToId : List (String × Nat)) (encodedLength : Nat)
    (mesh : DracoMesh) (enc : EncoderState) (pc fc : Nat)
    (g2 : Gltf) (p2 : Primitive)
    (h : addCompressionExtensionToPrimitive gltf primitive attributeToId encodedLength
      mesh enc pc fc = Except.ok (g2, p2)) :
    p2.extensions = some { bufferView := gltf.bufferViews.length, attributes := attributeToId } := by
  unfold addCompressionExtensionToPrimitive at h
  split at h
  case h_1 => exact absurd h (by simp)
  case h_2 indicesId hind =>
    split at h
    case h_1 => exact absurd h (by simp)
    case h_2 indicesAccessor hacc =>
      dsimp only [addToArray] at h
      split at h
      case h_1 => exact absurd h (by simp)
      case h_2 accessors2 newAttributes hclone =>
        simp only [Except.ok.injEq, Prod.mk.injEq] at h
        obtain ⟨_, hp2⟩ := h
        rw [← hp2]

theorem compressOnePrimitive_cache (cfg : CompressConfig) (st : CState) (p : Primitive)
    (st1 : CState) (p1 : Primitive)
    (h : compressOnePrimitive cfg st p = Except.ok (st1, p1))
    (hwf : cacheWF st)
    (hmode : modeSkipsCompression p = false) (hind : p.indices ≠ none) :
    cacheWF st1 ∧
    (∃ tail, st1.hashPrimitives = st.hashPrimitives ++ tail) ∧
    ∃ q, findFingerprint st1.hashPrimitives (primitiveFingerprint p) = some q ∧
      (q.extensions).isSome ∧ p1.extensions = q.extensions := by
  unfold compressOnePrimitive at h
  rw [if_neg (by rw [hmode]; exact Bool.false_ne_true)] at h
  rw [if_neg (by
    simp only [Option.isNone_iff_eq_none]
    exact fun hc => hind (by simpa using hc))] at h
  dsimp only at h
  cases hfind : findFingerprint st.hashPrimitives (primitiveFingerprint p) with
  | some cached =>
    rw [hfind] at h
    dsimp only at h
    have hmem := findFingerprint_mem st.hashPrimitives (primitiveFingerprint p) cached hfind
    obtain ⟨d, hd⟩ := Option.isSome_iff_exists.mp (hwf.2.2 _ hmem)
    unfold copyCompressedExtensionToPrimitive at h
    rw [hd] at h
    dsimp only at h
    simp only [Except.ok.injEq, Prod.mk.injEq] at h
    obtain ⟨hst, hp1⟩ := h
    subst hst
    refine ⟨⟨hwf.1, hwf.2.1, hwf.2.2⟩, ⟨[], by simp⟩, cached, hfind,
      Option.isSome_iff_exists.mpr ⟨d, hd⟩, ?_⟩
    rw [← hp1, hd]
  | none =>
    rw [hfind] at h
    dsimp only at h
    split at h
    case h_1 => exact absurd h (by simp)
    case h_2 indicesId hpi =>
      split at h
      case h_1 => exact absurd h (by simp)
      case h_2 indicesAccessor hacc =>
        split at h
        case h_1 => exact absurd h (by simp)
        case h_2 mesh2 attributeToId lastPts hadd =>
          rw [if_neg (by unfold dracoByteLength; omega)] at h
          split at h
          case h_1 => exact absurd h (by simp)
          case h_2 gltf1 primitive1 haddext =>
            simp only [Except.ok.injEq, Prod.mk.injEq] at h
            obtain ⟨hst, hp1⟩ := h
            have hext := addCompressionExtensionToPrimitive_ext _ _ _ _ _ _ _ _ _ _ haddext
            have hnotmem : primitiveFingerprint p ∉ st.hashPrimitives.map Prod.fst := by
              intro hmemfp
              rw [← findFingerprint_isSome_iff] at hmemfp
              rw [hfind] at hmemfp
              cases hmemfp
            subst hst
            refine ⟨⟨?_, ?_, ?_⟩, ⟨[(primitiveFingerprint p, primitive1)], rfl⟩,
              primitive1, ?_, ?_, ?_⟩
            · dsimp only
              rw [List.map_append, hwf.1]
              rfl
            · dsimp only
              rw [List.map_append]
              rw [List.nodup_append]
              refine ⟨hwf.2.1, by simp, ?_⟩
              intro x hx hxfp
              simp only [List.map_cons, List.map_nil, List.mem_singleton] at hxfp
              subst hxfp
              exact hnotmem hx
            · dsimp only
              intro fpp hfpp
              rcases List.mem_append.mp hfpp with hold | hnew
              · exact hwf.2.2 fpp hold
              · simp only [List.mem_singleton] at hnew
                subst hnew
                rw [hext]
                rfl
            · dsimp only
              rw [findFingerprint_append_none _ _ _ hfind]
              unfold findFingerprint
              rw [if_pos rfl]
            · rw [hext]
              rfl
            · rw [← hp1]

theorem compressPrims_cache (cfg : CompressConfig) :
    ∀ (ps : List Primitive) (st st' : CState) (out : List Primitive),
    compressPrims cfg st ps = Except.ok (st', out) →
    cacheWF st →
    cacheWF st' ∧
    (∃ tail, st'.hashPrimitives = st.hashPrimitives ++ tail) ∧
    ∀ (k : Nat) (p : Primitive), ps[k]? = some p →
      modeSkipsCompression p = false → p.indices ≠ none →
      ∃ p1 q, out[k]? = some p1 ∧
        findFingerprint st'.hashPrimitives (primitiveFingerprint p) = some q ∧
        (q.extensions).isSome ∧ p1.extensions = q.extensions := by
  intro ps
  induction ps with
  | nil =>
    intro st st' out hrun hwf
    simp only [compressPrims, Except.ok.injEq, Prod.mk.injEq] at hrun
    obtain ⟨hst, hout⟩ := hrun
    subst hst
    subst hout
    exact ⟨hwf, ⟨[], by simp⟩, fun k p hp _ _ => by simp at hp⟩
  | cons prim rest ih =>
    intro st st' out hrun hwf
    unfold compressPrims at hrun
    split at hrun
    case h_1 => exact absurd hrun (by simp)
    case h_2 st1 p1 hstep =>
      split at hrun
      case h_1 => exact absurd hrun (by simp)
      case h_2 st2 rest1 hrest =>
        simp only [Except.ok.injEq, Prod.mk.injEq] at hrun
        obtain ⟨hst, hout⟩ := hrun
        subst hst
        subst hout
        by_cases hskip : modeSkipsCompression prim = true ∨ prim.indices = none
        · have heq := compressOnePrimitive_skip cfg st prim hskip
          rw [heq] at hstep
          simp only [Except.ok.injEq, Prod.mk.injEq] at hstep
          obtain ⟨hst1, hp1⟩ := hstep
          subst hst1
          subst hp1
          obtain ⟨hwf2, ⟨tail, htail⟩, hpos⟩ := ih st st2 rest1 hrest hwf
          refine ⟨hwf2, ⟨tail, htail⟩, ?_⟩
          intro k p hp hm hi
          cases k with
          | zero =>
            simp only [List.getElem?_cons_zero, Option.some.injEq] at hp
            subst hp
            rcases hskip with hs | hs
            · rw [hm] at hs
              cases hs
            · exact absurd hs hi
          | succ k1 =>
            simp only [List.getElem?_cons_succ] at hp
            obtain ⟨q1, q, ho, hf, hqs, hqe⟩ := hpos k1 p hp hm hi
            exact ⟨q1, q, by simpa using ho, hf, hqs, hqe⟩
        · push_neg at hskip
          obtain ⟨hm0, hi0⟩ := hskip
          have hm0' : modeSkipsCompression prim = false := by
            cases hmc : modeSkipsCompression prim
            · rfl
            · exact absurd hmc hm0
          obtain ⟨hwf1, ⟨tail0, htail0⟩, q0, hfind0, hq0s, hq0e⟩ :=
            compressOnePrimitive_cache cfg st prim st1 p1 hstep hwf hm0' hi0
          obtain ⟨hwf2, ⟨tail1, htail1⟩, hpos⟩ := ih st1 st2 rest1 hrest hwf1
          have hstable : findFingerprint st2.hashPrimitives (primitiveFingerprint prim) =
              some q0 := by
            rw [htail1, findFingerprint_append _ _ _ (by rw [hfind0]; rfl), hfind0]
          refine ⟨hwf2, ⟨tail0 ++ tail1,
            by rw [htail1, htail0, List.append_assoc]⟩, ?_⟩
          intro k p hp hm hi
          cases k with
          | zero =>
            simp only [List.getElem?_cons_zero, Option.some.injEq] at hp
            subst hp
            exact ⟨p1, q0, by simp, hstable, hq0s, hq0e⟩
          | succ k1 =>
            simp only [List.getElem?_cons_succ] at hp
            obtain ⟨q1, q, ho, hf, hqs, hqe⟩ := hpos k1 p hp hm hi
            exact ⟨q1, q, by simpa using ho, hf, hqs, hqe⟩

theorem compressMeshes_cache (cfg : CompressConfig) :
    ∀ (ms : List GltfMesh) (st st' : CState) (out : List GltfMesh),
    compressMeshes cfg st ms = Except.ok (st', out) →
    cacheWF st →
    cacheWF st' ∧
    (∃ tail, st'.hashPrimitives = st.hashPrimitives ++ tail) ∧
    ∀ (mi pi : Nat) (p : Primitive),
      (ms[mi]?).bind (fun m => m.primitives[pi]?) = some p →
      modeSkipsCompression p = false → p.indices ≠ none →
      ∃ p1 q, (out[mi]?).bind (fun m => m.primitives[pi]?) = some p1 ∧
        findFingerprint st'.hashPrimitives (primitiveFingerprint p) = some q ∧
        (q.extensions).isSome ∧ p1.extensions = q.extensions := by
  intro ms
  induction ms with
  | nil =>
    intro st st' out hrun hwf
    simp only [compressMeshes, Except.ok.injEq, Prod.mk.injEq] at hrun
    obtain ⟨hst, hout⟩ := hrun
    subst hst
    subst hout
    exact ⟨hwf, ⟨[], by simp⟩, fun mi pi p hp _ _ => by simp at hp⟩
  | cons m rest ih =>
    intro st st' out hrun hwf
    unfold compressMeshes at hrun
    split at hrun
    case h_1 => exact absurd hrun (by simp)
    case h_2 st1 prims1 hstep =>
      split at hrun
      case h_1 => exact absurd hrun (by simp)
      case h_2 st2 rest1 hrest =>
        simp only [Except.ok.injEq, Prod.mk.injEq] at hrun
        obtain ⟨hst, hout⟩ := hrun
        subst hst
        subst hout
        obtain ⟨hwf1, ⟨tail0, htail0⟩, hpos0⟩ :=
          compressPrims_cache cfg m.primitives st st1 prims1 hstep hwf
        obtain ⟨hwf2, ⟨tail1, htail1⟩, hpos1⟩ := ih st1 st2 rest1 hrest hwf1
        refine ⟨hwf2, ⟨tail0 ++ tail1,
          by rw [htail1, htail0, List.append_assoc]⟩, ?_⟩
        intro mi pi p hp hm hi
        cases mi with
        | zero =>
          simp only [List.getElem?_cons_zero, Option.some_bind] at hp
          obtain ⟨q1, q, ho, hf, hqs, hqe⟩ := hpos0 pi p hp hm hi
          refine ⟨q1, q, ?_, ?_, hqs, hqe⟩
          · simp only [List.getElem?_cons_zero, Option.some_bind]
            exact ho
          · rw [htail1, findFingerprint_append _ _ _ (by rw [hf]; rfl), hf]
        | succ mi1 =>
          simp only [List.getElem?_cons_succ] at hp
          obtain ⟨q1, q, ho, hf, hqs, hqe⟩ := hpos1 mi1 pi p hp hm hi
          exact ⟨q1, q, by simpa using ho, hf, hqs, hqe⟩

/-- Number of codec encode invocations recorded for a fingerprint. -/
def countFingerprint (log : List Fingerprint) (fp : Fingerprint) : Nat :=
  (log.filter (fun x => x = fp)).length

theorem countFingerprint_eq_one (l : List Fingerprint) (fp : Fingerprint)
    (hnd : l.Nodup) (hm : fp ∈ l) : countFingerprint l fp = 1 := by
  unfold countFingerprint
  rw [← List.countP_eq_length_filter]
  exact List.count_eq_one_of_mem hnd hm

/-- C3: two eligible primitives of one compression pass with the same
(attributes, indices, mode) fingerprint end with identical
KHR_draco_mesh_compression extension records (same payload bufferView, same
semantic-to-attribute-id mapping), and the codec encode operation runs
exactly once for that fingerprint. -/
theorem C3_fingerprint_dedup (gltf : Gltf) (options : Option PipelineOptions)
    (g2 : Gltf) (log : List Fingerprint)
    (mi1 pi1 mi2 pi2 : Nat) (p1 p2 : Primitive)
    (h1 : primitiveAt gltf mi1 pi1 = some p1)
    (h2 : primitiveAt gltf mi2 pi2 = some p2)
    (hmode1 : p1.mode = none ∨ p1.mode = some WebGL_TRIANGLES)
    (hind1 : p1.indices ≠ none)
    (hmode2 : p2.mode = none ∨ p2.mode = some WebGL_TRIANGLES)
    (hind2 : p2.indices ≠ none)
    (hfp : primitiveFingerprint p1 = primitiveFingerprint p2)
    (hrun : compressDracoMeshesRun gltf options = Except.ok (g2, log)) :
    ∃ q1 q2 d, primitiveAt g2 mi1 pi1 = some q1 ∧
      primitiveAt g2 mi2 pi2 = some q2 ∧
      q1.extensions = some d ∧ q2.extensions = some d ∧
      countFingerprint log (primitiveFingerprint p1) = 1 := by
  have hmf : ∀ p : Primitive, p.mode = none ∨ p.mode = some WebGL_TRIANGLES →
      modeSkipsCompression p = false := by
    intro p hp
    unfold modeSkipsCompression
    rcases hp with hm | hm
    · rw [hm]
    · rw [hm]
      simp [WebGL_TRIANGLES]
  obtain ⟨cfg, st1, meshes1, hmeshes, hm2g, _, _, _, hlog⟩ :=
    compressDracoMeshesRun_ok gltf options g2 log hrun
  have hwf0 : cacheWF { gltf := gltf } :=
    ⟨rfl, List.nodup_nil, fun fpp hf => absurd hf (by simp)⟩
  obtain ⟨hwf1, _, hpos⟩ :=
    compressMeshes_cache cfg gltf.meshes { gltf := gltf } st1 meshes1 hmeshes hwf0
  unfold primitiveAt at h1 h2
  obtain ⟨q1, r1, ho1, hf1, hr1s, hq1e⟩ := hpos mi1 pi1 p1 h1 (hmf p1 hmode1) hind1
  obtain ⟨q2, r2, ho2, hf2, hr2s, hq2e⟩ := hpos mi2 pi2 p2 h2 (hmf p2 hmode2) hind2
  rw [← hfp, hf1] at hf2
  injection hf2 with hr
  subst hr
  obtain ⟨d, hd⟩ := Option.isSome_iff_exists.mp hr1s
  refine ⟨q1, q2, d, ?_, ?_, ?_, ?_, ?_⟩
  · unfold primitiveAt
    rw [hm2g]
    exact ho1
  · unfold primitiveAt
    rw [hm2g]
    exact ho2
  · rw [hq1e, hd]
  · rw [hq2e, hd]
  · rw [hlog, hwf1.1]
    apply countFingerprint_eq_one _ _ hwf1.2.1
    rw [← findFingerprint_isSome_iff, hf1]
    rfl

/-- Two identical eligible primitives sharing one mesh. -/
def primC3 : Primitive :=
  { attributes := [("POSITION", 1)], indices := some 0, mode := some 4 }

def gltfC3 : Gltf :=
  { accessors :=
      [{ componentType := 5123, count := 3, type := "SCALAR" },
       { componentType := 5126, count := 3, type := "VEC3" }],
    meshes := [{ primitives := [primC3, primC3] }] }

def encC3 : EncoderState :=
  { speed := 3, posQuantBits := 14, normQuantBits := 10, texQuantBits := 12,
    colorQuantBits := 8, genericQuantBits := 12, trackEncodedProperties := true }

def meshC3 : DracoMesh :=
  { numFaces := 0, faces := [],
    attrs := [{ attrType := 0, dataType := 9, numPoints := 3, numComponents := 3,
                values := [] }] }

def primC3out : Primitive :=
  { attributes := [("POSITION", 3)], indices := some 2, mode := some 4,
    extensions := some { bufferView := 0, attributes := [("POSITION", 0)] } }

def g2C3 : Gltf :=
  { accessors :=
      [{ componentType := 5123, count := 3, type := "SCALAR" },
       { componentType := 5126, count := 3, type := "VEC3" },
       { componentType := 5123, count := 3, type := "SCALAR" },
       { componentType := 5126, count := 3, type := "VEC3" }],
    buffers := [{ byteLength := 1, source := Source.draco meshC3 encC3 }],
    bufferViews := [{ buffer := 0, byteOffset := 0, byteLength := 1 }],
    meshes := [{ primitives := [primC3out, primC3out] }],
    extensionsUsed := ["KHR_draco_mesh_compression"],
    extensionsRequired := ["KHR_draco_mesh_compression"] }

def logC3 : List Fingerprint := [([("POSITION", 1)], some 0, some 4)]

theorem C3_witness :
    ∃ q1 q2 d, primitiveAt g2C3 0 0 = some q1 ∧ primitiveAt g2C3 0 1 = some q2 ∧
      q1.extensions = some d ∧ q2.extensions = some d ∧
      countFingerprint logC3 (primitiveFingerprint primC3) = 1 :=
  C3_fingerprint_dedup gltfC3 none g2C3 logC3 0 0 0 1 primC3 primC3 rfl rfl
    (Or.inr rfl) (by decide) (Or.inr rfl) (by decide) rfl rfl

/-! ## C1: lossless round trip at zero quantization -/

theorem exists_append_of_pointwise {α : Type} (l1 l2 : List α)
    (hlen : l1.length ≤ l2.length)
    (hpt : ∀ i, i < l1.length → l2[i]? = l1[i]?) :
    ∃ t, l2 = l1 ++ t := by
  refine ⟨l2.drop l1.length, List.ext_getElem? ?_⟩
  intro i
  by_cases hi : i < l1.length
  · rw [hpt i hi, List.getElem?_append, if_pos hi]
  · rw [List.getElem?_append, if_neg hi]
    rw [List.getElem?_drop]
    congr 1
    omega

theorem lookup_mem_snd {α β : Type} [DecidableEq α] :
    ∀ (l : List (α × β)) (s : α) (v : β), l.lookup s = some v → v ∈ l.map Prod.snd := by
  intro l
  induction l with
  | nil =>
    intro s v h
    simp [List.lookup] at h
  | cons kv rest ih =>
    intro s v h
    obtain ⟨k, w⟩ := kv
    rw [List.lookup_cons] at h
    by_cases hk : s = k
    · rw [show (s == k) = true from beq_iff_eq.mpr hk] at h
      dsimp only at h
      injection h with hv
      subst hv
      exact List.mem_cons_self _ _
    · rw [show (s == k) = false from beq_eq_false_iff_ne.mpr hk] at h
      dsimp only at h
      exact List.mem_cons_of_mem _ (ih s v h)

/-- The buffer references of an accessor resolve inside the asset (or the
accessor has no backing store at all). -/
def refsValid (g : Gltf) (a : Accessor) : Prop :=
  a.bufferView = none ∨
  ∃ bvid bv, a.bufferView = some bvid ∧ g.bufferViews[bvid]? = some bv ∧
    (g.buffers[bv.buffer]?).isSome

theorem readAccessorPacked_extend (g g' : Gltf) (a : Accessor)
    (hv : ∃ t, g'.bufferViews = g.bufferViews ++ t)
    (hb : ∃ t, g'.buffers = g.buffers ++ t)
    (hwfa : refsValid g a) :
    readAccessorPacked g' a = readAccessorPacked g a := by
  obtain ⟨tv, htv⟩ := hv
  obtain ⟨tb, htb⟩ := hb
  unfold readAccessorPacked
  rcases hwfa with hnone | ⟨bvid, bv, hbv, hbvv, hbuf⟩
  · rw [hnone]
  · rw [hbv]
    have hbound : bvid < g.bufferViews.length := by
      by_contra hc
      rw [List.getElem?_eq_none (by omega)] at hbvv
      cases hbvv
    obtain ⟨buf, hbuf'⟩ := Option.isSome_iff_exists.mp hbuf
    have hbound2 : bv.buffer < g.buffers.length := by
      by_contra hc
      rw [List.getElem?_eq_none (by omega)] at hbuf'
      cases hbuf'
    rw [htv, htb]
    dsimp only
    rw [getElem?_append_left _ _ _ hbound, hbvv]
    dsimp only
    rw [getElem?_append_left _ _ _ hbound2, hbuf']

theorem fromBits_false (w : Nat) (b : Nat) : fromBits false w b = (b : Int) := by
  unfold fromBits
  rw [if_neg (fun hc => absurd hc.1 (by decide))]

theorem toBits_fromBits (s : Bool) (w : Nat) (b : Nat) (hb : b < 2 ^ w) :
    toBits w (fromBits s w b) = b := by
  unfold fromBits toBits
  have hcast : ((2 ^ w : Nat) : Int) = (2 : Int) ^ w := by push_cast; ring
  have h2 : (0 : Int) < 2 ^ w := by positivity
  by_cases hc : s = true ∧ 2 ^ (w - 1) ≤ b
  · rw [if_pos hc]
    have h1 : ((b : Int) - 2 ^ w) = (b : Int) + 2 ^ w * (-1) := by ring
    have h3 : ((b : Int) + 2 ^ w * (-1)).emod (2 ^ w) = (b : Int).emod (2 ^ w) :=
      Int.add_mul_emod_self_left (b : Int) ((2 : Int) ^ w) (-1)
    have h4 : (b : Int).emod (2 ^ w) = (b : Int) :=
      Int.emod_eq_of_lt (by positivity) (by omega)
    rw [h1, h3, h4]
    omega
  · rw [if_neg hc]
    have h4 : (b : Int).emod (2 ^ w) = (b : Int) :=
      Int.emod_eq_of_lt (by positivity) (by omega)
    rw [h4]
    omega

/-- Round trip of one vertex index: read unsigned at width `w`, coerced into
a `Uint32Array`, decoded through `DracoInt32Array.GetValue`, written back at
width `w` and read unsigned again. -/
theorem index_elem_roundtrip (w : Nat) (hw : w = 8 ∨ w = 16 ∨ w = 32)
    (v : Int) (hv : 0 ≤ v ∧ v < 2 ^ w) :
    fromBits false w (toBits w (int32View (toBits 32 v))) = v := by
  unfold int32View
  have hwle : (2 : Int) ^ w ≤ 2 ^ 32 := by
    rcases hw with h | h | h <;> rw [h] <;> norm_num
  have hb32 : toBits 32 v = v.toNat := by
    unfold toBits
    have hm : v.emod (2 ^ 32) = v := Int.emod_eq_of_lt hv.1 (by omega)
    rw [hm]
  rw [hb32, fromBits_false]
  have hcast : ((2 ^ w : Nat) : Int) = (2 : Int) ^ w := by push_cast; ring
  have hlt : v.toNat < 2 ^ w := by omega
  unfold fromBits toBits
  by_cases hc : (true : Bool) = true ∧ 2 ^ (32 - 1) ≤ v.toNat
  · rw [if_pos hc]
    have h1 : ((v.toNat : Int) - 2 ^ 32) = (v.toNat : Int) + 2 ^ w * (-(2 ^ (32 - w))) := by
      have hsp : (2 : Int) ^ w * 2 ^ (32 - w) = 2 ^ 32 := by
        rw [← pow_add]
        congr 1
        rcases hw with h | h | h <;> rw [h]
      ring_nf
      ring_nf at hsp
      omega
    have h3 : ((v.toNat : Int) + 2 ^ w * (-(2 ^ (32 - w)))).emod (2 ^ w) =
        (v.toNat : Int).emod (2 ^ w) :=
      Int.add_mul_emod_self_left (v.toNat : Int) ((2 : Int) ^ w) (-(2 ^ (32 - w)))
    have h4 : (v.toNat : Int).emod (2 ^ w) = (v.toNat : Int) :=
      Int.emod_eq_of_lt (by positivity) (by omega)
    rw [h1, h3, h4]
    omega
  · rw [if_neg hc]
    have h4 : (v.toNat : Int).emod (2 ^ w) = (v.toNat : Int) :=
      Int.emod_eq_of_lt (by positivity) (by omega)
    rw [h4]
    omega

theorem indexArrayWidth_eq_ctWidth (ct : Nat)
    (h : ct = 5121 ∨ ct = 5123 ∨ ct = 5125) :
    indexArrayWidth ct = ctWidth ct := by
  rcases h with h | h | h <;> rw [h] <;> rfl

theorem indexArrayWidth_cases (ct : Nat)
    (h : ct = 5121 ∨ ct = 5123 ∨ ct = 5125) :
    indexArrayWidth ct = 8 ∨ indexArrayWidth ct = 16 ∨ indexArrayWidth ct = 32 := by
  rcases h with h | h | h <;> rw [h]
  · left; rfl
  · right; left; rfl
  · right; right; rfl

theorem attr_width_eq (ct : Nat) (fn : String)
    (h : getAddAttributeFunctionName ct = some fn) :
    attributeArrayWidth (addAttributeDataType fn) = ctWidth ct := by
  unfold getAddAttributeFunctionName at h
  by_cases h1 : ct = WebGL_UNSIGNED_BYTE
  · rw [if_pos h1] at h
    injection h with hf
    subst hf
    rw [h1]
    rfl
  · rw [if_neg h1] at h
    by_cases h2 : ct = WebGL_BYTE
    · rw [if_pos h2] at h
      injection h with hf
      subst hf
      rw [h2]
      rfl
    · rw [if_neg h2] at h
      by_cases h3 : ct = WebGL_UNSIGNED_SHORT
      · rw [if_pos h3] at h
        injection h with hf
        subst hf
        rw [h3]
        rfl
      · rw [if_neg h3] at h
        by_cases h4 : ct = WebGL_SHORT
        · rw [if_pos h4] at h
          injection h with hf
          subst hf
          rw [h4]
          rfl
        · rw [if_neg h4] at h
          by_cases h5 : ct = WebGL_UNSIGNED_INT
          · rw [if_pos h5] at h
            injection h with hf
            subst hf
            rw [h5]
            rfl
          · rw [if_neg h5] at h
            by_cases h6 : ct = WebGL_INT
            · rw [if_pos h6] at h
              injection h with hf
              subst hf
              rw [h6]
              rfl
            · rw [if_neg h6] at h
              by_cases h7 : ct = WebGL_FLOAT
              · rw [if_pos h7] at h
                injection h with hf
                subst hf
                rw [h7]
                rfl
              · rw [if_neg h7] at h
                cases h

theorem supported_ct_signed_width (ct : Nat) (fn : String)
    (h : getAddAttributeFunctionName ct = some fn) :
    ctWidth ct = 8 ∨ ctWidth ct = 16 ∨ ctWidth ct = 32 := by
  unfold ctWidth
  by_cases h1 : ct = WebGL_BYTE ∨ ct = WebGL_UNSIGNED_BYTE
  · rw [if_pos h1]
    left
    rfl
  · rw [if_neg h1]
    by_cases h2 : ct = WebGL_SHORT ∨ ct = WebGL_UNSIGNED_SHORT
    · rw [if_pos h2]
      right
      left
      rfl
    · rw [if_neg h2]
      right
      right
      rfl

theorem encoderSettings_zero (cfg : CompressConfig) (pr : Primitive)
    (hq : cfg.quantizePositionBits = 0 ∧ cfg.quantizeNormalBits = 0 ∧
      cfg.quantizeTexcoordBits = 0 ∧ cfg.quantizeColorBits = 0 ∧
      cfg.quantizeGenericBits = 0) :
    ∀ t, (encoderSettings cfg pr).quantBitsFor t = 0 := by
  intro t
  obtain ⟨h1, h2, h3, h4, h5⟩ := hq
  unfold encoderSettings EncoderState.quantBitsFor
  dsimp only
  rw [h1, h2, h3, h4, h5]
  norm_num

theorem decodedAttrValues_zero (enc : EncoderState) (a : DracoAttr)
    (h : ∀ t, enc.quantBitsFor t = 0) :
    decodedAttrValues enc a = a.values := by
  unfold decodedAttrValues
  rw [if_pos (h a.attrType)]

theorem assocSet_cons_eq (k : String) (v0 v : Nat) (rest : List (String × Nat)) :
    assocSet ((k, v0) :: rest) k v = (k, v) :: rest := by
  unfold assocSet
  rw [if_pos rfl]

theorem assocSet_append_notmem :
    ∀ (done : List (String × Nat)) (rest : List (String × Nat)) (k : String) (v : Nat),
    k ∉ done.map Prod.fst →
    assocSet (done ++ rest) k v = done ++ assocSet rest k v := by
  intro done
  induction done with
  | nil =>
    intro rest k v _
    rw [List.nil_append, List.nil_append]
  | cons kv tail ih =>
    intro rest k v hk
    obtain ⟨k0, v0⟩ := kv
    simp only [List.map_cons, List.mem_cons] at hk
    push_neg at hk
    rw [List.cons_append, List.cons_append]
    have hstep : assocSet ((k0, v0) :: (tail ++ rest)) k v =
        if k0 = k then (k0, v) :: (tail ++ rest)
        else (k0, v0) :: assocSet (tail ++ rest) k v := rfl
    rw [hstep, if_neg (fun hc => hk.1 hc.symm), ih rest k v hk.2]

theorem foldl_assocSet_exact :
    ∀ (upd : List (String × Nat)) (done base : List (String × Nat)),
    base.map Prod.fst = upd.map Prod.fst →
    ((done ++ base).map Prod.fst).Nodup →
    upd.foldl (fun acc sv => assocSet acc sv.1 sv.2) (done ++ base) = done ++ upd := by
  intro upd
  induction upd with
  | nil =>
    intro done base hkeys _
    have hb : base = [] := by
      cases base with
      | nil => rfl
      | cons x xs => simp at hkeys
    rw [hb, List.foldl_nil, List.append_nil]
  | cons sv rest ih =>
    intro done base hkeys hnd
    obtain ⟨s, v⟩ := sv
    cases base with
    | nil => simp at hkeys
    | cons b0 btail =>
      obtain ⟨bk, bv⟩ := b0
      simp only [List.map_cons, List.cons.injEq] at hkeys
      obtain ⟨hk0, hkeys'⟩ := hkeys
      subst hk0
      rw [List.foldl_cons]
      have hknotin : bk ∉ done.map Prod.fst := by
        intro hmem
        rw [List.map_append] at hnd
        rw [List.nodup_append] at hnd
        exact hnd.2.2 hmem (by simp)
      have hset : assocSet (done ++ (bk, bv) :: btail) bk v =
          done ++ (bk, v) :: btail := by
        rw [assocSet_append_notmem done _ bk v hknotin, assocSet_cons_eq]
      dsimp only
      rw [hset]
      have hre : done ++ (bk, v) :: btail = (done ++ [(bk, v)]) ++ btail := by
        simp
      rw [hre]
      have hnd2 : (((done ++ [(bk, v)]) ++ btail).map Prod.fst).Nodup := by
        have h1 : ((done ++ [(bk, v)]) ++ btail).map Prod.fst =
            ((done ++ (bk, bv) :: btail).map Prod.fst) := by
          simp
        rw [h1]
        exact hnd
      rw [ih (done ++ [(bk, v)]) btail hkeys' hnd2]
      simp

/-- The accessor ids a processed primitive's record references: its indices
accessor and its attribute accessors. -/
def footprint (q : Primitive) : List Nat :=
  (match q.indices with | some i => [i] | none => []) ++ q.attributes.map Prod.snd

/-- The codec attribute built for one semantic/accessor pair at zero
quantization: class from the semantic base name, draco data type from the
typed builder operation, the accessor's point count and the typed-array
coerced packed data. -/
def canonAttrOf (g : Gltf) (sv : String × Nat) : DracoAttr :=
  match g.accessors[sv.2]? with
  | some a =>
    { attrType := attributeEnumOf (attributeNameOf sv.1)
      dataType := addAttributeDataType ((getAddAttributeFunctionName a.componentType).getD "")
      numPoints := a.count
      numComponents := numberOfComponentsForType a.type
      values := createTypedArray a.componentType (readAccessorPacked g a) }
  | none => { attrType := 0, dataType := 0, numPoints := 0, numComponents := 0, values := [] }

theorem lookup_of_getElem_nodup :
    ∀ (l : List (String × Nat)) (k : Nat) (sem : String) (v : Nat),
    l[k]? = some (sem, v) → ((l.map Prod.fst).Nodup) →
    l.lookup sem = some v := by
  intro l
  induction l with
  | nil =>
    intro k sem v hk _
    simp at hk
  | cons kv rest ih =>
    intro k sem v hk hnd
    obtain ⟨k0, v0⟩ := kv
    simp only [List.map_cons, List.nodup_cons] at hnd
    obtain ⟨hnotin, hnd'⟩ := hnd
    cases k with
    | zero =>
      simp only [List.getElem?_cons_zero, Option.some.injEq, Prod.mk.injEq] at hk
      obtain ⟨h1, h2⟩ := hk
      subst h1
      subst h2
      simp [List.lookup_cons]
    | succ k1 =>
      simp only [List.getElem?_cons_succ] at hk
      have hmem : (sem, v) ∈ rest := List.mem_iff_getElem?.mpr ⟨k1, hk⟩
      have hsemmem : sem ∈ rest.map Prod.fst := List.mem_map.mpr ⟨(sem, v), hmem, rfl⟩
      have hne : sem ≠ k0 := fun hc => hnotin (hc ▸ hsemmem)
      rw [List.lookup_cons]
      rw [show (sem == k0) = false from beq_eq_false_iff_ne.mpr hne]
      exact ih k1 sem v hk hnd'

theorem findFingerprint_append_single_ne (l : List (Fingerprint × Primitive))
    (k : Fingerprint) (x : Primitive) (fp : Fingerprint) (hne : k ≠ fp) :
    findFingerprint (l ++ [(k, x)]) fp = findFingerprint l fp := by
  cases hf : findFingerprint l fp with
  | some q => rw [findFingerprint_append l [(k, x)] fp (by rw [hf]; rfl), hf]
  | none =>
    rw [findFingerprint_append_none l [(k, x)] fp hf]
    simp [findFingerprint, hne]

theorem canonAttrOf_extend (g0 g : Gltf) (sv : String × Nat)
    (hacc : g.accessors[sv.2]? = g0.accessors[sv.2]?)
    (hv : ∃ t, g.bufferViews = g0.bufferViews ++ t)
    (hb : ∃ t, g.buffers = g0.buffers ++ t)
    (hwfa : ∀ a, g0.accessors[sv.2]? = some a → refsValid g0 a) :
    canonAttrOf g sv = canonAttrOf g0 sv := by
  unfold canonAttrOf
  rw [hacc]
  cases ha : g0.accessors[sv.2]? with
  | none => rfl
  | some a =>
    dsimp only
    rw [readAccessorPacked_extend g0 g a hv hb (hwfa a ha)]

theorem addPrimitiveAttributes_spec :
    ∀ (pairs : List (String × Nat)) (g : Gltf) (m : DracoMesh)
      (acc : List (String × Nat)) (n : Nat),
    (∀ sv ∈ pairs, ∃ a, g.accessors[sv.2]? = some a ∧
      (getAddAttributeFunctionName a.componentType).isSome) →
    ∃ m2 attrToId last,
      addPrimitiveAttributes g pairs m acc n = Except.ok (m2, attrToId, last) ∧
      m2.numFaces = m.numFaces ∧ m2.faces = m.faces ∧
      m2.attrs.length = m.attrs.length + pairs.length ∧
      (∀ i, i < m.attrs.length → m2.attrs[i]? = m.attrs[i]?) ∧
      attrToId.length = acc.length + pairs.length ∧
      (∀ i, i < acc.length → attrToId[i]? = acc[i]?) ∧
      (∀ k sv, pairs[k]? = some sv →
        attrToId[acc.length + k]? = some (sv.1, m.attrs.length + k) ∧
        m2.attrs[m.attrs.length + k]? = some (canonAttrOf g sv)) := by
  intro pairs
  induction pairs with
  | nil =>
    intro g m acc n _
    refine ⟨m, acc, n, rfl, rfl, rfl, by simp, fun i _ => rfl, by simp,
      fun i _ => rfl, fun k sv hk => by simp at hk⟩
  | cons sv0 rest ih =>
    intro g m acc n hv
    obtain ⟨semantic, accessorId⟩ := sv0
    obtain ⟨a, ha, hfn⟩ := hv (semantic, accessorId) (List.mem_cons_self _ _)
    obtain ⟨fn, hfn'⟩ := Option.isSome_iff_exists.mp hfn
    have hv' : ∀ sv ∈ rest, ∃ a, g.accessors[sv.2]? = some a ∧
        (getAddAttributeFunctionName a.componentType).isSome :=
      fun sv hsv => hv sv (List.mem_cons_of_mem _ hsv)
    obtain ⟨m2, attrToId, last, hrun, hnf, hfc, hlen, hpre, halen, hapre, hper⟩ :=
      ih g { m with attrs := m.attrs ++
        [{ attrType := attributeEnumOf (attributeNameOf semantic)
           dataType := addAttributeDataType fn
           numPoints := a.count
           numComponents := numberOfComponentsForType a.type
           values := createTypedArray a.componentType (readAccessorPacked g a) }] }
        (acc ++ [(semantic, (m.attrs.length : Int).toNat)]) a.count hv'
    refine ⟨m2, attrToId, last, ?_, hnf, hfc, ?_, ?_, ?_, ?_, ?_⟩
    · unfold addPrimitiveAttributes
      rw [ha]
      dsimp only
      rw [hfn']
      dsimp only [meshAddAttribute]
      rw [if_neg (by omega)]
      exact hrun
    · simp only [List.length_append, List.length_cons, List.length_nil] at hlen
      simp only [List.length_cons]
      omega
    · intro i hi
      rw [hpre i (by simp only [List.length_append, List.length_cons, List.length_nil]; omega)]
      exact getElem?_append_left _ _ i hi
    · simp only [List.length_append, List.length_cons, List.length_nil] at halen
      simp only [List.length_cons]
      omega
    · intro i hi
      rw [hapre i (by simp only [List.length_append, List.length_cons, List.length_nil]; omega)]
      exact getElem?_append_left _ _ i hi
    · intro k sv hk
      cases k with
      | zero =>
        simp only [List.getElem?_cons_zero, Option.some.injEq] at hk
        subst hk
        constructor
        · rw [Nat.add_zero]
          rw [hapre acc.length (by simp only [List.length_append, List.length_cons, List.length_nil]; omega)]
          rw [List.getElem?_concat_length]
          have htn : ((m.attrs.length : Int)).toNat = m.attrs.length := by omega
          rw [htn]
          rfl
        · rw [Nat.add_zero]
          rw [hpre m.attrs.length (by simp only [List.length_append, List.length_cons, List.length_nil]; omega)]
          rw [List.getElem?_concat_length]
          unfold canonAttrOf
          rw [ha]
          dsimp only
          rw [hfn']
          rfl
      | succ k1 =>
        simp only [List.getElem?_cons_succ] at hk
        obtain ⟨h1, h2⟩ := hper k1 sv hk
        simp only [List.length_append, List.length_cons, List.length_nil] at h1 h2
        constructor
        · rw [show acc.length + (k1 + 1) = acc.length + 1 + k1 by omega,
            show m.attrs.length + (k1 + 1) = m.attrs.length + 1 + k1 by omega]
          exact h1
        · rw [show m.attrs.length + (k1 + 1) = m.attrs.length + 1 + k1 by omega]
          exact h2

/-- Cache-entry wellformedness: the cached primitive keeps the fingerprint's
semantics, has indices, and references only accessors appended by the pass
(at or past the original accessor count `N0`). -/
def entryWF (N0 : Nat) (g : Gltf) (e : Fingerprint × Primitive) : Prop :=
  e.2.attributes.map Prod.fst = e.1.1.map Prod.fst ∧
  (∃ i, e.2.indices = some i) ∧
  ∀ id ∈ footprint e.2, N0 ≤ id ∧ id < g.accessors.length

/-- Compression-pass invariant for the round-trip proof: the cache invariant,
the original element arrays are prefixes of the state's, cache entries are
wellformed and their footprints are pairwise disjoint. -/
def CInv (gltf0 : Gltf) (st : CState) : Prop :=
  cacheWF st ∧
  (∃ t, st.gltf.accessors = gltf0.accessors ++ t) ∧
  (∃ t, st.gltf.buffers = gltf0.buffers ++ t) ∧
  (∃ t, st.gltf.bufferViews = gltf0.bufferViews ++ t) ∧
  (∀ e ∈ st.hashPrimitives, entryWF gltf0.accessors.length st.gltf e) ∧
  List.Pairwise (fun e1 e2 => ∀ id ∈ footprint e1.2, id ∉ footprint e2.2) st.hashPrimitives

/-- Full description of the encoded block of the round-trip primitive `p`
inside the asset `g`: the cached primitive `q` points at the freshly cloned
accessors and at a payload holding the canonical zero-quantization codec
mesh built from `p`'s original data in `gltf0`. -/
def CanonBlock (gltf0 : Gltf) (p : Primitive) (a0 : Accessor) (g : Gltf) (q : Primitive) :
    Prop :=
  ∃ (base bv1 b1 L : Nat) (mesh0 : DracoMesh) (enc0 : EncoderState),
    gltf0.accessors.length ≤ base ∧
    q.indices = some base ∧
    g.accessors[base]? = some (stripBufferView a0) ∧
    q.attributes.length = p.attributes.length ∧
    (∀ (k : Nat) (sem : String) (aid : Nat), p.attributes[k]? = some (sem, aid) →
      q.attributes[k]? = some (sem, base + 1 + k) ∧
      ∃ a, gltf0.accessors[aid]? = some a ∧
        g.accessors[base + 1 + k]? = some (stripBufferView a)) ∧
    (∃ extAttrs, q.extensions = some { bufferView := bv1, attributes := extAttrs } ∧
      extAttrs.length = p.attributes.length ∧
      ∀ (k : Nat) (sem : String) (aid : Nat), p.attributes[k]? = some (sem, aid) →
        extAttrs[k]? = some (sem, k)) ∧
    g.bufferViews[bv1]? = some { buffer := b1, byteOffset := 0, byteLength := L } ∧
    g.buffers[b1]? = some { byteLength := L, source := Source.draco mesh0 enc0 } ∧
    (∀ t, enc0.quantBitsFor t = 0) ∧
    mesh0.faces = (((readAccessorPacked gltf0 a0).map (fun v => toBits 32 v)).take
      (3 * ((readAccessorPacked gltf0 a0).length / 3))) ∧
    mesh0.numFaces = (readAccessorPacked gltf0 a0).length / 3 ∧
    mesh0.attrs.length = p.attributes.length ∧
    (∀ (k : Nat) (sv : String × Nat), p.attributes[k]? = some sv →
      mesh0.attrs[k]? = some (canonAttrOf gltf0 sv))

/-- Whenever the fingerprint of `p` is in the cache, its entry carries the
canonical block. -/
def CanonFp0 (gltf0 : Gltf) (p : Primitive) (a0 : Accessor) (st : CState) : Prop :=
  ∀ q, findFingerprint st.hashPrimitives (primitiveFingerprint p) = some q →
    CanonBlock gltf0 p a0 st.gltf q

/-- Wellformedness of the round-trip primitive needed while compressing: its
indices accessor and every attribute accessor resolve in the original asset
with resolvable buffer references, a supported component type and a common
point count `c`. -/
def PrimWF (gltf0 : Gltf) (p : Primitive) (ix0 : Nat) (a0 : Accessor) (c : Nat) : Prop :=
  p.indices = some ix0 ∧
  gltf0.accessors[ix0]? = some a0 ∧
  refsValid gltf0 a0 ∧
  ∀ sv ∈ p.attributes, ∃ a, gltf0.accessors[sv.2]? = some a ∧
    (getAddAttributeFunctionName a.componentType).isSome ∧ a.count = c ∧ refsValid gltf0 a

theorem CanonBlock_extend (gltf0 : Gltf) (p : Primitive) (a0 : Accessor)
    (g g' : Gltf) (q : Primitive)
    (hc : CanonBlock gltf0 p a0 g q)
    (ha : ∃ t, g'.accessors = g.accessors ++ t)
    (hb : ∃ t, g'.buffers = g.buffers ++ t)
    (hv : ∃ t, g'.bufferViews = g.bufferViews ++ t) :
    CanonBlock gltf0 p a0 g' q := by
  obtain ⟨base, bv1, b1, L, mesh0, enc0, h1, h2, h3, h4, h5, h6, h7, h8, h9, h10, h11, h12, h13⟩ := hc
  obtain ⟨ta, hta⟩ := ha
  obtain ⟨tb, htb⟩ := hb
  obtain ⟨tv, htv⟩ := hv
  have hkeep : ∀ (i : Nat) (a : Accessor), g.accessors[i]? = some a →
      g'.accessors[i]? = some a := by
    intro i a hi
    have hbound : i < g.accessors.length := by
      by_contra hcon
      rw [List.getElem?_eq_none (by omega)] at hi
      cases hi
    rw [hta, getElem?_append_left _ _ _ hbound]
    exact hi
  refine ⟨base, bv1, b1, L, mesh0, enc0, h1, h2, hkeep _ _ h3, h4, ?_, h6, ?_, ?_,
    h9, h10, h11, h12, h13⟩
  · intro k sem aid hk
    obtain ⟨hq, a, ha1, ha2⟩ := h5 k sem aid hk
    exact ⟨hq, a, ha1, hkeep _ _ ha2⟩
  · have hbound : bv1 < g.bufferViews.length := by
      by_contra hcon
      rw [List.getElem?_eq_none (by omega)] at h7
      cases h7
    rw [htv, getElem?_append_left _ _ _ hbound]
    exact h7
  · have hbound : b1 < g.buffers.length := by
      by_contra hcon
      rw [List.getElem?_eq_none (by omega)] at h8
      cases h8
    rw [htb, getElem?_append_left _ _ _ hbound]
    exact h8

theorem addPrimitiveAttributes_valid :
    ∀ (pairs : List (String × Nat)) (g : Gltf) (m : DracoMesh)
      (acc : List (String × Nat)) (n : Nat) (r : DracoMesh × List (String × Nat) × Nat),
    addPrimitiveAttributes g pairs m acc n = Except.ok r →
    ∀ sv ∈ pairs, (g.accessors[sv.2]?).isSome := by
  intro pairs
  induction pairs with
  | nil =>
    intro g m acc n r _ sv hsv
    cases hsv
  | cons sv0 rest ih =>
    intro g m acc n r h sv hsv
    obtain ⟨semantic, accessorId⟩ := sv0
    unfold addPrimitiveAttributes at h
    split at h
    case h_1 => exact absurd h (by simp)
    case h_2 a ha =>
      dsimp only at h
      split at h
      case h_1 => exact absurd h (by simp)
      case h_2 fn hfn =>
        dsimp only [meshAddAttribute] at h
        rw [if_neg (by omega)] at h
        rcases List.mem_cons.mp hsv with rfl | hmem
        · rw [ha]
          rfl
        · exact ih g _ _ _ r h sv hmem

theorem map_fst_eq_of_spec (l1 l2 : List (String × Nat))
    (hlen : l2.length = l1.length)
    (hk : ∀ (k : Nat) (sem : String) (aid : Nat), l1[k]? = some (sem, aid) →
      ∃ v, l2[k]? = some (sem, v)) :
    l2.map Prod.fst = l1.map Prod.fst := by
  apply List.ext_getElem?
  intro k
  rw [List.getElem?_map, List.getElem?_map]
  by_cases hkl : k < l1.length
  · have h1 : l1[k]? = some (l1.get ⟨k, hkl⟩) := by
      rw [List.getElem?_eq_getElem hkl]
      rfl
    obtain ⟨v, h2⟩ := hk k (l1.get ⟨k, hkl⟩).1 (l1.get ⟨k, hkl⟩).2 (by rw [h1])
    rw [h1, h2]
    rfl
  · have h1 : l1[k]? = none := List.getElem?_eq_none (by omega)
    have h2 : l2[k]? = none := List.getElem?_eq_none (by omega)
    rw [h1, h2]

theorem compressOnePrimitive_main
    (gltf0 : Gltf) (p : Primitive) (ix0 : Nat) (a0 : Accessor) (c : Nat)
    (cfg : CompressConfig) (st : CState) (pr : Primitive) (st1 : CState) (p1 : Primitive)
    (h : compressOnePrimitive cfg st pr = Except.ok (st1, p1))
    (hinv : CInv gltf0 st)
    (hcanon : CanonFp0 gltf0 p a0 st)
    (hwfp : PrimWF gltf0 p ix0 a0 c)
    (hcfgq : cfg.quantizePositionBits = 0 ∧ cfg.quantizeNormalBits = 0 ∧
      cfg.quantizeTexcoordBits = 0 ∧ cfg.quantizeColorBits = 0 ∧
      cfg.quantizeGenericBits = 0)
    (hprnd : (pr.attributes.map Prod.fst).Nodup) :
    CInv gltf0 st1 ∧
    CanonFp0 gltf0 p a0 st1 ∧
    (∃ t, st1.hashPrimitives = st.hashPrimitives ++ t) ∧
    ((modeSkipsCompression pr = true ∨ pr.indices = none) → st1 = st ∧ p1 = pr) ∧
    (modeSkipsCompression pr = false → pr.indices ≠ none →
      ∃ e, findFingerprint st1.hashPrimitives (primitiveFingerprint pr) = some e ∧
        p1.attributes = e.attributes ∧ p1.indices = e.indices ∧
        p1.extensions = e.extensions ∧ p1.mode = pr.mode) := by
  have horig := h
  by_cases hskip : modeSkipsCompression pr = true ∨ pr.indices = none
  · have heq := compressOnePrimitive_skip cfg st pr hskip
    rw [heq] at h
    simp only [Except.ok.injEq, Prod.mk.injEq] at h
    obtain ⟨h1, h2⟩ := h
    refine ⟨by rw [← h1]; exact hinv, by rw [← h1]; exact hcanon,
      ⟨[], by rw [← h1]; simp⟩, fun _ => ⟨h1.symm, h2.symm⟩, ?_⟩
    intro hm hi
    rcases hskip with hs | hs
    · rw [hm] at hs
      cases hs
    · exact absurd hs hi
  · push_neg at hskip
    obtain ⟨hm0, hi0⟩ := hskip
    have hm0' : modeSkipsCompression pr = false := by
      cases hmc : modeSkipsCompression pr
      · rfl
      · exact absurd hmc hm0
    have hcw := compressOnePrimitive_cache cfg st pr st1 p1 horig hinv.1 hm0' hi0
    obtain ⟨hwf1, ⟨tailH, htailH⟩, q0, hfq0, hq0s, hq0e⟩ := hcw
    unfold compressOnePrimitive at h
    rw [if_neg (by rw [hm0']; exact Bool.false_ne_true)] at h
    rw [if_neg (by
      simp only [Option.isNone_iff_eq_none]
      exact fun hc => hi0 (by simpa using hc))] at h
    dsimp only at h
    cases hfind : findFingerprint st.hashPrimitives (primitiveFingerprint pr) with
    | some cached =>
      rw [hfind] at h
      dsimp only at h
      have hmem := findFingerprint_mem _ _ _ hfind
      have hewf := hinv.2.2.2.2.1 _ hmem
      obtain ⟨d, hd⟩ := Option.isSome_iff_exists.mp (hinv.1.2.2 _ hmem)
      unfold copyCompressedExtensionToPrimitive at h
      rw [hd] at h
      dsimp only at h
      simp only [Except.ok.injEq, Prod.mk.injEq] at h
      obtain ⟨hst, hp1⟩ := h
      have hkeys : pr.attributes.map Prod.fst = cached.attributes.map Prod.fst :=
        hewf.1.symm
      have hfold : cached.attributes.foldl (fun acc sv => assocSet acc sv.1 sv.2)
          pr.attributes = cached.attributes := by
        have hx := foldl_assocSet_exact cached.attributes [] pr.attributes hkeys
          (by simpa using hprnd)
        simpa using hx
      refine ⟨by rw [← hst]; exact hinv, by rw [← hst]; exact hcanon,
        ⟨[], by rw [← hst]; simp⟩, ?_, ?_⟩
      · intro hc
        rcases hc with hs | hs
        · rw [hm0'] at hs
          cases hs
        · exact absurd hs hi0
      · intro _ _
        refine ⟨cached, by rw [← hst]; exact hfind, ?_, ?_, ?_, ?_⟩
        · rw [← hp1]
          exact hfold
        · rw [← hp1]
        · rw [← hp1, hd]
        · rw [← hp1]
    | none =>
      rw [hfind] at h
      dsimp only at h
      split at h
      · exact absurd h (by simp)
      · rename_i indicesId hpi
        split at h
        · exact absurd h (by simp)
        · rename_i indicesAccessor hacc
          split at h
          · exact absurd h (by simp)
          · rename_i mesh2 attributeToId lastPts hadd
            rw [if_neg (by unfold dracoByteLength; omega)] at h
            split at h
            · exact absurd h (by simp)
            · rename_i gltf1 primitive1 haddext
              simp only [Except.ok.injEq, Prod.mk.injEq] at h
              obtain ⟨hst, hp1⟩ := h
              have hvalid := addPrimitiveAttributes_valid _ _ _ _ _ _ hadd
              have hattrs : ∀ sv ∈ pr.attributes, sv.2 < st.gltf.accessors.length := by
                intro sv hsv
                have := hvalid sv hsv
                by_contra hc
                rw [List.getElem?_eq_none (by omega)] at this
                cases this
              obtain ⟨g2x, p2x, heqx, hx1, hx2, hx3, hx4, hx5, hx6, hx7, hx8, hx9,
                hx10, hx11, hx12, hx13, hx14, hx15, hx16⟩ :=
                addCompressionExtensionToPrimitive_spec st.gltf pr attributeToId
                  (dracoByteLength mesh2) mesh2 (encoderSettings cfg pr)
                  mesh2.pointCount mesh2.numFaces indicesId indicesAccessor hpi hacc hattrs
              rw [haddext] at heqx
              simp only [Except.ok.injEq, Prod.mk.injEq] at heqx
              obtain ⟨hg2x, hp2x⟩ := heqx
              subst hg2x
              subst hp2x
              have hacc_app : ∃ t, gltf1.accessors = st.gltf.accessors ++ t :=
                exists_append_of_pointwise _ _ (by omega) hx7
              have hkeysnew : primitive1.attributes.map Prod.fst =
                  pr.attributes.map Prod.fst := by
                apply map_fst_eq_of_spec _ _ hx5
                intro k sem aid hk
                exact ⟨st.gltf.accessors.length + 1 + k, (hx9 k sem aid hk).1⟩
              have hsnd : ∀ id ∈ primitive1.attributes.map Prod.snd,
                  st.gltf.accessors.length ≤ id ∧
                  id < st.gltf.accessors.length + 1 + pr.attributes.length := by
                intro id hid
                obtain ⟨sv, hsv, hsveq⟩ := List.mem_map.mp hid
                obtain ⟨k, hk⟩ := List.mem_iff_getElem?.mp hsv
                have hklt : k < pr.attributes.length := by
                  have hk2 : k < primitive1.attributes.length := by
                    by_contra hc
                    rw [List.getElem?_eq_none (by omega)] at hk
                    cases hk
                  omega
                obtain ⟨semk, aidk, hk2⟩ : ∃ semk aidk,
                    pr.attributes[k]? = some (semk, aidk) := by
                  rw [List.getElem?_eq_getElem hklt]
                  exact ⟨(pr.attributes.get ⟨k, hklt⟩).1,
                    (pr.attributes.get ⟨k, hklt⟩).2, rfl⟩
                have hchar := (hx9 k semk aidk hk2).1
                rw [hk] at hchar
                injection hchar with hsveq2
                rw [hsveq2] at hsveq
                dsimp only at hsveq
                omega
              have hfootnew : ∀ id ∈ footprint primitive1,
                  st.gltf.accessors.length ≤ id ∧
                  id < st.gltf.accessors.length + 1 + pr.attributes.length := by
                intro id hid
                unfold footprint at hid
                rw [hx1] at hid
                simp only [List.mem_append, List.mem_singleton] at hid
                rcases hid with hid | hid
                · subst hid
                  omega
                · exact hsnd id hid
              obtain ⟨t0, ht0⟩ := hinv.2.1
              obtain ⟨tb0, htb0⟩ := hinv.2.2.1
              obtain ⟨tv0, htv0⟩ := hinv.2.2.2.1
              have hN0le : gltf0.accessors.length ≤ st.gltf.accessors.length := by
                rw [ht0, List.length_append]
                omega
              subst hst
              subst hp1
              refine ⟨⟨hwf1, ?_, ?_, ?_, ?_, ?_⟩, ?_, ⟨[(primitiveFingerprint pr, primitive1)], rfl⟩, ?_, ?_⟩
              · obtain ⟨t, ht⟩ := hacc_app
                exact ⟨t0 ++ t, by dsimp only; rw [ht, ht0, List.append_assoc]⟩
              · refine ⟨tb0 ++
                  [{ byteLength := dracoByteLength mesh2,
                     source := Source.draco mesh2 (encoderSettings cfg pr) }], ?_⟩
                dsimp only
                rw [hx10, htb0, List.append_assoc]
              · refine ⟨tv0 ++
                  [{ buffer := st.gltf.buffers.length, byteOffset := 0,
                     byteLength := dracoByteLength mesh2 }], ?_⟩
                dsimp only
                rw [hx11, htv0, List.append_assoc]
              · intro e he
                dsimp only at he
                rcases List.mem_append.mp he with hold | hnew
                · obtain ⟨he1, he2, he3⟩ := hinv.2.2.2.2.1 e hold
                  refine ⟨he1, he2, ?_⟩
                  intro id hidm
                  have := he3 id hidm
                  dsimp only
                  rw [hx6]
                  omega
                · rw [List.mem_singleton] at hnew
                  subst hnew
                  refine ⟨?_, ⟨st.gltf.accessors.length, hx1⟩, ?_⟩
                  · exact hkeysnew
                  · intro id hidm
                    have := hfootnew id hidm
                    dsimp only
                    rw [hx6]
                    omega
              · dsimp only
                rw [List.pairwise_append]
                refine ⟨hinv.2.2.2.2.2, List.pairwise_singleton _ _, ?_⟩
                intro e1 he1 e2 he2 id hid1
                rw [List.mem_singleton] at he2
                subst he2
                intro hid2
                have hb1 := (hinv.2.2.2.2.1 e1 he1).2.2 id hid1
                have hb2 := hfootnew id hid2
                omega
              · intro q hq
                dsimp only at hq
                by_cases hfp0 : primitiveFingerprint pr = primitiveFingerprint p
                · rw [← hfp0] at hq
                  rw [findFingerprint_append_none _ _ _ hfind] at hq
                  unfold findFingerprint at hq
                  rw [if_pos rfl] at hq
                  injection hq with hq'
                  subst hq'
                  simp only [primitiveFingerprint, Prod.mk.injEq] at hfp0
                  obtain ⟨hattr_eq, hind_eq, _⟩ := hfp0
                  have hix_eq : indicesId = ix0 := by
                    rw [hpi, hwfp.1] at hind_eq
                    injection hind_eq
                  subst hix_eq
                  have hix0b : indicesId < gltf0.accessors.length := by
                    by_contra hc
                    have := hwfp.2.1
                    rw [List.getElem?_eq_none (by omega)] at this
                    cases this
                  have ha0' : st.gltf.accessors[indicesId]? = some a0 := by
                    rw [ht0, getElem?_append_left _ _ _ hix0b]
                    exact hwfp.2.1
                  have hia_eq : indicesAccessor = a0 := by
                    rw [ha0'] at hacc
                    injection hacc with hval
                    exact hval.symm
                  subst hia_eq
                  have hreadix : readAccessorPacked st.gltf indicesAccessor =
                      readAccessorPacked gltf0 indicesAccessor :=
                    readAccessorPacked_extend gltf0 st.gltf indicesAccessor
                      ⟨tv0, htv0⟩ ⟨tb0, htb0⟩ hwfp.2.2.1
                  have hvy : ∀ sv ∈ pr.attributes, ∃ a, st.gltf.accessors[sv.2]? = some a ∧
                      (getAddAttributeFunctionName a.componentType).isSome := by
                    intro sv hsv
                    rw [hattr_eq] at hsv
                    obtain ⟨a, ha, hf, _, _⟩ := hwfp.2.2.2 sv hsv
                    have hab : sv.2 < gltf0.accessors.length := by
                      by_contra hc
                      rw [List.getElem?_eq_none (by omega)] at ha
                      cases ha
                    refine ⟨a, ?_, hf⟩
                    rw [ht0, getElem?_append_left _ _ _ hab]
                    exact ha
                  obtain ⟨m2y, atiy, lasty, heqy, hy1, hy2, hy3, _, hy5, _, hy7⟩ :=
                    addPrimitiveAttributes_spec pr.attributes st.gltf
                      (addFacesToMesh {}
                        (((readAccessorPacked st.gltf indicesAccessor).map
                          (fun v => toBits 32 v)).length / 3)
                        ((readAccessorPacked st.gltf indicesAccessor).map
                          (fun v => toBits 32 v)))
                      [] 0 hvy
                  have heqy2 := hadd.symm.trans heqy
                  simp only [Except.ok.injEq, Prod.mk.injEq] at heqy2
                  obtain ⟨hm2y, haty, _⟩ := heqy2
                  subst hm2y
                  subst haty
                  refine ⟨st.gltf.accessors.length, st.gltf.bufferViews.length,
                    st.gltf.buffers.length, dracoByteLength mesh2, mesh2,
                    encoderSettings cfg pr, hN0le, hx1, ?_, ?_, ?_, ?_, ?_, ?_, ?_,
                    ?_, ?_, ?_, ?_⟩
                  · exact hx8
                  · rw [hx5, hattr_eq]
                  · intro k sem aid hk
                    rw [← hattr_eq] at hk
                    obtain ⟨hq1, a, ha, ha2⟩ := hx9 k sem aid hk
                    have hab : aid < gltf0.accessors.length := by
                      have hmem : (sem, aid) ∈ pr.attributes := List.mem_iff_getElem?.mpr ⟨k, hk⟩
                      rw [hattr_eq] at hmem
                      obtain ⟨a', ha', _⟩ := hwfp.2.2.2 (sem, aid) hmem
                      by_contra hc
                      rw [List.getElem?_eq_none (by omega)] at ha'
                      cases ha'
                    refine ⟨hq1, a, ?_, ha2⟩
                    rw [ht0, getElem?_append_left _ _ _ hab] at ha
                    exact ha
                  · refine ⟨attributeToId, hx4, ?_, ?_⟩
                    · rw [hy5, hattr_eq]
                      simp
                    · intro k sem aid hk
                      rw [← hattr_eq] at hk
                      have hts := (hy7 k (sem, aid) hk).1
                      have h00 : ((addFacesToMesh {}
                          (((readAccessorPacked st.gltf indicesAccessor).map
                            (fun v => toBits 32 v)).length / 3)
                          ((readAccessorPacked st.gltf indicesAccessor).map
                            (fun v => toBits 32 v))).attrs.length) = 0 := rfl
                      rw [h00] at hts
                      simp only [List.length_nil, Nat.zero_add] at hts
                      exact hts
                  · rw [hx11]
                    exact List.getElem?_concat_length _ _
                  · rw [hx10]
                    exact List.getElem?_concat_length _ _
                  · exact encoderSettings_zero cfg pr hcfgq
                  · rw [hy2]
                    dsimp only [addFacesToMesh]
                    rw [hreadix, List.length_map]
                  · rw [hy1]
                    dsimp only [addFacesToMesh]
                    rw [hreadix, List.length_map]
                  · rw [hy3, hattr_eq]
                    have h00 : (addFacesToMesh { numFaces := 0, faces := [], attrs := [] }
                        ((((readAccessorPacked st.gltf indicesAccessor)).map
                          (fun v => toBits 32 v)).length / 3)
                        ((readAccessorPacked st.gltf indicesAccessor).map
                          (fun v => toBits 32 v))).attrs.length = 0 := rfl
                    omega
                  · intro k sv hk
                    rw [← hattr_eq] at hk
                    have hmem : sv ∈ pr.attributes := List.mem_iff_getElem?.mpr ⟨k, hk⟩
                    have := (hy7 k sv hk).2
                    have hsimp : (addFacesToMesh {}
                        (((readAccessorPacked st.gltf indicesAccessor).map
                          (fun v => toBits 32 v)).length / 3)
                        ((readAccessorPacked st.gltf indicesAccessor).map
                          (fun v => toBits 32 v))).attrs.length = 0 := rfl
                    rw [hsimp, Nat.zero_add] at this
                    rw [this]
                    congr 1
                    apply canonAttrOf_extend
                    · rw [hattr_eq] at hmem
                      obtain ⟨a, ha, _⟩ := hwfp.2.2.2 sv hmem
                      have hab : sv.2 < gltf0.accessors.length := by
                        by_contra hc
                        rw [List.getElem?_eq_none (by omega)] at ha
                        cases ha
                      rw [ht0, getElem?_append_left _ _ _ hab]
                    · exact ⟨tv0, htv0⟩
                    · exact ⟨tb0, htb0⟩
                    · intro a ha
                      rw [hattr_eq] at hmem
                      obtain ⟨a', ha', _, _, hrefs⟩ := hwfp.2.2.2 sv hmem
                      rw [ha'] at ha
                      injection ha with haa
                      subst haa
                      exact hrefs
                · rw [findFingerprint_append_single_ne _ _ _ _ hfp0] at hq
                  exact CanonBlock_extend gltf0 p a0 st.gltf gltf1 q (hcanon q hq)
                    hacc_app ⟨_, hx10⟩ ⟨_, hx11⟩
              · intro hcsk
                rcases hcsk with hs | hs
                · rw [hm0'] at hs
                  cases hs
                · exact absurd hs hi0
              · intro _ _
                refine ⟨primitive1, ?_, rfl, rfl, rfl, hx2⟩
                dsimp only
                rw [findFingerprint_append_none _ _ _ hfind]
                unfold findFingerprint
                rw [if_pos rfl]

theorem compressPrims_main
    (gltf0 : Gltf) (p : Primitive) (ix0 : Nat) (a0 : Accessor) (c : Nat)
    (cfg : CompressConfig)
    (hwfp : PrimWF gltf0 p ix0 a0 c)
    (hcfgq : cfg.quantizePositionBits = 0 ∧ cfg.quantizeNormalBits = 0 ∧
      cfg.quantizeTexcoordBits = 0 ∧ cfg.quantizeColorBits = 0 ∧
      cfg.quantizeGenericBits = 0) :
    ∀ (ps : List Primitive) (st st' : CState) (out : List Primitive),
    compressPrims cfg st ps = Except.ok (st', out) →
    CInv gltf0 st →
    CanonFp0 gltf0 p a0 st →
    (∀ (k : Nat) (pk : Primitive), ps[k]? = some pk → pk.extensions = none ∧
      (pk.attributes.map Prod.fst).Nodup) →
    CInv gltf0 st' ∧
    CanonFp0 gltf0 p a0 st' ∧
    (∃ t, st'.hashPrimitives = st.hashPrimitives ++ t) ∧
    out.length = ps.length ∧
    (∀ (k : Nat) (pk q : Primitive), ps[k]? = some pk → out[k]? = some q →
      q.extensions = none ∨
      ∃ e, findFingerprint st'.hashPrimitives (primitiveFingerprint pk) = some e ∧
        q.attributes = e.attributes ∧ q.indices = e.indices ∧
        q.extensions = e.extensions) ∧
    (∀ (k : Nat) (pk : Primitive), ps[k]? = some pk →
      modeSkipsCompression pk = false → pk.indices ≠ none →
      ∃ q e, out[k]? = some q ∧
        findFingerprint st'.hashPrimitives (primitiveFingerprint pk) = some e ∧
        q.attributes = e.attributes ∧ q.indices = e.indices ∧
        q.extensions = e.extensions ∧ q.mode = pk.mode) := by
  intro ps
  induction ps with
  | nil =>
    intro st st' out hrun hinv hcanon _
    simp only [compressPrims, Except.ok.injEq, Prod.mk.injEq] at hrun
    obtain ⟨hst, hout⟩ := hrun
    subst hst
    subst hout
    exact ⟨hinv, hcanon, ⟨[], by simp⟩, rfl,
      fun k pk q hp _ => by simp at hp,
      fun k pk hp _ _ => by simp at hp⟩
  | cons prim rest ih =>
    intro st st' out hrun hinv hcanon hps
    unfold compressPrims at hrun
    split at hrun
    case h_1 => exact absurd hrun (by simp)
    case h_2 st1 p1 hstep =>
      split at hrun
      case h_1 => exact absurd hrun (by simp)
      case h_2 st2 rest1 hrest =>
        simp only [Except.ok.injEq, Prod.mk.injEq] at hrun
        obtain ⟨hst, hout⟩ := hrun
        subst hst
        subst hout
        obtain ⟨hext0, hnd0⟩ := hps 0 prim (by simp)
        obtain ⟨hinv1, hcanon1, ⟨t1, ht1⟩, hsk, hel⟩ :=
          compressOnePrimitive_main gltf0 p ix0 a0 c cfg st prim st1 p1 hstep
            hinv hcanon hwfp hcfgq hnd0
        obtain ⟨hinv2, hcanon2, ⟨t2, ht2⟩, hlen2, hchar2, helig2⟩ :=
          ih st1 st2 rest1 hrest hinv1 hcanon1
            (fun k pk hp => hps (k + 1) pk (by simpa using hp))
        refine ⟨hinv2, hcanon2, ⟨t1 ++ t2, by rw [ht2, ht1, List.append_assoc]⟩,
          by simp [hlen2], ?_, ?_⟩
        · intro k pk q hp hq
          cases k with
          | zero =>
            simp only [List.getElem?_cons_zero, Option.some.injEq] at hp hq
            subst hp
            subst hq
            by_cases hskip : modeSkipsCompression prim = true ∨ prim.indices = none
            · obtain ⟨_, hq1⟩ := hsk hskip
              subst hq1
              left
              exact hext0
            · push_neg at hskip
              have hm0' : modeSkipsCompression prim = false := by
                cases hmc : modeSkipsCompression prim
                · rfl
                · exact absurd hmc hskip.1
              obtain ⟨e, hfe, he1, he2, he3, he4⟩ := hel hm0' hskip.2
              right
              refine ⟨e, ?_, he1, he2, he3⟩
              rw [ht2, findFingerprint_append _ _ _ (by rw [hfe]; rfl), hfe]
          | succ k1 =>
            simp only [List.getElem?_cons_succ] at hp hq
            exact hchar2 k1 pk q hp hq
        · intro k pk hp hm hi
          cases k with
          | zero =>
            simp only [List.getElem?_cons_zero, Option.some.injEq] at hp
            subst hp
            obtain ⟨e, hfe, he1, he2, he3, he4⟩ := hel hm hi
            refine ⟨p1, e, by simp, ?_, he1, he2, he3, he4⟩
            rw [ht2, findFingerprint_append _ _ _ (by rw [hfe]; rfl), hfe]
          | succ k1 =>
            simp only [List.getElem?_cons_succ] at hp
            obtain ⟨q, e, hq, hfe, he1, he2, he3, he4⟩ := helig2 k1 pk hp hm hi
            exact ⟨q, e, by simpa using hq, hfe, he1, he2, he3, he4⟩

theorem compressMeshes_main
    (gltf0 : Gltf) (p : Primitive) (ix0 : Nat) (a0 : Accessor) (c : Nat)
    (cfg : CompressConfig)
    (hwfp : PrimWF gltf0 p ix0 a0 c)
    (hcfgq : cfg.quantizePositionBits = 0 ∧ cfg.quantizeNormalBits = 0 ∧
      cfg.quantizeTexcoordBits = 0 ∧ cfg.quantizeColorBits = 0 ∧
      cfg.quantizeGenericBits = 0) :
    ∀ (ms : List GltfMesh) (st st' : CState) (out : List GltfMesh),
    compressMeshes cfg st ms = Except.ok (st', out) →
    CInv gltf0 st →
    CanonFp0 gltf0 p a0 st →
    (∀ (mi k : Nat) (m : GltfMesh) (pk : Primitive), ms[mi]? = some m →
      m.primitives[k]? = some pk →
      pk.extensions = none ∧ (pk.attributes.map Prod.fst).Nodup) →
    CInv gltf0 st' ∧
    CanonFp0 gltf0 p a0 st' ∧
    (∃ t, st'.hashPrimitives = st.hashPrimitives ++ t) ∧
    out.length = ms.length ∧
    (∀ (mi : Nat) (m : GltfMesh), ms[mi]? = some m → ∃ m', out[mi]? = some m' ∧
      m'.primitives.length = m.primitives.length) ∧
    (∀ (mi k : Nat) (m : GltfMesh) (pk q : Primitive), ms[mi]? = some m →
      m.primitives[k]? = some pk →
      (out[mi]?).bind (fun m' => m'.primitives[k]?) = some q →
      q.extensions = none ∨
      ∃ e, findFingerprint st'.hashPrimitives (primitiveFingerprint pk) = some e ∧
        q.attributes = e.attributes ∧ q.indices = e.indices ∧
        q.extensions = e.extensions) ∧
    (∀ (mi k : Nat) (m : GltfMesh) (pk : Primitive), ms[mi]? = some m →
      m.primitives[k]? = some pk →
      modeSkipsCompression pk = false → pk.indices ≠ none →
      ∃ q e, (out[mi]?).bind (fun m' => m'.primitives[k]?) = some q ∧
        findFingerprint st'.hashPrimitives (primitiveFingerprint pk) = some e ∧
        q.attributes = e.attributes ∧ q.indices = e.indices ∧
        q.extensions = e.extensions ∧ q.mode = pk.mode) := by
  intro ms
  induction ms with
  | nil =>
    intro st st' out hrun hinv hcanon _
    simp only [compressMeshes, Except.ok.injEq, Prod.mk.injEq] at hrun
    obtain ⟨hst, hout⟩ := hrun
    subst hst
    subst hout
    exact ⟨hinv, hcanon, ⟨[], by simp⟩, rfl,
      fun mi m hm => by simp at hm,
      fun mi k m pk q hm => by simp at hm,
      fun mi k m pk hm => by simp at hm⟩
  | cons m0 rest ih =>
    intro st st' out hrun hinv hcanon hps
    unfold compressMeshes at hrun
    split at hrun
    case h_1 => exact absurd hrun (by simp)
    case h_2 st1 prims1 hstep =>
      split at hrun
      case h_1 => exact absurd hrun (by simp)
      case h_2 st2 rest1 hrest =>
        simp only [Except.ok.injEq, Prod.mk.injEq] at hrun
        obtain ⟨hst, hout⟩ := hrun
        subst hst
        subst hout
        obtain ⟨hinv1, hcanon1, ⟨t1, ht1⟩, hlen1, hchar1, helig1⟩ :=
          compressPrims_main gltf0 p ix0 a0 c cfg hwfp hcfgq m0.primitives st st1
            prims1 hstep hinv hcanon (fun k pk hp => hps 0 k m0 pk (by simp) hp)
        obtain ⟨hinv2, hcanon2, ⟨t2, ht2⟩, hlen2, hmlen2, hchar2, helig2⟩ :=
          ih st1 st2 rest1 hrest hinv1 hcanon1
            (fun mi k mm pk hm hp => hps (mi + 1) k mm pk (by simpa using hm) hp)
        refine ⟨hinv2, hcanon2, ⟨t1 ++ t2, by rw [ht2, ht1, List.append_assoc]⟩,
          by simp [hlen2], ?_, ?_, ?_⟩
        · intro mi mm hm
          cases mi with
          | zero =>
            simp only [List.getElem?_cons_zero, Option.some.injEq] at hm
            subst hm
            exact ⟨{ primitives := prims1 }, by simp, hlen1⟩
          | succ mi1 =>
            simp only [List.getElem?_cons_succ] at hm
            obtain ⟨m', hm', hl'⟩ := hmlen2 mi1 mm hm
            exact ⟨m', by simpa using hm', hl'⟩
        · intro mi k mm pk q hm hp hq
          cases mi with
          | zero =>
            simp only [List.getElem?_cons_zero, Option.some.injEq] at hm
            subst hm
            simp only [List.getElem?_cons_zero, Option.some_bind] at hq
            obtain hres := hchar1 k pk q hp hq
            rcases hres with hn | ⟨e, hfe, he1, he2, he3⟩
            · exact Or.inl hn
            · refine Or.inr ⟨e, ?_, he1, he2, he3⟩
              rw [ht2, findFingerprint_append _ _ _ (by rw [hfe]; rfl), hfe]
          | succ mi1 =>
            simp only [List.getElem?_cons_succ] at hm hq
            exact hchar2 mi1 k mm pk q hm hp hq
        · intro mi k mm pk hm hp hmode hind
          cases mi with
          | zero =>
            simp only [List.getElem?_cons_zero, Option.some.injEq] at hm
            subst hm
            obtain ⟨q, e, hq, hfe, he1, he2, he3, he4⟩ := helig1 k pk hp hmode hind
            refine ⟨q, e, ?_, ?_, he1, he2, he3, he4⟩
            · simp only [List.getElem?_cons_zero, Option.some_bind]
              exact hq
            · rw [ht2, findFingerprint_append _ _ _ (by rw [hfe]; rfl), hfe]
          | succ mi1 =>
            simp only [List.getElem?_cons_succ] at hm
            obtain ⟨q, e, hq, hfe, he1, he2, he3, he4⟩ := helig2 mi1 k mm pk hm hp hmode hind
            refine ⟨q, e, by simpa using hq, hfe, he1, he2, he3, he4⟩

/-! ## C1: zero-quantization round trip -/

theorem compressDracoMeshesRun_okq (gltf : Gltf) (options : Option PipelineOptions)
    (g2 : Gltf) (log : List Fingerprint)
    (hrun : compressDracoMeshesRun gltf options = Except.ok (g2, log)) :
    ∃ cfg st1 meshes1,
      compressMeshes cfg { gltf := gltf } gltf.meshes = Except.ok (st1, meshes1) ∧
      cfg.quantizePositionBits = resolvedQuantizePositionBits options ∧
      cfg.quantizeNormalBits = resolvedQuantizeNormalBits options ∧
      cfg.quantizeTexcoordBits = resolvedQuantizeTexcoordBits options ∧
      cfg.quantizeColorBits = resolvedQuantizeColorBits options ∧
      cfg.quantizeGenericBits = resolvedQuantizeGenericBits options ∧
      g2.meshes = meshes1 ∧
      g2.accessors = st1.gltf.accessors ∧
      g2.buffers = st1.gltf.buffers ∧
      g2.bufferViews = st1.gltf.bufferViews ∧
      log = st1.encodedFingerprints := by
  unfold compressDracoMeshesRun at hrun
  simp only [splitPrimitives] at hrun
  split at hrun
  case h_1 => exact absurd hrun (by simp)
  split at hrun
  case h_1 => exact absurd hrun (by simp)
  split at hrun
  case h_1 => exact absurd hrun (by simp)
  split at hrun
  case h_1 => exact absurd hrun (by simp)
  split at hrun
  case h_1 => exact absurd hrun (by simp)
  split at hrun
  case h_1 => exact absurd hrun (by simp)
  split at hrun
  case h_1 => exact absurd hrun (by simp)
  rename_i positionOrigin positionRange hplan
  split at hrun
  case h_1 => exact absurd hrun (by simp)
  rename_i st1 meshes1 hmeshes
  refine ⟨_, st1, meshes1, hmeshes, rfl, rfl, rfl, rfl, rfl, ?_⟩
  split at hrun <;>
  · simp only [Except.ok.injEq, Prod.mk.injEq] at hrun
    obtain ⟨hg, hlog⟩ := hrun
    subst hg
    simp [addExtensionsRequired, removeUnusedElements, hlog]

theorem getElem?_mono {α : Type} (l l2 : List α) (h : ∃ t, l2 = l ++ t) (i : Nat) (x : α)
    (hx : l[i]? = some x) : l2[i]? = some x := by
  obtain ⟨t, ht⟩ := h
  have hb : i < l.length := by
    by_contra hc
    rw [List.getElem?_eq_none (by omega)] at hx
    cases hx
  rw [ht, getElem?_append_left _ _ _ hb]
  exact hx

theorem getIndicesBuffer_congr (a1 a2 : Accessor) (m : DracoMesh) (n : Nat)
    (h : a1.componentType = a2.componentType) :
    getIndicesBuffer a1 m n = getIndicesBuffer a2 m n := by
  unfold getIndicesBuffer
  rw [h]

theorem decompressAttributesLoop_untouched (enc : EncoderState) (mesh : DracoMesh)
    (primitive : Primitive) :
    ∀ (pairs : List (String × Nat)) (g g2 : Gltf),
    decompressAttributesLoop enc mesh primitive g pairs = Except.ok g2 →
    g2.accessors.length = g.accessors.length ∧
    (∃ t, g2.bufferViews = g.bufferViews ++ t) ∧
    (∃ t, g2.buffers = g.buffers ++ t) ∧
    (∀ i : Nat, (∀ sv ∈ pairs, primitive.attributes.lookup sv.1 ≠ some i) →
      g2.accessors[i]? = g.accessors[i]?) := by
  intro pairs
  induction pairs with
  | nil =>
    intro g g2 h
    simp only [decompressAttributesLoop, Except.ok.injEq] at h
    subst h
    exact ⟨rfl, ⟨[], by simp⟩, ⟨[], by simp⟩, fun i _ => rfl⟩
  | cons sv0 rest ih =>
    intro g g2 h
    obtain ⟨semantic, localId⟩ := sv0
    unfold decompressAttributesLoop at h
    split at h
    case h_1 => exact absurd h (by simp)
    case h_2 dracoAttribute hattr =>
      dsimp only [addBufferToGltf, addToArray] at h
      split at h
      case h_1 => exact absurd h (by simp)
      case h_2 gltfAttributeId hlook =>
        split at h
        case h_1 => exact absurd h (by simp)
        case h_2 attributeAccessor hgot =>
          obtain ⟨hlen, ⟨tv, htv⟩, ⟨tb, htb⟩, hunt⟩ := ih _ g2 h
          refine ⟨?_, ?_, ?_, ?_⟩
          · rw [hlen]
            simp [List.length_set]
          · dsimp only at htv
            exact ⟨_, by rw [htv, List.append_assoc]⟩
          · dsimp only at htb
            exact ⟨_, by rw [htb, List.append_assoc]⟩
          · intro i hcond
            have hne : gltfAttributeId ≠ i := by
              intro hc
              exact hcond (semantic, localId) (List.mem_cons_self _ _) (by rw [← hc]; exact hlook)
            rw [hunt i (fun sv hsv => hcond sv (List.mem_cons_of_mem _ hsv))]
            dsimp only
            exact List.getElem?_set_ne hne

theorem decmopressDracoMesh_untouched (g : Gltf) (prim : Primitive) (mesh : DracoMesh)
    (enc : EncoderState) (dext : DracoExtension) (g2 : Gltf)
    (h : decmopressDracoMesh g prim mesh enc dext = Except.ok g2) :
    g2.accessors.length = g.accessors.length ∧
    (∃ t, g2.bufferViews = g.bufferViews ++ t) ∧
    (∃ t, g2.buffers = g.buffers ++ t) ∧
    (∀ i : Nat, prim.indices ≠ some i →
      (∀ sv ∈ dext.attributes, prim.attributes.lookup sv.1 ≠ some i) →
      g2.accessors[i]? = g.accessors[i]?) := by
  unfold decmopressDracoMesh at h
  split at h
  · exact absurd h (by simp)
  · split at h
    case h_1 => exact absurd h (by simp)
    case h_2 indicesId hixp =>
      split at h
      case h_1 => exact absurd h (by simp)
      case h_2 indicesAccessor hia =>
        dsimp only [addBufferToGltf, addToArray] at h
        split at h
        case h_1 => exact absurd h (by simp)
        case h_2 indicesAccessor1 hia1 =>
          obtain ⟨hlen, ⟨tv, htv⟩, ⟨tb, htb⟩, hunt⟩ :=
            decompressAttributesLoop_untouched enc mesh prim dext.attributes _ g2 h
          refine ⟨?_, ?_, ?_, ?_⟩
          · rw [hlen]
            simp [List.length_set]
          · dsimp only at htv
            exact ⟨_, by rw [htv, List.append_assoc]⟩
          · dsimp only at htb
            exact ⟨_, by rw [htb, List.append_assoc]⟩
          · intro i hix hcond
            have hne : indicesId ≠ i := by
              intro hc
              exact hix (by rw [← hc]; exact hixp)
            rw [hunt i hcond]
            dsimp only
            exact List.getElem?_set_ne hne

/-- The record of one primitive coincides with a cache entry's primitive on
the fields the decompression pass reads. -/
def MatchesPrim (ep pk : Primitive) : Prop :=
  pk.attributes = ep.attributes ∧ pk.indices = ep.indices ∧ pk.extensions = ep.extensions

/-- Characterization of every primitive emitted by the compression pass:
untouched (no extension) or record-equal to some cache entry. -/
def OutputChar (E : List (Fingerprint × Primitive)) (pk : Primitive) : Prop :=
  pk.extensions = none ∨ ∃ fpk ep, (fpk, ep) ∈ E ∧ MatchesPrim ep pk

/-- The round-trip primitive's block as the compression pass left it: the
cloned accessors at `base` and `base + 1 + k` still carry no bufferView. -/
def PreBlock (g0 : Gltf) (p : Primitive) (a0 : Accessor) (base : Nat) (g : Gltf) : Prop :=
  g.accessors[base]? = some (stripBufferView a0) ∧
  ∀ (k : Nat) (sem : String) (aid : Nat), p.attributes[k]? = some (sem, aid) →
    ∃ a, g0.accessors[aid]? = some a ∧ g.accessors[base + 1 + k]? = some (stripBufferView a)

/-- The round-trip primitive's block after a decode: every cloned accessor
points at a bufferView whose buffer materialises the canonical decoded
data. -/
def WrittenBlock (g0 : Gltf) (p : Primitive) (a0 : Accessor) (base : Nat)
    (mesh0 : DracoMesh) (enc0 : EncoderState) (g : Gltf) : Prop :=
  (∃ (bv b L1 L2 : Nat),
    g.accessors[base]? = some
      { stripBufferView a0 with
        bufferView := some bv,
        byteOffset := some 0 } ∧
    g.bufferViews[bv]? = some { buffer := b, byteOffset := 0, byteLength := L1 } ∧
    g.buffers[b]? = some
      { byteLength := L2,
        source := getIndicesBuffer a0 mesh0 mesh0.numFaces }) ∧
  (∀ (k : Nat) (sem : String) (aid : Nat), p.attributes[k]? = some (sem, aid) →
    ∃ (a : Accessor) (bv b L1 L2 : Nat),
      g0.accessors[aid]? = some a ∧
      g.accessors[base + 1 + k]? = some
        { stripBufferView a with
          count := mesh0.pointCount,
          bufferView := some bv,
          byteOffset := some 0 } ∧
      g.bufferViews[bv]? = some { buffer := b, byteOffset := 0, byteLength := L1 } ∧
      g.buffers[b]? = some
        { byteLength := L2,
          source := getAttributeBuffer enc0 mesh0 (canonAttrOf g0 (sem, aid)) })

/-- Invariant carried through the decompression walk: the accessor array
keeps its length, the canonical payload is intact, and the round-trip
block is in its pre- or post-decode state. -/
def RoundTripInv (g0 : Gltf) (p : Primitive) (a0 : Accessor) (base bv1 b1 L NA : Nat)
    (mesh0 : DracoMesh) (enc0 : EncoderState) (g : Gltf) : Prop :=
  g.accessors.length = NA ∧
  g.bufferViews[bv1]? = some { buffer := b1, byteOffset := 0, byteLength := L } ∧
  g.buffers[b1]? = some { byteLength := L, source := Source.draco mesh0 enc0 } ∧
  (PreBlock g0 p a0 base g ∨ WrittenBlock g0 p a0 base mesh0 enc0 g)

theorem mem_nodup_keys_eq {α β : Type} :
    ∀ (l : List (α × β)), (l.map Prod.fst).Nodup →
    ∀ (k : α) (x y : β), (k, x) ∈ l → (k, y) ∈ l → x = y := by
  intro l
  induction l with
  | nil =>
    intro _ k x y hx _
    cases hx
  | cons e rest ih =>
    intro hnd k x y hx hy
    simp only [List.map_cons, List.nodup_cons] at hnd
    rcases List.mem_cons.mp hx with hx0 | hx1
    · rcases List.mem_cons.mp hy with hy0 | hy1
      · have h12 : (k, x) = (k, y) := hx0.trans hy0.symm
        injection h12 with _ h2
      · exfalso
        apply hnd.1
        have hk : e.1 = k := by rw [← hx0]
        rw [hk]
        exact List.mem_map.mpr ⟨(k, y), hy1, rfl⟩
    · rcases List.mem_cons.mp hy with hy0 | hy1
      · exfalso
        apply hnd.1
        have hk : e.1 = k := by rw [← hy0]
        rw [hk]
        exact List.mem_map.mpr ⟨(k, x), hx1, rfl⟩
      · exact ih hnd.2 k x y hx1 hy1

theorem pairwise_disjoint_entries (E : List (Fingerprint × Primitive))
    (hpw : List.Pairwise (fun e1 e2 => ∀ id ∈ footprint e1.2, id ∉ footprint e2.2) E)
    (x y : Fingerprint × Primitive) (hx : x ∈ E) (hy : y ∈ E) (hne : x ≠ y) :
    ∀ id ∈ footprint x.2, id ∉ footprint y.2 := by
  have hS : List.Pairwise (fun e1 e2 : Fingerprint × Primitive =>
      ∀ id, id ∈ footprint e1.2 → id ∈ footprint e2.2 → False) E := by
    refine hpw.imp ?_
    intro a b hab id h1 h2
    exact hab id h1 h2
  have hsymm : Symmetric (fun e1 e2 : Fingerprint × Primitive =>
      ∀ id, id ∈ footprint e1.2 → id ∈ footprint e2.2 → False) := by
    intro a b hab id h1 h2
    exact hab id h2 h1
  intro id h1 h2
  exact List.Pairwise.forall hsymm hS hx hy hne id h1 h2

theorem decompressPrimitive_roundtrip_step
    (g0 : Gltf) (p : Primitive) (a0 : Accessor)
    (base bv1 b1 L NA : Nat) (mesh0 : DracoMesh) (enc0 : EncoderState)
    (E : List (Fingerprint × Primitive)) (e0p : Primitive) (extAttrs : List (String × Nat))
    (hndE : (E.map Prod.fst).Nodup)
    (hpairE : List.Pairwise (fun e1 e2 => ∀ id ∈ footprint e1.2, id ∉ footprint e2.2) E)
    (he0 : (primitiveFingerprint p, e0p) ∈ E)
    (he0ix : e0p.indices = some base)
    (he0len : e0p.attributes.length = p.attributes.length)
    (he0attr : ∀ (k : Nat) (sem : String) (aid : Nat), p.attributes[k]? = some (sem, aid) →
      e0p.attributes[k]? = some (sem, base + 1 + k))
    (he0ext : e0p.extensions = some { bufferView := bv1, attributes := extAttrs })
    (hextlen : extAttrs.length = p.attributes.length)
    (hextk : ∀ (k : Nat) (sem : String) (aid : Nat), p.attributes[k]? = some (sem, aid) →
      extAttrs[k]? = some (sem, k))
    (hm0attr : ∀ (k : Nat) (sv : String × Nat), p.attributes[k]? = some sv →
      mesh0.attrs[k]? = some (canonAttrOf g0 sv))
    (hpnd : (p.attributes.map Prod.fst).Nodup)
    (hbase : base < NA)
    (hbaseK : ∀ (k : Nat) (sem : String) (aid : Nat), p.attributes[k]? = some (sem, aid) →
      base + 1 + k < NA)
    (g g' : Gltf) (pk p1 : Primitive) (flag : Bool)
    (h : decompressPrimitive g pk = Except.ok (g', p1, flag))
    (hchar : OutputChar E pk)
    (hJ : RoundTripInv g0 p a0 base bv1 b1 L NA mesh0 enc0 g) :
    RoundTripInv g0 p a0 base bv1 b1 L NA mesh0 enc0 g' ∧
    p1.attributes = pk.attributes ∧ p1.indices = pk.indices ∧
    (WrittenBlock g0 p a0 base mesh0 enc0 g → WrittenBlock g0 p a0 base mesh0 enc0 g') ∧
    (MatchesPrim e0p pk → modeSkipsDecompression pk = false →
      WrittenBlock g0 p a0 base mesh0 enc0 g') := by
  have hbase_mem : base ∈ footprint e0p := by
    unfold footprint
    rw [he0ix]
    exact List.mem_append.mpr (Or.inl (List.mem_singleton.mpr rfl))
  have hattr_mem : ∀ (k : Nat) (sem : String) (aid : Nat), p.attributes[k]? = some (sem, aid) →
      base + 1 + k ∈ footprint e0p := by
    intro k sem aid hk
    unfold footprint
    apply List.mem_append.mpr
    right
    exact List.mem_map.mpr ⟨(sem, base + 1 + k),
      List.mem_iff_getElem?.mpr ⟨k, he0attr k sem aid hk⟩, rfl⟩
  have he0keys : e0p.attributes.map Prod.fst = p.attributes.map Prod.fst := by
    apply map_fst_eq_of_spec _ _ he0len
    intro k sem aid hk
    exact ⟨base + 1 + k, he0attr k sem aid hk⟩
  have he0nd : (e0p.attributes.map Prod.fst).Nodup := by
    rw [he0keys]
    exact hpnd
  have he0lookup : ∀ (k : Nat) (sem : String) (aid : Nat), p.attributes[k]? = some (sem, aid) →
      e0p.attributes.lookup sem = some (base + 1 + k) := by
    intro k sem aid hk
    exact lookup_of_getElem_nodup _ k _ _ (he0attr k sem aid hk) he0nd
  unfold decompressPrimitive at h
  by_cases hms : modeSkipsDecompression pk = true
  · rw [if_pos hms] at h
    simp only [Except.ok.injEq, Prod.mk.injEq] at h
    obtain ⟨hg, hpp, _⟩ := h
    subst hg
    subst hpp
    exact ⟨hJ, rfl, rfl, fun hw => hw,
      fun _ hmf => absurd hms (by rw [hmf]; exact Bool.false_ne_true)⟩
  · rw [if_neg hms] at h
    cases hpke : pk.extensions with
    | none =>
      rw [hpke] at h
      simp only [Except.ok.injEq, Prod.mk.injEq] at h
      obtain ⟨hg, hpp, _⟩ := h
      subst hg
      subst hpp
      refine ⟨hJ, rfl, rfl, fun hw => hw, ?_⟩
      intro hmatch _
      exfalso
      have hc := hmatch.2.2
      rw [hpke, he0ext] at hc
      cases hc
    | some dext =>
      rw [hpke] at h
      rcases hchar with hnone | ⟨fpk, ep, hmemE, hma, hmi, hme⟩
      · rw [hpke] at hnone
        cases hnone
      · by_cases hfp : fpk = primitiveFingerprint p
        · -- the step decodes the round-trip block itself
          subst hfp
          have hep : ep = e0p := mem_nodup_keys_eq E hndE _ ep e0p hmemE he0
          subst hep
          rw [hpke, he0ext] at hme
          injection hme with hdext
          subst hdext
          dsimp only at h
          rw [hJ.2.1] at h
          dsimp only at h
          rw [hJ.2.2.1] at h
          dsimp only at h
          split at h
          · exact absurd h (by simp)
          · rename_i gltf1 hdm
            simp only [Except.ok.injEq, Prod.mk.injEq] at h
            obtain ⟨hg, hpp, _⟩ := h
            have hpkix : pk.indices = some base := by
              rw [hmi, he0ix]
            obtain ⟨obv, obo, haccb⟩ : ∃ obv obo : Option Nat,
                g.accessors[base]? = some { a0 with bufferView := obv, byteOffset := obo } := by
              rcases hJ.2.2.2 with hpre | hwr
              · exact ⟨none, none, hpre.1⟩
              · obtain ⟨⟨bv, b, L1, L2, hacc, _, _⟩, _⟩ := hwr
                exact ⟨some bv, some 0, hacc⟩
            unfold decmopressDracoMesh at hdm
            split at hdm
            · exact absurd hdm (by simp)
            · rw [hpkix] at hdm
              dsimp only at hdm
              rw [haccb] at hdm
              dsimp only [addBufferToGltf, addToArray] at hdm
              rw [haccb] at hdm
              dsimp only at hdm
              -- characterize the extension attribute pairs
              have hextchar : ∀ j : Nat, j < extAttrs.length →
                  ∃ sem aid, p.attributes[j]? = some (sem, aid) ∧
                    extAttrs[j]? = some (sem, j) ∧
                    pk.attributes.lookup sem = some (base + 1 + j) ∧
                    mesh0.attrs[j]? = some (canonAttrOf g0 (sem, aid)) ∧
                    base + 1 + j < NA := by
                intro j hjl
                have hjp : j < p.attributes.length := by omega
                obtain ⟨sem, aid, hpj⟩ : ∃ sem aid, p.attributes[j]? = some (sem, aid) := by
                  rw [List.getElem?_eq_getElem hjp]
                  exact ⟨(p.attributes.get ⟨j, hjp⟩).1, (p.attributes.get ⟨j, hjp⟩).2, rfl⟩
                refine ⟨sem, aid, hpj, hextk j sem aid hpj, ?_,
                  hm0attr j (sem, aid) hpj, hbaseK j sem aid hpj⟩
                rw [hma]
                exact he0lookup j sem aid hpj
              have hmemchar : ∀ sv ∈ extAttrs, ∃ j : Nat, j < extAttrs.length ∧
                  extAttrs[j]? = some sv ∧ sv.2 = j := by
                intro sv hsv
                obtain ⟨j, hj⟩ := List.mem_iff_getElem?.mp hsv
                have hjl : j < extAttrs.length := by
                  by_contra hc
                  rw [List.getElem?_eq_none (by omega)] at hj
                  cases hj
                obtain ⟨sem, aid, _, hext2, _, _, _⟩ := hextchar j hjl
                rw [hj] at hext2
                injection hext2 with hsv2
                refine ⟨j, hjl, hj, ?_⟩
                rw [hsv2]
              obtain ⟨gltf2, hrun, hlen, hviews, hbufs, hunt, hper,
                  hmeshes2, hanims2, hused2, hreq2, hextan2⟩ :=
                decompressAttributesLoop_spec enc0 mesh0 pk extAttrs
                  { g with
                    accessors := g.accessors.set base
                      { { a0 with bufferView := obv, byteOffset := obo } with
                        bufferView := some g.bufferViews.length,
                        byteOffset := some 0 },
                    buffers := g.buffers ++
                      [{ byteLength := sourceByteLength (getIndicesBuffer
                           { a0 with bufferView := obv, byteOffset := obo } mesh0 mesh0.numFaces),
                         source := getIndicesBuffer
                           { a0 with bufferView := obv, byteOffset := obo } mesh0 mesh0.numFaces }],
                    bufferViews := g.bufferViews ++
                      [{ buffer := g.buffers.length, byteOffset := 0,
                         byteLength := sourceByteLength (getIndicesBuffer
                           { a0 with bufferView := obv, byteOffset := obo } mesh0 mesh0.numFaces) }] }
                  (by
                    intro sv hsv
                    obtain ⟨j, hjl, hj, hsv2⟩ := hmemchar sv hsv
                    obtain ⟨sem, aid, hpj, hext2, hlook2, hm0, hb2⟩ := hextchar j hjl
                    rw [hj] at hext2
                    injection hext2 with hsveq
                    constructor
                    · rw [hsv2]
                      rw [hm0]
                      rfl
                    · refine ⟨base + 1 + j, ?_, ?_⟩
                      · rw [hsveq]
                        dsimp only
                        exact hlook2
                      · simp only [List.length_set]
                        have := hJ.1
                        omega)
                  (by
                    have hmapeq : extAttrs.map (fun sv => pk.attributes.lookup sv.1) =
                        (List.range extAttrs.length).map (fun j => some (base + 1 + j)) := by
                      apply List.ext_getElem?
                      intro j
                      rw [List.getElem?_map, List.getElem?_map]
                      by_cases hjl : j < extAttrs.length
                      · obtain ⟨sem, aid, hpj, hext2, hlook2, _, _⟩ := hextchar j hjl
                        rw [hext2, List.getElem?_range hjl]
                        simp only [Option.map_some']
                        exact congrArg some hlook2
                      · rw [List.getElem?_eq_none (by omega),
                          List.getElem?_eq_none (by simp; omega)]
                        rfl
                    rw [hmapeq]
                    apply List.Nodup.map
                    · intro x y hxy
                      injection hxy with hxy2
                      omega
                    · exact List.nodup_range _)
              have h12 : gltf1 = gltf2 := by
                have := hdm.symm.trans hrun
                injection this
              subst h12
              -- final state facts
              have hNA : g.accessors.length = NA := hJ.1
              have hwritten : WrittenBlock g0 p a0 base mesh0 enc0 gltf1 := by
                constructor
                · refine ⟨g.bufferViews.length, g.buffers.length,
                    sourceByteLength (getIndicesBuffer
                      { a0 with bufferView := obv, byteOffset := obo } mesh0 mesh0.numFaces),
                    sourceByteLength (getIndicesBuffer
                      { a0 with bufferView := obv, byteOffset := obo } mesh0 mesh0.numFaces),
                    ?_, ?_, ?_⟩
                  · rw [hunt base (by
                      intro sv hsv hc
                      obtain ⟨j, hjl, hj, hsv2⟩ := hmemchar sv hsv
                      obtain ⟨sem, aid, hpj, hext2, hlook2, _, _⟩ := hextchar j hjl
                      rw [hj] at hext2
                      injection hext2 with hsveq
                      rw [hsveq] at hc
                      dsimp only at hc
                      rw [hlook2] at hc
                      injection hc with hc2
                      omega)]
                    dsimp only
                    rw [List.getElem?_set_self (by omega)]
                    rfl
                  · rw [hviews g.bufferViews.length (by
                      simp only [List.length_append, List.length_cons, List.length_nil]
                      omega)]
                    dsimp only
                    exact List.getElem?_concat_length _ _
                  · rw [hbufs g.buffers.length (by
                      simp only [List.length_append, List.length_cons, List.length_nil]
                      omega)]
                    dsimp only
                    exact List.getElem?_concat_length _ _
                · intro k sem aid hk
                  have hsvmem : (sem, k) ∈ extAttrs :=
                    List.mem_iff_getElem?.mpr ⟨k, hextk k sem aid hk⟩
                  obtain ⟨dA, aid2, aX, bvId, bufId, hdA, hlook2, haentry, hafinal,
                    hbvle, hbvv2, hbuf2⟩ := hper (sem, k) hsvmem
                  have hdAc : dA = canonAttrOf g0 (sem, aid) := by
                    have := hm0attr k (sem, aid) hk
                    dsimp only at hdA
                    rw [this] at hdA
                    injection hdA with h2
                    exact h2.symm
                  have haid2 : aid2 = base + 1 + k := by
                    rw [hma] at hlook2
                    rw [he0lookup k sem aid hk] at hlook2
                    injection hlook2 with h2
                    exact h2.symm
                  subst haid2
                  subst hdAc
                  -- identify the loop-entry accessor at base + 1 + k
                  rcases hJ.2.2.2 with hpre | hwr
                  · obtain ⟨a, ha, haC⟩ := hpre.2 k sem aid hk
                    have hentry2 : (g.accessors.set base
                        { { a0 with bufferView := obv, byteOffset := obo } with
                          bufferView := some g.bufferViews.length,
                          byteOffset := some 0 })[base + 1 + k]? = some (stripBufferView a) := by
                      rw [List.getElem?_set_ne (by omega)]
                      exact haC
                    have haXv : aX = stripBufferView a := by
                      dsimp only at haentry
                      rw [hentry2] at haentry
                      injection haentry with h2
                      exact h2.symm
                    subst haXv
                    exact ⟨a, bvId, bufId, _, _, ha, hafinal, hbvv2, hbuf2⟩
                  · obtain ⟨a, bvw, bw, L1w, L2w, ha, haccW, _, _⟩ := hwr.2 k sem aid hk
                    have hentry2 : (g.accessors.set base
                        { { a0 with bufferView := obv, byteOffset := obo } with
                          bufferView := some g.bufferViews.length,
                          byteOffset := some 0 })[base + 1 + k]? = some
                        { stripBufferView a with
                          count := mesh0.pointCount,
                          bufferView := some bvw,
                          byteOffset := some 0 } := by
                      rw [List.getElem?_set_ne (by omega)]
                      exact haccW
                    have haXv : aX = { stripBufferView a with
                        count := mesh0.pointCount,
                        bufferView := some bvw,
                        byteOffset := some 0 } := by
                      dsimp only at haentry
                      rw [hentry2] at haentry
                      injection haentry with h2
                      exact h2.symm
                    subst haXv
                    exact ⟨a, bvId, bufId, _, _, ha, hafinal, hbvv2, hbuf2⟩
              have hbv1lt : bv1 < g.bufferViews.length := by
                by_contra hc
                have := hJ.2.1
                rw [List.getElem?_eq_none (by omega)] at this
                cases this
              have hb1lt : b1 < g.buffers.length := by
                by_contra hc
                have := hJ.2.2.1
                rw [List.getElem?_eq_none (by omega)] at this
                cases this
              have hJ1 : RoundTripInv g0 p a0 base bv1 b1 L NA mesh0 enc0 gltf1 := by
                refine ⟨?_, ?_, ?_, Or.inr hwritten⟩
                · rw [hlen]
                  dsimp only
                  rw [List.length_set]
                  exact hNA
                · rw [hviews bv1 (by
                    simp only [List.length_append, List.length_cons, List.length_nil]
                    omega)]
                  dsimp only
                  rw [getElem?_append_left _ _ _ hbv1lt]
                  exact hJ.2.1
                · rw [hbufs b1 (by
                    simp only [List.length_append, List.length_cons, List.length_nil]
                    omega)]
                  dsimp only
                  rw [getElem?_append_left _ _ _ hb1lt]
                  exact hJ.2.2.1
              subst hg
              subst hpp
              exact ⟨hJ1, rfl, rfl, fun _ => hwritten, fun _ _ => hwritten⟩
        · -- the step decodes a block disjoint from the round-trip block
          have hne : (primitiveFingerprint p, e0p) ≠ (fpk, ep) := by
            intro hc
            injection hc with h1 _
            exact hfp h1.symm
          have hdisj : ∀ id ∈ footprint e0p, id ∉ footprint ep :=
            pairwise_disjoint_entries E hpairE _ _ he0 hmemE hne
          dsimp only at h
          split at h
          · exact absurd h (by simp)
          · rename_i bufferView hbvv
            split at h
            · exact absurd h (by simp)
            · rename_i buffer hbuf
              split at h
              · rename_i meshX encX hsrc
                split at h
                · exact absurd h (by simp)
                · rename_i gltf1 hdm
                  simp only [Except.ok.injEq, Prod.mk.injEq] at h
                  obtain ⟨hg, hpp, _⟩ := h
                  obtain ⟨hlen1, htv1, htb1, hunt1⟩ :=
                    decmopressDracoMesh_untouched g pk meshX encX dext gltf1 hdm
                  have huntour : ∀ i, i ∈ footprint e0p →
                      gltf1.accessors[i]? = g.accessors[i]? := by
                    intro i hif
                    apply hunt1 i
                    · intro hc
                      apply hdisj i hif
                      unfold footprint
                      rw [hmi] at hc
                      rw [hc]
                      exact List.mem_append.mpr (Or.inl (List.mem_singleton.mpr rfl))
                    · intro sv hsv hc
                      apply hdisj i hif
                      unfold footprint
                      apply List.mem_append.mpr
                      right
                      have hmem2 := lookup_mem_snd pk.attributes sv.1 i hc
                      rw [hma] at hmem2
                      exact hmem2
                  have hg'acc : g'.accessors = gltf1.accessors := by
                    rw [← hg]
                    rfl
                  have hg'bv : g'.bufferViews = gltf1.bufferViews := by
                    rw [← hg]
                    rfl
                  have hg'bf : g'.buffers = gltf1.buffers := by
                    rw [← hg]
                    rfl
                  have hwmono : WrittenBlock g0 p a0 base mesh0 enc0 g →
                      WrittenBlock g0 p a0 base mesh0 enc0 g' := by
                    intro hw
                    constructor
                    · obtain ⟨bv, b, L1, L2, hacc, hbv2, hbuf2⟩ := hw.1
                      refine ⟨bv, b, L1, L2, ?_, ?_, ?_⟩
                      · rw [hg'acc, huntour base hbase_mem]
                        exact hacc
                      · rw [hg'bv]
                        exact getElem?_mono _ _ htv1 _ _ hbv2
                      · rw [hg'bf]
                        exact getElem?_mono _ _ htb1 _ _ hbuf2
                    · intro k sem aid hk
                      obtain ⟨a, bv, b, L1, L2, ha, hacc, hbv2, hbuf2⟩ := hw.2 k sem aid hk
                      refine ⟨a, bv, b, L1, L2, ha, ?_, ?_, ?_⟩
                      · rw [hg'acc, huntour (base + 1 + k) (hattr_mem k sem aid hk)]
                        exact hacc
                      · rw [hg'bv]
                        exact getElem?_mono _ _ htv1 _ _ hbv2
                      · rw [hg'bf]
                        exact getElem?_mono _ _ htb1 _ _ hbuf2
                  refine ⟨?_, ?_, ?_, hwmono, ?_⟩
                  · refine ⟨?_, ?_, ?_, ?_⟩
                    · rw [hg'acc, hlen1]
                      exact hJ.1
                    · rw [hg'bv]
                      exact getElem?_mono _ _ htv1 _ _ hJ.2.1
                    · rw [hg'bf]
                      exact getElem?_mono _ _ htb1 _ _ hJ.2.2.1
                    · rcases hJ.2.2.2 with hpre | hwr
                      · left
                        constructor
                        · rw [hg'acc, huntour base hbase_mem]
                          exact hpre.1
                        · intro k sem aid hk
                          obtain ⟨a, ha, haC⟩ := hpre.2 k sem aid hk
                          refine ⟨a, ha, ?_⟩
                          rw [hg'acc, huntour (base + 1 + k) (hattr_mem k sem aid hk)]
                          exact haC
                      · right
                        exact hwmono hwr
                  · rw [← hpp]
                    rfl
                  · rw [← hpp]
                    rfl
                  · intro hmatch _
                    exfalso
                    have hc : ep.indices = some base := by
                      rw [← hmi, hmatch.2.1, he0ix]
                    apply hdisj base hbase_mem
                    unfold footprint
                    rw [hc]
                    exact List.mem_append.mpr (Or.inl (List.mem_singleton.mpr rfl))
              · exact absurd h (by simp)

theorem decompressPrims_roundtrip
    (g0 : Gltf) (p : Primitive) (a0 : Accessor)
    (base bv1 b1 L NA : Nat) (mesh0 : DracoMesh) (enc0 : EncoderState)
    (E : List (Fingerprint × Primitive)) (e0p : Primitive) (extAttrs : List (String × Nat))
    (hndE : (E.map Prod.fst).Nodup)
    (hpairE : List.Pairwise (fun e1 e2 => ∀ id ∈ footprint e1.2, id ∉ footprint e2.2) E)
    (he0 : (primitiveFingerprint p, e0p) ∈ E)
    (he0ix : e0p.indices = some base)
    (he0len : e0p.attributes.length = p.attributes.length)
    (he0attr : ∀ (k : Nat) (sem : String) (aid : Nat), p.attributes[k]? = some (sem, aid) →
      e0p.attributes[k]? = some (sem, base + 1 + k))
    (he0ext : e0p.extensions = some { bufferView := bv1, attributes := extAttrs })
    (hextlen : extAttrs.length = p.attributes.length)
    (hextk : ∀ (k : Nat) (sem : String) (aid : Nat), p.attributes[k]? = some (sem, aid) →
      extAttrs[k]? = some (sem, k))
    (hm0attr : ∀ (k : Nat) (sv : String × Nat), p.attributes[k]? = some sv →
      mesh0.attrs[k]? = some (canonAttrOf g0 sv))
    (hpnd : (p.attributes.map Prod.fst).Nodup)
    (hbase : base < NA)
    (hbaseK : ∀ (k : Nat) (sem : String) (aid : Nat), p.attributes[k]? = some (sem, aid) →
      base + 1 + k < NA) :
    ∀ (ps : List Primitive) (g g' : Gltf) (out : List Primitive) (flags : List Bool),
    decompressPrims g ps = Except.ok (g', out, flags) →
    (∀ (k : Nat) (pk : Primitive), ps[k]? = some pk → OutputChar E pk) →
    RoundTripInv g0 p a0 base bv1 b1 L NA mesh0 enc0 g →
    RoundTripInv g0 p a0 base bv1 b1 L NA mesh0 enc0 g' ∧
    out.length = ps.length ∧
    (∀ (k : Nat) (pk : Primitive), ps[k]? = some pk →
      ∃ q : Primitive, out[k]? = some q ∧ q.attributes = pk.attributes ∧ q.indices = pk.indices) ∧
    (WrittenBlock g0 p a0 base mesh0 enc0 g → WrittenBlock g0 p a0 base mesh0 enc0 g') ∧
    (∀ (k : Nat) (pk : Primitive), ps[k]? = some pk → MatchesPrim e0p pk →
      modeSkipsDecompression pk = false → WrittenBlock g0 p a0 base mesh0 enc0 g') := by
  intro ps
  induction ps with
  | nil =>
    intro g g' out flags hrun _ hJ
    simp only [decompressPrims, Except.ok.injEq, Prod.mk.injEq] at hrun
    obtain ⟨hg, hout, _⟩ := hrun
    subst hg
    subst hout
    exact ⟨hJ, rfl, fun k pk hp => by simp at hp, fun hw => hw, fun k pk hp => by simp at hp⟩
  | cons prim rest ih =>
    intro g g' out flags hrun hchar hJ
    unfold decompressPrims at hrun
    split at hrun
    case h_1 => exact absurd hrun (by simp)
    case h_2 g1 p1 flag hstep =>
      split at hrun
      case h_1 => exact absurd hrun (by simp)
      case h_2 g2 rest1 flags1 hrest =>
        simp only [Except.ok.injEq, Prod.mk.injEq] at hrun
        obtain ⟨hg, hout, _⟩ := hrun
        subst hg
        subst hout
        obtain ⟨hJ1, hpa, hpi, hwm1, hwr1⟩ :=
          decompressPrimitive_roundtrip_step g0 p a0 base bv1 b1 L NA mesh0 enc0 E e0p extAttrs
            hndE hpairE he0 he0ix he0len he0attr he0ext hextlen hextk hm0attr hpnd hbase hbaseK
            g g1 prim p1 flag hstep (hchar 0 prim (by simp)) hJ
        obtain ⟨hJ2, hlen2, hq2, hwm2, hwr2⟩ :=
          ih g1 g2 rest1 flags1 hrest (fun k pk hp => hchar (k + 1) pk (by simpa using hp)) hJ1
        refine ⟨hJ2, by simp [hlen2], ?_, fun hw => hwm2 (hwm1 hw), ?_⟩
        · intro k pk hp
          cases k with
          | zero =>
            simp only [List.getElem?_cons_zero, Option.some.injEq] at hp
            subst hp
            exact ⟨p1, by simp, hpa, hpi⟩
          | succ k1 =>
            simp only [List.getElem?_cons_succ] at hp
            obtain ⟨q, hq, h1, h2⟩ := hq2 k1 pk hp
            exact ⟨q, by simpa using hq, h1, h2⟩
        · intro k pk hp hmm hmf
          cases k with
          | zero =>
            simp only [List.getElem?_cons_zero, Option.some.injEq] at hp
            subst hp
            exact hwm2 (hwr1 hmm hmf)
          | succ k1 =>
            simp only [List.getElem?_cons_succ] at hp
            exact hwr2 k1 pk hp hmm hmf

theorem decompressMeshes_roundtrip
    (g0 : Gltf) (p : Primitive) (a0 : Accessor)
    (base bv1 b1 L NA : Nat) (mesh0 : DracoMesh) (enc0 : EncoderState)
    (E : List (Fingerprint × Primitive)) (e0p : Primitive) (extAttrs : List (String × Nat))
    (hndE : (E.map Prod.fst).Nodup)
    (hpairE : List.Pairwise (fun e1 e2 => ∀ id ∈ footprint e1.2, id ∉ footprint e2.2) E)
    (he0 : (primitiveFingerprint p, e0p) ∈ E)
    (he0ix : e0p.indices = some base)
    (he0len : e0p.attributes.length = p.attributes.length)
    (he0attr : ∀ (k : Nat) (sem : String) (aid : Nat), p.attributes[k]? = some (sem, aid) →
      e0p.attributes[k]? = some (sem, base + 1 + k))
    (he0ext : e0p.extensions = some { bufferView := bv1, attributes := extAttrs })
    (hextlen : extAttrs.length = p.attributes.length)
    (hextk : ∀ (k : Nat) (sem : String) (aid : Nat), p.attributes[k]? = some (sem, aid) →
      extAttrs[k]? = some (sem, k))
    (hm0attr : ∀ (k : Nat) (sv : String × Nat), p.attributes[k]? = some sv →
      mesh0.attrs[k]? = some (canonAttrOf g0 sv))
    (hpnd : (p.attributes.map Prod.fst).Nodup)
    (hbase : base < NA)
    (hbaseK : ∀ (k : Nat) (sem : String) (aid : Nat), p.attributes[k]? = some (sem, aid) →
      base + 1 + k < NA) :
    ∀ (ms : List GltfMesh) (g g' : Gltf) (out : List GltfMesh) (flags : List Bool),
    decompressMeshes g ms = Except.ok (g', out, flags) →
    (∀ (mi k : Nat) (m : GltfMesh) (pk : Primitive), ms[mi]? = some m →
      m.primitives[k]? = some pk → OutputChar E pk) →
    RoundTripInv g0 p a0 base bv1 b1 L NA mesh0 enc0 g →
    RoundTripInv g0 p a0 base bv1 b1 L NA mesh0 enc0 g' ∧
    (∀ (mi k : Nat) (m : GltfMesh) (pk : Primitive), ms[mi]? = some m →
      m.primitives[k]? = some pk →
      ∃ q : Primitive, (out[mi]?).bind (fun mm => mm.primitives[k]?) = some q ∧
        q.attributes = pk.attributes ∧ q.indices = pk.indices) ∧
    (WrittenBlock g0 p a0 base mesh0 enc0 g → WrittenBlock g0 p a0 base mesh0 enc0 g') ∧
    (∀ (mi k : Nat) (m : GltfMesh) (pk : Primitive), ms[mi]? = some m →
      m.primitives[k]? = some pk → MatchesPrim e0p pk →
      modeSkipsDecompression pk = false → WrittenBlock g0 p a0 base mesh0 enc0 g') := by
  intro ms
  induction ms with
  | nil =>
    intro g g' out flags hrun _ hJ
    simp only [decompressMeshes, Except.ok.injEq, Prod.mk.injEq] at hrun
    obtain ⟨hg, hout, _⟩ := hrun
    subst hg
    subst hout
    exact ⟨hJ, fun mi k m pk hm => by simp at hm, fun hw => hw,
      fun mi k m pk hm => by simp at hm⟩
  | cons m0 rest ih =>
    intro g g' out flags hrun hchar hJ
    unfold decompressMeshes at hrun
    split at hrun
    case h_1 => exact absurd hrun (by simp)
    case h_2 g1 prims1 flags1 hstep =>
      split at hrun
      case h_1 => exact absurd hrun (by simp)
      case h_2 g2 rest1 flags2 hrest =>
        simp only [Except.ok.injEq, Prod.mk.injEq] at hrun
        obtain ⟨hg, hout, _⟩ := hrun
        subst hg
        subst hout
        obtain ⟨hJ1, hlen1, hq1, hwm1, hwr1⟩ :=
          decompressPrims_roundtrip g0 p a0 base bv1 b1 L NA mesh0 enc0 E e0p extAttrs
            hndE hpairE he0 he0ix he0len he0attr he0ext hextlen hextk hm0attr hpnd hbase hbaseK
            m0.primitives g g1 prims1 flags1 hstep
            (fun k pk hp => hchar 0 k m0 pk (by simp) hp) hJ
        obtain ⟨hJ2, hq2, hwm2, hwr2⟩ :=
          ih g1 g2 rest1 flags2 hrest
            (fun mi k m pk hm hp => hchar (mi + 1) k m pk (by simpa using hm) hp) hJ1
        refine ⟨hJ2, ?_, fun hw => hwm2 (hwm1 hw), ?_⟩
        · intro mi k m pk hm hp
          cases mi with
          | zero =>
            simp only [List.getElem?_cons_zero, Option.some.injEq] at hm
            subst hm
            obtain ⟨q, hq, h1, h2⟩ := hq1 k pk hp
            exact ⟨q, by simpa using hq, h1, h2⟩
          | succ mi1 =>
            simp only [List.getElem?_cons_succ] at hm
            obtain ⟨q, hq, h1, h2⟩ := hq2 mi1 k m pk hm hp
            exact ⟨q, by simpa using hq, h1, h2⟩
        · intro mi k m pk hm hp hmm hmf
          cases mi with
          | zero =>
            simp only [List.getElem?_cons_zero, Option.some.injEq] at hm
            subst hm
            exact hwm2 (hwr1 k pk hp hmm hmf)
          | succ mi1 =>
            simp only [List.getElem?_cons_succ] at hm
            exact hwr2 mi1 k m pk hm hp hmm hmf

theorem written_index_read (g0 : Gltf) (a0 : Accessor) (mesh0 : DracoMesh) (g : Gltf)
    (base bv b L1 L2 : Nat)
    (hacc : g.accessors[base]? = some
      { stripBufferView a0 with bufferView := some bv, byteOffset := some 0 })
    (hbv : g.bufferViews[bv]? = some { buffer := b, byteOffset := 0, byteLength := L1 })
    (hbuf : g.buffers[b]? = some
      { byteLength := L2, source := getIndicesBuffer a0 mesh0 mesh0.numFaces })
    (hict : a0.componentType = 5121 ∨ a0.componentType = 5123 ∨ a0.componentType = 5125)
    (hitype : a0.type = "SCALAR")
    (hfaces : mesh0.faces = ((readAccessorPacked g0 a0).map (fun v => toBits 32 v)).take
      (3 * ((readAccessorPacked g0 a0).length / 3)))
    (hnf : mesh0.numFaces = (readAccessorPacked g0 a0).length / 3)
    (hilen : (readAccessorPacked g0 a0).length = a0.count)
    (hidiv : 3 ∣ a0.count)
    (hirange : ∀ v ∈ readAccessorPacked g0 a0, 0 ≤ v ∧ v < 2 ^ ctWidth a0.componentType) :
    accessorDataAt g base = readAccessorPacked g0 a0 := by
  have hsigned : ctSigned a0.componentType = false := by
    rcases hict with h | h | h <;> rw [h] <;> decide
  have hweq : indexArrayWidth a0.componentType = ctWidth a0.componentType :=
    indexArrayWidth_eq_ctWidth _ hict
  have hwcases : ctWidth a0.componentType = 8 ∨ ctWidth a0.componentType = 16 ∨
      ctWidth a0.componentType = 32 := by
    rcases hict with h | h | h <;> rw [h]
    · left; rfl
    · right; left; rfl
    · right; right; rfl
  have hfaces2 : mesh0.faces = (readAccessorPacked g0 a0).map (fun v => toBits 32 v) := by
    have h3 : 3 * ((readAccessorPacked g0 a0).length / 3) =
        (readAccessorPacked g0 a0).length := by
      rw [hilen]
      exact Nat.mul_div_cancel' hidiv
    rw [hfaces, h3]
    exact List.take_of_length_le (by simp)
  have hnum : mesh0.numFaces * 3 = (readAccessorPacked g0 a0).length := by
    rw [hnf, hilen]
    omega
  unfold accessorDataAt
  rw [hacc]
  conv_lhs => unfold readAccessorPacked
  simp only [stripBufferView, hbv, hbuf, getIndicesBuffer, Option.getD_some,
    Nat.zero_add, Nat.add_zero, Nat.zero_div, List.drop_zero]
  rw [if_pos hweq]
  rw [hitype]
  have hnc : numberOfComponentsForType "SCALAR" = 1 := rfl
  rw [hnc]
  simp only [Nat.zero_add, Nat.zero_div, List.drop_zero, Nat.mul_one]
  have hlen1 : ((List.range (mesh0.numFaces * 3)).map (fun i =>
      toBits (indexArrayWidth a0.componentType)
        (int32View (mesh0.faces.getD i 0)))).length = a0.count := by
    rw [List.length_map, List.length_range, hnum, hilen]
  rw [List.take_of_length_le (le_of_eq hlen1)]
  apply List.ext_getElem
  · rw [List.length_map, List.length_map, List.length_range, hnum]
  · intro i h1 h2
    simp only [List.getElem_map, List.getElem_range]
    have hi : i < (readAccessorPacked g0 a0).length := by simpa using h2
    have hgd : mesh0.faces.getD i 0 = toBits 32 ((readAccessorPacked g0 a0).get ⟨i, hi⟩) := by
      rw [hfaces2, List.getD_eq_getElem?_getD, List.getElem?_map,
        List.getElem?_eq_getElem hi]
      rfl
    rw [hgd, hsigned, hweq]
    exact index_elem_roundtrip _ hwcases _
      (hirange _ (List.get_mem _ _ hi))

theorem written_attr_read (g0 : Gltf) (sem : String) (aid : Nat) (a : Accessor)
    (mesh0 : DracoMesh) (enc0 : EncoderState) (g : Gltf) (idx bv b L1 L2 c : Nat)
    (ha : g0.accessors[aid]? = some a)
    (hacc : g.accessors[idx]? = some
      { stripBufferView a with
        count := mesh0.pointCount,
        bufferView := some bv,
        byteOffset := some 0 })
    (hbv : g.bufferViews[bv]? = some { buffer := b, byteOffset := 0, byteLength := L1 })
    (hbuf : g.buffers[b]? = some
      { byteLength := L2, source := getAttributeBuffer enc0 mesh0 (canonAttrOf g0 (sem, aid)) })
    (hq0 : ∀ t, enc0.quantBitsFor t = 0)
    (hfn : (getAddAttributeFunctionName a.componentType).isSome)
    (hcount : a.count = c)
    (hpc : mesh0.pointCount = c)
    (hlen : (readAccessorPacked g0 a).length = c * numberOfComponentsForType a.type)
    (hrange : ∀ v ∈ readAccessorPacked g0 a, inRangeCT a.componentType v) :
    accessorDataAt g idx = readAccessorPacked g0 a := by
  obtain ⟨fn, hfneq⟩ := Option.isSome_iff_exists.mp hfn
  have hcta : createTypedArray a.componentType (readAccessorPacked g0 a) =
      readAccessorPacked g0 a := by
    unfold createTypedArray
    have := List.map_congr_left (l := readAccessorPacked g0 a)
      (f := fun v => fromBits (ctSigned a.componentType) (ctWidth a.componentType)
        (toBits (ctWidth a.componentType) v)) (g := id)
      (fun v hv => fromBits_toBits_ct a.componentType v (hrange v hv))
    rw [this, List.map_id]
  have hdA : canonAttrOf g0 (sem, aid) =
      { attrType := attributeEnumOf (attributeNameOf sem),
        dataType := addAttributeDataType fn,
        numPoints := a.count,
        numComponents := numberOfComponentsForType a.type,
        values := readAccessorPacked g0 a } := by
    unfold canonAttrOf
    rw [ha]
    dsimp only
    rw [hfneq]
    dsimp only [Option.getD]
    rw [hcta]
  have hwidth : attributeArrayWidth (addAttributeDataType fn) = ctWidth a.componentType :=
    attr_width_eq a.componentType fn hfneq
  rw [hdA] at hbuf
  have hdec : decodedAttrValues enc0
      { attrType := attributeEnumOf (attributeNameOf sem),
        dataType := addAttributeDataType fn,
        numPoints := a.count,
        numComponents := numberOfComponentsForType a.type,
        values := readAccessorPacked g0 a } = readAccessorPacked g0 a :=
    decodedAttrValues_zero _ _ hq0
  rw [getAttributeBuffer_words enc0 mesh0 _ (by
    rw [hdec]
    dsimp only
    rw [hlen, hpc])] at hbuf
  rw [hdec] at hbuf
  unfold accessorDataAt
  rw [hacc]
  conv_lhs => unfold readAccessorPacked
  simp only [stripBufferView, hbv, hbuf, Option.getD_some,
    Nat.zero_add, Nat.add_zero, Nat.zero_div, List.drop_zero]
  rw [if_pos hwidth]
  rw [hpc]
  rw [List.take_of_length_le (by
    rw [List.length_map, hlen])]
  rw [hwidth]
  have hcomp : ((readAccessorPacked g0 a).map
      (fun v => toBits (ctWidth a.componentType) v)).map
      (fun b2 => fromBits (ctSigned a.componentType) (ctWidth a.componentType) b2) =
      (readAccessorPacked g0 a).map
        (fun v => fromBits (ctSigned a.componentType) (ctWidth a.componentType)
          (toBits (ctWidth a.componentType) v)) := by
    rw [List.map_map]
    rfl
  rw [hcomp]
  have := List.map_congr_left (l := readAccessorPacked g0 a)
    (f := fun v => fromBits (ctSigned a.componentType) (ctWidth a.componentType)
      (toBits (ctWidth a.componentType) v)) (g := id)
    (fun v hv => fromBits_toBits_ct a.componentType v (hrange v hv))
  rw [this, List.map_id]

/-- C1: a primitive eligible for compression (mode TRIANGLES or undefined,
indices defined) that is compressed with every quantization bit depth
resolved to 0 and then decompressed reads back exactly: the final asset's
primitive at the same position yields the original index sequence and, for
every attribute semantic, the original numeric values (raw 32-bit patterns
for floats, exact values for integers), under the natural wellformedness of
the original asset (resolvable accessors of supported component types with
a common point count, in-range stored values, unique attribute semantics,
no pre-existing compression extensions). -/
theorem C1_zero_quantization_roundtrip
    (gltf : Gltf) (options : Option PipelineOptions) (g2 g3 : Gltf)
    (mi pi : Nat) (p : Primitive) (ix0 : Nat) (a0 : Accessor) (c : Nat)
    (hp : primitiveAt gltf mi pi = some p)
    (hmode : p.mode = none ∨ p.mode = some WebGL_TRIANGLES)
    (hix : p.indices = some ix0)
    (ha0 : gltf.accessors[ix0]? = some a0)
    (hict : a0.componentType = 5121 ∨ a0.componentType = 5123 ∨ a0.componentType = 5125)
    (hitype : a0.type = "SCALAR")
    (hilen : (readAccessorPacked gltf a0).length = a0.count)
    (hidiv : 3 ∣ a0.count)
    (hirange : ∀ v ∈ readAccessorPacked gltf a0, 0 ≤ v ∧ v < 2 ^ ctWidth a0.componentType)
    (hirefs : refsValid gltf a0)
    (hpnd : (p.attributes.map Prod.fst).Nodup)
    (hpos : ∃ sv ∈ p.attributes, attributeEnumOf (attributeNameOf sv.1) = dracoPOSITION)
    (hattrs : ∀ sv ∈ p.attributes, ∃ a, gltf.accessors[sv.2]? = some a ∧
      (getAddAttributeFunctionName a.componentType).isSome ∧ a.count = c ∧
      refsValid gltf a ∧
      (readAccessorPacked gltf a).length = c * numberOfComponentsForType a.type ∧
      ∀ v ∈ readAccessorPacked gltf a, inRangeCT a.componentType v)
    (hglob : ∀ (mj pj : Nat) (pk : Primitive), primitiveAt gltf mj pj = some pk →
      pk.extensions = none ∧ (pk.attributes.map Prod.fst).Nodup)
    (hq : resolvedQuantizePositionBits options = 0 ∧ resolvedQuantizeNormalBits options = 0 ∧
      resolvedQuantizeTexcoordBits options = 0 ∧ resolvedQuantizeColorBits options = 0 ∧
      resolvedQuantizeGenericBits options = 0)
    (hcomp : compressDracoMeshes gltf options = Except.ok g2)
    (hdec : decompressDracoMeshes g2 none = Except.ok g3) :
    ∃ p2 : Primitive, primitiveAt g3 mi pi = some p2 ∧
      primitiveIndexData g3 p2 = primitiveIndexData gltf p ∧
      ∀ sem ∈ p.attributes.map Prod.fst,
        primitiveAttributeData g3 p2 sem = primitiveAttributeData gltf p sem := by
  unfold compressDracoMeshes at hcomp
  cases hr : compressDracoMeshesRun gltf options with
  | error e =>
    rw [hr] at hcomp
    exact absurd hcomp (by simp)
  | ok v =>
    obtain ⟨g2x, log⟩ := v
    rw [hr] at hcomp
    simp only [Except.ok.injEq] at hcomp
    subst hcomp
    obtain ⟨cfg, st1, meshes1, hmeshes, hc1, hc2, hc3, hc4, hc5, hgm, hga, hgb, hgv, hlog⟩ :=
      compressDracoMeshesRun_okq gltf options g2x log hr
    have hcfgq : cfg.quantizePositionBits = 0 ∧ cfg.quantizeNormalBits = 0 ∧
        cfg.quantizeTexcoordBits = 0 ∧ cfg.quantizeColorBits = 0 ∧
        cfg.quantizeGenericBits = 0 := by
      rw [hc1, hc2, hc3, hc4, hc5]
      exact hq
    have hinv0 : CInv gltf { gltf := gltf } := by
      refine ⟨⟨rfl, List.nodup_nil, ?_⟩, ⟨[], by simp⟩, ⟨[], by simp⟩, ⟨[], by simp⟩, ?_, ?_⟩
      · intro fpp hf
        cases hf
      · intro e he
        cases he
      · exact List.Pairwise.nil
    have hcanon0 : CanonFp0 gltf p a0 { gltf := gltf } := by
      intro q hq2
      simp [findFingerprint] at hq2
    have hwfp : PrimWF gltf p ix0 a0 c := by
      refine ⟨hix, ha0, hirefs, ?_⟩
      intro sv hsv
      obtain ⟨a, ha, hf, hcnt, hrefs, _, _⟩ := hattrs sv hsv
      exact ⟨a, ha, hf, hcnt, hrefs⟩
    have hps : ∀ (mj k : Nat) (m : GltfMesh) (pk : Primitive), gltf.meshes[mj]? = some m →
        m.primitives[k]? = some pk →
        pk.extensions = none ∧ (pk.attributes.map Prod.fst).Nodup := by
      intro mj k m pk hm hpk
      refine hglob mj k pk ?_
      unfold primitiveAt
      rw [hm]
      simpa using hpk
    obtain ⟨hinv1, hcanon1, ⟨tE, htE⟩, hlenM, hmlen, hcharM, heligM⟩ :=
      compressMeshes_main gltf p ix0 a0 c cfg hwfp hcfgq gltf.meshes { gltf := gltf }
        st1 meshes1 hmeshes hinv0 hcanon0 hps
    obtain ⟨m, hm, hpm⟩ : ∃ m, gltf.meshes[mi]? = some m ∧ m.primitives[pi]? = some p := by
      unfold primitiveAt at hp
      cases hmm : gltf.meshes[mi]? with
      | none =>
        rw [hmm] at hp
        cases hp
      | some m =>
        rw [hmm] at hp
        exact ⟨m, rfl, by simpa using hp⟩
    have hmodeC : modeSkipsCompression p = false := by
      rcases hmode with h | h <;> simp [modeSkipsCompression, h, WebGL_TRIANGLES]
    obtain ⟨q, e0p, hqat, hfe, hqa, hqi, hqe, hqm⟩ :=
      heligM mi pi m p hm hpm hmodeC (by rw [hix]; simp)
    obtain ⟨base, bv1, b1, L, mesh0, enc0, hN0, he0ix, hstrip, he0len, h5,
      ⟨extAttrs, he0ext, hextlen, hextk⟩, hbv1, hb1, hq0, hfaces, hnf, hm0len, hm0attr⟩ :=
      hcanon1 e0p hfe
    have he0attrQ : ∀ (k : Nat) (sem : String) (aid : Nat),
        p.attributes[k]? = some (sem, aid) →
        e0p.attributes[k]? = some (sem, base + 1 + k) :=
      fun k sem aid hk => (h5 k sem aid hk).1
    have hstripK : ∀ (k : Nat) (sem : String) (aid : Nat),
        p.attributes[k]? = some (sem, aid) →
        ∃ a, gltf.accessors[aid]? = some a ∧
          st1.gltf.accessors[base + 1 + k]? = some (stripBufferView a) :=
      fun k sem aid hk => (h5 k sem aid hk).2
    have hmemE : (primitiveFingerprint p, e0p) ∈ st1.hashPrimitives :=
      findFingerprint_mem _ _ _ hfe
    have hewf := hinv1.2.2.2.2.1 _ hmemE
    have hbaseN : base < st1.gltf.accessors.length := by
      have hbm : base ∈ footprint e0p := by
        unfold footprint
        rw [he0ix]
        exact List.mem_append.mpr (Or.inl (List.mem_singleton.mpr rfl))
      exact (hewf.2.2 base hbm).2
    have hbaseKN : ∀ (k : Nat) (sem : String) (aid : Nat), p.attributes[k]? = some (sem, aid) →
        base + 1 + k < st1.gltf.accessors.length := by
      intro k sem aid hk
      have hmem2 : base + 1 + k ∈ footprint e0p := by
        unfold footprint
        apply List.mem_append.mpr
        right
        exact List.mem_map.mpr ⟨(sem, base + 1 + k),
          List.mem_iff_getElem?.mpr ⟨k, he0attrQ k sem aid hk⟩, rfl⟩
      exact (hewf.2.2 _ hmem2).2
    unfold decompressDracoMeshes at hdec
    cases hdr : decompressDracoMeshesRun g2x with
    | error e =>
      rw [hdr] at hdec
      exact absurd hdec (by simp)
    | ok v2 =>
      obtain ⟨g3x, flags⟩ := v2
      rw [hdr] at hdec
      simp only [Except.ok.injEq] at hdec
      subst hdec
      obtain ⟨gdec, meshesOut, hdm, hg3⟩ := decompressDracoMeshesRun_ok g2x g3x flags hdr
      have hJ0 : RoundTripInv gltf p a0 base bv1 b1 L st1.gltf.accessors.length
          mesh0 enc0 g2x := by
        refine ⟨by rw [hga], ?_, ?_, Or.inl ⟨?_, ?_⟩⟩
        · rw [hgv]
          exact hbv1
        · rw [hgb]
          exact hb1
        · rw [hga]
          exact hstrip
        · intro k sem aid hk
          obtain ⟨a, ha, haC⟩ := hstripK k sem aid hk
          exact ⟨a, ha, by rw [hga]; exact haC⟩
      have hcharE : ∀ (mj k : Nat) (m2 : GltfMesh) (pk : Primitive),
          g2x.meshes[mj]? = some m2 → m2.primitives[k]? = some pk →
          OutputChar st1.hashPrimitives pk := by
        intro mj k m2 pk hm2 hpk2
        rw [hgm] at hm2
        have hmjlt : mj < meshes1.length := by
          by_contra hc
          rw [List.getElem?_eq_none (by omega)] at hm2
          cases hm2
        have hmjin : mj < gltf.meshes.length := by omega
        obtain ⟨mIn, hmIn⟩ : ∃ mIn, gltf.meshes[mj]? = some mIn :=
          ⟨_, List.getElem?_eq_getElem hmjin⟩
        obtain ⟨m2x, hm2x, hm2len⟩ := hmlen mj mIn hmIn
        have hm2eq : m2x = m2 := by
          rw [hm2x] at hm2
          injection hm2
        subst hm2eq
        have hklt : k < mIn.primitives.length := by
          rw [← hm2len]
          by_contra hc
          rw [List.getElem?_eq_none (by omega)] at hpk2
          cases hpk2
        obtain ⟨pIn, hpIn⟩ : ∃ pIn, mIn.primitives[k]? = some pIn :=
          ⟨_, List.getElem?_eq_getElem hklt⟩
        have hbind : (meshes1[mj]?).bind (fun m' => m'.primitives[k]?) = some pk := by
          rw [hm2x]
          simpa using hpk2
        rcases hcharM mj k mIn pIn pk hmIn hpIn hbind with hnone | ⟨e, hfe2, ha2, hi2, he2⟩
        · exact Or.inl hnone
        · exact Or.inr ⟨primitiveFingerprint pIn, e, findFingerprint_mem _ _ _ hfe2,
            ha2, hi2, he2⟩
      obtain ⟨hJf, hqpos, hwm, hwrAll⟩ :=
        decompressMeshes_roundtrip gltf p a0 base bv1 b1 L st1.gltf.accessors.length
          mesh0 enc0 st1.hashPrimitives e0p extAttrs
          hinv1.1.2.1 hinv1.2.2.2.2.2 hmemE he0ix he0len he0attrQ he0ext hextlen hextk
          hm0attr hpnd hbaseN hbaseKN
          g2x.meshes g2x gdec meshesOut flags hdm hcharE hJ0
      obtain ⟨m2, hm2, hq2⟩ : ∃ m2, g2x.meshes[mi]? = some m2 ∧ m2.primitives[pi]? = some q := by
        rw [hgm]
        cases hmm : meshes1[mi]? with
        | none =>
          rw [hmm] at hqat
          cases hqat
        | some mm =>
          rw [hmm] at hqat
          exact ⟨mm, rfl, by simpa using hqat⟩
      obtain ⟨p2, hp2pos, hp2a, hp2i⟩ := hqpos mi pi m2 q hm2 hq2
      have hmodeD : modeSkipsDecompression q = false := by
        rcases hmode with h | h <;>
          simp [modeSkipsDecompression, hqm, h, WebGL_TRIANGLES]
      have hwf : WrittenBlock gltf p a0 base mesh0 enc0 gdec :=
        hwrAll mi pi m2 q hm2 hq2 ⟨hqa, hqi, hqe⟩ hmodeD
      have hpc : mesh0.pointCount = c := by
        obtain ⟨sv0, hsv0m, _⟩ := hpos
        have hlen0 : 0 < p.attributes.length := List.length_pos.mpr (by
          intro hc
          rw [hc] at hsv0m
          cases hsv0m)
        obtain ⟨sem0, aid0, h0⟩ : ∃ sem0 aid0, p.attributes[0]? = some (sem0, aid0) := by
          rw [List.getElem?_eq_getElem hlen0]
          exact ⟨_, _, rfl⟩
        have hm00 := hm0attr 0 (sem0, aid0) h0
        obtain ⟨a, haacc, _, hcnt, _, _, _⟩ :=
          hattrs (sem0, aid0) (List.mem_iff_getElem?.mpr ⟨0, h0⟩)
        unfold DracoMesh.pointCount
        rw [List.head?_eq_getElem?, hm00]
        simp only [Option.map_some', Option.getD_some]
        unfold canonAttrOf
        rw [haacc]
        exact hcnt
      subst hg3
      refine ⟨p2, ?_, ?_, ?_⟩
      · unfold primitiveAt
        exact hp2pos
      · unfold primitiveIndexData
        rw [hp2i, hqi, he0ix, hix]
        dsimp only
        obtain ⟨bvw, bw, L1w, L2w, haccW, hbvW, hbufW⟩ := hwf.1
        have hlhs := written_index_read gltf a0 mesh0
          { gdec with meshes := meshesOut } base bvw bw L1w L2w
          haccW hbvW hbufW hict hitype hfaces hnf hilen hidiv hirange
        rw [hlhs]
        unfold accessorDataAt
        rw [ha0]
      · intro sem hsem
        obtain ⟨sv, hmemsv, hfst⟩ := List.mem_map.mp hsem
        obtain ⟨sem2, aid⟩ := sv
        dsimp only at hfst
        subst hfst
        obtain ⟨k, hk⟩ := List.mem_iff_getElem?.mp hmemsv
        have he0keys : e0p.attributes.map Prod.fst = p.attributes.map Prod.fst := by
          apply map_fst_eq_of_spec _ _ he0len
          intro k2 sem3 aid3 hk2
          exact ⟨base + 1 + k2, he0attrQ k2 sem3 aid3 hk2⟩
        have he0nd : (e0p.attributes.map Prod.fst).Nodup := by
          rw [he0keys]
          exact hpnd
        obtain ⟨a, bvw, bw, L1w, L2w, haG, haccW, hbvW, hbufW⟩ := hwf.2 k sem2 aid hk
        obtain ⟨a2, ha2, hfn2, hcnt2, _, hlen2, hrange2⟩ := hattrs (sem2, aid) hmemsv
        have ha2eq : a = a2 := by
          rw [haG] at ha2
          exact Option.some.inj ha2
        subst ha2eq
        unfold primitiveAttributeData
        rw [hp2a, hqa]
        rw [lookup_of_getElem_nodup _ k _ _ (he0attrQ k sem2 aid hk) he0nd]
        rw [lookup_of_getElem_nodup _ k _ _ hk hpnd]
        dsimp only
        have hlhs := written_attr_read gltf sem2 aid a mesh0 enc0
          { gdec with meshes := meshesOut } (base + 1 + k) bvw bw L1w L2w c
          haG haccW hbvW hbufW hq0 hfn2 hcnt2 hpc hlen2 hrange2
        rw [hlhs]
        unfold accessorDataAt
        rw [haG]

/-- A one-primitive triangle asset: one VEC3 float POSITION accessor
(raw patterns 1, 2, 3) and one SCALAR uint16 index accessor (0, 0, 0). -/
def accPosC1 : Accessor :=
  { bufferView := some 0, byteOffset := some 0, componentType := 5126, count := 1, type := "VEC3" }

def accIxC1 : Accessor :=
  { bufferView := some 1, byteOffset := some 0, componentType := 5123, count := 3, type := "SCALAR" }

def primC1 : Primitive :=
  { attributes := [("POSITION", 0)], indices := some 1, mode := some 4 }

def gltfC1 : Gltf :=
  { accessors := [accPosC1, accIxC1],
    buffers :=
      [{ byteLength := 12, source := Source.words 32 [1, 2, 3] },
       { byteLength := 6, source := Source.words 16 [0, 0, 0] }],
    bufferViews :=
      [{ buffer := 0, byteOffset := 0, byteLength := 12 },
       { buffer := 1, byteOffset := 0, byteLength := 6 }],
    meshes := [{ primitives := [primC1] }] }

def dracoOptC1 : DracoOptions :=
  { quantizePositionBits := some 0, quantizeNormalBits := some 0,
    quantizeTexcoordBits := some 0, quantizeColorBits := some 0,
    quantizeGenericBits := some 0 }

def optC1 : Option PipelineOptions :=
  some { dracoOptions := some dracoOptC1 }

/-- The encoder settings and codec mesh the compression pass produces for
`gltfC1` under `optC1`. -/
def encC1 : EncoderState :=
  { speed := 3, posQuantBits := 0, posQuantUnified := none, normQuantBits := 0,
    texQuantBits := 0, colorQuantBits := 0, genericQuantBits := 0,
    seqEncoding := false, trackEncodedProperties := true }

def meshC1 : DracoMesh :=
  { numFaces := 1, faces := [0, 0, 0],
    attrs := [{ attrType := 0, dataType := 9, numPoints := 1, numComponents := 3,
                values := [1, 2, 3] }] }

/-- The compressed asset `compressDracoMeshes gltfC1 optC1` evaluates to. -/
def g2C1 : Gltf :=
  { accessors :=
      [accPosC1, accIxC1,
       { bufferView := none, byteOffset := none, componentType := 5123, count := 3,
         type := "SCALAR" },
       { bufferView := none, byteOffset := none, componentType := 5126, count := 1,
         type := "VEC3" }],
    buffers :=
      [{ byteLength := 12, source := Source.words 32 [1, 2, 3] },
       { byteLength := 6, source := Source.words 16 [0, 0, 0] },
       { byteLength := 7, source := Source.draco meshC1 encC1 }],
    bufferViews :=
      [{ buffer := 0, byteOffset := 0, byteLength := 12 },
       { buffer := 1, byteOffset := 0, byteLength := 6 },
       { buffer := 2, byteOffset := 0, byteLength := 7 }],
    meshes :=
      [{ primitives :=
          [{ attributes := [("POSITION", 3)], indices := some 2, mode := some 4,
             extensions := some { bufferView := 2, attributes := [("POSITION", 0)] } }] }],
    extensionsUsed := ["KHR_draco_mesh_compression"],
    extensionsRequired := ["KHR_draco_mesh_compression"] }

/-- The decompressed asset `decompressDracoMeshes g2C1 none` evaluates to. -/
def g3C1 : Gltf :=
  { accessors :=
      [accPosC1, accIxC1,
       { bufferView := some 3, byteOffset := some 0, componentType := 5123, count := 3,
         type := "SCALAR" },
       { bufferView := some 4, byteOffset := some 0, componentType := 5126, count := 1,
         type := "VEC3" }],
    buffers :=
      [{ byteLength := 12, source := Source.words 32 [1, 2, 3] },
       { byteLength := 6, source := Source.words 16 [0, 0, 0] },
       { byteLength := 7, source := Source.draco meshC1 encC1 },
       { byteLength := 6, source := Source.words 16 [0, 0, 0] },
       { byteLength := 12, source := Source.words 32 [1, 2, 3] }],
    bufferViews :=
      [{ buffer := 0, byteOffset := 0, byteLength := 12 },
       { buffer := 1, byteOffset := 0, byteLength := 6 },
       { buffer := 2, byteOffset := 0, byteLength := 7 },
       { buffer := 3, byteOffset := 0, byteLength := 6 },
       { buffer := 4, byteOffset := 0, byteLength := 12 }],
    meshes :=
      [{ primitives :=
          [{ attributes := [("POSITION", 3)], indices := some 2, mode := some 4,
             extensions := none }] }] }

/-- Witness for C1: the concrete one-triangle asset compressed at zero
quantization and then decompressed reads back its index sequence and
POSITION values exactly. -/
theorem C1_witness :
    ∃ p2 : Primitive, primitiveAt g3C1 0 0 = some p2 ∧
      primitiveIndexData g3C1 p2 = primitiveIndexData gltfC1 primC1 ∧
      ∀ sem ∈ primC1.attributes.map Prod.fst,
        primitiveAttributeData g3C1 p2 sem = primitiveAttributeData gltfC1 primC1 sem :=
  C1_zero_quantization_roundtrip gltfC1 optC1 g2C1 g3C1 0 0 primC1 1 accIxC1 1
    rfl (Or.inr rfl) rfl rfl (Or.inr (Or.inl rfl)) rfl rfl (by decide)
    (by decide)
    (Or.inr ⟨1, { buffer := 1, byteOffset := 0, byteLength := 6 }, rfl, rfl, rfl⟩)
    (by decide)
    ⟨("POSITION", 0), by decide, by decide⟩
    (fun sv hsv => by
      have hsv2 : sv = ("POSITION", 0) := List.mem_singleton.mp hsv
      subst hsv2
      exact ⟨accPosC1, rfl, by decide, rfl,
        Or.inr ⟨0, { buffer := 0, byteOffset := 0, byteLength := 12 }, rfl, rfl, rfl⟩,
        by decide, by decide⟩)
    (fun mj pj pk h => by
      unfold primitiveAt at h
      rcases mj with _ | mj1
      · rcases pj with _ | pj1
        · have h2 : some primC1 = some pk := h
          injection h2 with h3
          rw [← h3]
          exact ⟨rfl, by decide⟩
        · exact Option.noConfusion h
      · exact Option.noConfusion h)
    (by decide) rfl rfl
